import Mathlib

/-!
# HarmonyNixieTracker firmware: RTC sequencer and nixie display pipeline

A shallow embedding of `firmware/src/rtc_mcp7940n.c` and `firmware/src/app_nixie.c`.

Conventions of the embedding

* `uint8_t` and `char` values are natural numbers; every store into an 8-bit object is
  written with an explicit `% 256`.  `size_t` is 32 bits wide (PIC32), written `% 2 ^ 32`.
* C arrays are lists.  In the RTC sequencer every index is a compile-time constant, so the
  arrays are read with `List.getD` and written with `List.set`; theorems say how long the
  arrays have to be.  In the display pipeline indices depend on run-time data, so a function
  that indexes an array returns `none` when an index leaves its array (undefined in C).
* A call into a transport driver is recorded in a list of calls returned next to the new
  state; the answers of the drivers are an explicit argument.
-/

/-! ## RTC sequencer: data model -/

/-- Constants of the chip header `rtc_mcp7940n.h`; they are parameters of the sequencer. -/
structure MCP7940N_Constants where
  MCP7940N_I2C_ADDRESS : Nat
  MCP7940N_REG_ADDR_SECONDS : Nat
  MCP7940N_REG_ADDR_DAY_OF_WEEK : Nat
  MCP7940N_FLAG_START_OSCILLATOR : Nat
  MCP7940N_FLAG_BATTERY_ENABLE : Nat
  deriving DecidableEq

/-- Modelled from the spec: the declaration of `RTC_MCP7940N_DateTime` is in rtc_mcp7940n.h,
which is not among the sources.  The field names are those the sequencer uses; the order is
that of the chip's contiguous register block (seconds, minutes, hours, day-of-week, day,
month, year), one byte per field, as the sequencer reads the block straight into the
object. -/
structure RTC_MCP7940N_DateTime where
  seconds : Nat
  minutes : Nat
  hours : Nat
  day_of_week : Nat
  day : Nat
  month : Nat
  year : Nat
  deriving DecidableEq

/-- Modelled from the spec: `sizeof(RTC_MCP7940N_DateTime)`, one byte for each of the seven
fields of the register block. -/
def sizeof_DateTime : Nat := 7

/-- The date-time object seen as the byte array `(uint8_t*)date_time`. -/
def RTC_MCP7940N_DateTime.toBytes (t : RTC_MCP7940N_DateTime) : List Nat :=
  [t.seconds, t.minutes, t.hours, t.day_of_week, t.day, t.month, t.year]

/-- The date-time object whose bytes are the first seven entries of `b`. -/
def RTC_MCP7940N_DateTime.ofBytes (b : List Nat) : RTC_MCP7940N_DateTime where
  seconds := b.getD 0 0
  minutes := b.getD 1 0
  hours := b.getD 2 0
  day_of_week := b.getD 3 0
  day := b.getD 4 0
  month := b.getD 5 0
  year := b.getD 6 0

/-- Phase of the sequencer (`RTC_MCP7940N_STATE_*`). -/
inductive RTC_MCP7940N_State where
  | NONE
  | ERROR
  | I2C_STAUS_CHECK
  deriving DecidableEq

/-- Follow-up action of the transfer in flight (`RTC_MCP7940N_TASK_*`). -/
inductive RTC_MCP7940N_Task where
  | NONE
  | OSCILLATOR_UPDATE_ENABLE
  | OSCILLATOR_UPDATE_DISABLE
  | OSCILLATOR_UPDATE_STATUS
  | BATTERY_UPDATE_ENABLE
  | BATTERY_UPDATE_DISABLE
  | BATTERY_UPDATE_STATUS
  | DATE_TIME_CONVERT_BCD
  | DATE_TIME_UPDATE_AND_TRANSMIT
  deriving DecidableEq

/-- Modelled from the spec: status of a bus transfer as `DRV_I2C_TransferStatusGet` reports
it, Pending, Complete or Error.  The sequencer tells `COMPLETE` and `ERROR` apart and takes
its `default` branch for every other value, which is `PENDING` here. -/
inductive DRV_I2C_BUFFER_EVENT where
  | PENDING
  | COMPLETE
  | ERROR
  deriving DecidableEq

/-- Private part of the sequencer (`rtc->_private`). Pointers are addresses, 0 is `NULL`. -/
structure RTC_MCP7940N_Private where
  register_storage : List Nat
  date_time : RTC_MCP7940N_DateTime
  date_time_ptr : Nat
  return_status_ptr : Nat
  deriving DecidableEq

/-- The sequencer object `RTC_MCP7940N`. Handles are numbers, 0 is `NULL`. -/
structure RTC_MCP7940N where
  state : RTC_MCP7940N_State
  next_task : RTC_MCP7940N_Task
  i2c_handle : Nat
  i2c_buffer_handle : Nat
  transmit_buffer : List Nat
  _private : RTC_MCP7940N_Private
  deriving DecidableEq

/-- Where the bytes of a transmit-then-receive are stored. -/
inductive I2C_ReceiveBuffer where
  | private_register_storage
  | date_time (ptr : Nat)
  | external (ptr : Nat)
  deriving DecidableEq

/-- One call into the Bus Transport, with the bytes handed over for transmission. -/
inductive I2C_Call where
  | Transmit (handle address : Nat) (data : List Nat)
  | TransmitThenReceive (handle address : Nat) (data : List Nat)
      (receive : I2C_ReceiveBuffer) (num_bytes_receive : Nat)
  deriving DecidableEq

/-- Answers of the Bus Transport during one step: the status of each transfer handle and the
handle that a transmit issued in this step returns (0 is the invalid handle). -/
structure I2C_Bus where
  status : Nat → DRV_I2C_BUFFER_EVENT
  new_handle : Nat

/-- Result of a sequencer routine: new object, transport calls issued, returned flag. -/
structure RTC_Step where
  rtc : RTC_MCP7940N
  calls : List I2C_Call
  ok : Bool
  deriving DecidableEq

/-- The sequencer together with the caller-owned objects its pointers refer to. -/
structure RTC_World where
  rtc : RTC_MCP7940N
  date_time_at : Nat → RTC_MCP7940N_DateTime
  status_at : Nat → Bool

/-! ## RTC sequencer: internal routines -/

/-- Complement of a non-negative C `int` constant, as the 32-bit pattern of `~x`. -/
def bitNot32 (x : Nat) : Nat := 4294967295 - x % 4294967296

/-- Encoded value `(decimal / 10) << 4 | (decimal % 10)` before it is narrowed to a byte. -/
def bcdOfDecimal (decimal : Nat) : Nat := ((decimal / 10) <<< 4) ||| (decimal % 10)

/-- The routine `convertToBCD`. -/
def convertToBCD (decimal : Nat) : Nat := bcdOfDecimal decimal % 256

/-- The routine `convertFromBCD`. -/
def convertFromBCD (bcd : Nat) : Nat :=
  let byte_msb := ((bcd &&& 0xF0) >>> 4) % 256
  let byte_lsb := (bcd &&& 0x0F) % 256
  ((byte_msb * 10) + byte_lsb) % 256

/-- The routine `getI2CTransferStatus`. -/
def getI2CTransferStatus (bus : I2C_Bus) (rtc : RTC_MCP7940N) : DRV_I2C_BUFFER_EVENT :=
  bus.status rtc.i2c_buffer_handle

/-- The routine `checkI2CBufferReadyForTransmit`. -/
def checkI2CBufferReadyForTransmit (bus : I2C_Bus) (rtc : RTC_MCP7940N) : Bool :=
  rtc.i2c_buffer_handle == 0 ||
  getI2CTransferStatus bus rtc == DRV_I2C_BUFFER_EVENT.COMPLETE ||
  getI2CTransferStatus bus rtc == DRV_I2C_BUFFER_EVENT.ERROR

/-- The routine `performI2CTransmit`, transmitting the first `num_bytes` bytes of the
transmit buffer. -/
def performI2CTransmit (c : MCP7940N_Constants) (bus : I2C_Bus) (rtc : RTC_MCP7940N)
    (num_bytes : Nat) : RTC_Step :=
  if !checkI2CBufferReadyForTransmit bus rtc then
    { rtc := { rtc with state := RTC_MCP7940N_State.ERROR }, calls := [], ok := false }
  else
    let call := I2C_Call.Transmit rtc.i2c_handle (c.MCP7940N_I2C_ADDRESS <<< 1)
      (rtc.transmit_buffer.take num_bytes)
    let rtc1 := { rtc with i2c_buffer_handle := bus.new_handle }
    if rtc1.i2c_buffer_handle == 0 then
      { rtc := { rtc1 with state := RTC_MCP7940N_State.ERROR }, calls := [call], ok := false }
    else
      { rtc := { rtc1 with state := RTC_MCP7940N_State.I2C_STAUS_CHECK },
        calls := [call], ok := true }

/-- The routine `performI2CTransmitThenReceive`. -/
def performI2CTransmitThenReceive (c : MCP7940N_Constants) (bus : I2C_Bus)
    (rtc : RTC_MCP7940N) (num_bytes_transmit : Nat) (receive_buffer : I2C_ReceiveBuffer)
    (num_bytes_receive : Nat) : RTC_Step :=
  if !checkI2CBufferReadyForTransmit bus rtc then
    { rtc := { rtc with state := RTC_MCP7940N_State.ERROR }, calls := [], ok := false }
  else
    let call := I2C_Call.TransmitThenReceive rtc.i2c_handle (c.MCP7940N_I2C_ADDRESS <<< 1)
      (rtc.transmit_buffer.take num_bytes_transmit) receive_buffer num_bytes_receive
    let rtc1 := { rtc with i2c_buffer_handle := bus.new_handle }
    if rtc1.i2c_buffer_handle == 0 then
      { rtc := { rtc1 with state := RTC_MCP7940N_State.ERROR }, calls := [call], ok := false }
    else
      { rtc := { rtc1 with state := RTC_MCP7940N_State.I2C_STAUS_CHECK },
        calls := [call], ok := true }

/-- The routine `oscillatorUpdateBits`. -/
def oscillatorUpdateBits (c : MCP7940N_Constants) (bus : I2C_Bus) (rtc : RTC_MCP7940N) :
    RTC_Step :=
  let tb0 := rtc.transmit_buffer.set 0 (c.MCP7940N_REG_ADDR_SECONDS % 256)
  let r := rtc._private.register_storage.getD 0 0
  let tb1 :=
    if rtc.next_task = RTC_MCP7940N_Task.OSCILLATOR_UPDATE_ENABLE then
      tb0.set 1 ((r ||| c.MCP7940N_FLAG_START_OSCILLATOR) % 256)
    else
      tb0.set 1 ((r &&& bitNot32 c.MCP7940N_FLAG_START_OSCILLATOR) % 256)
  performI2CTransmit c bus { rtc with transmit_buffer := tb1 } 2

/-- The routine `oscillatorUpdateStatus`: the flag stored through `return_status_ptr`. -/
def oscillatorUpdateStatus (c : MCP7940N_Constants) (w : RTC_World) : RTC_World :=
  let enabled : Bool :=
    (w.rtc._private.register_storage.getD 0 0 &&& c.MCP7940N_FLAG_START_OSCILLATOR) != 0
  { w with status_at := Function.update w.status_at w.rtc._private.return_status_ptr enabled }

/-- The routine `batteryUpdateBits`. -/
def batteryUpdateBits (c : MCP7940N_Constants) (bus : I2C_Bus) (rtc : RTC_MCP7940N) :
    RTC_Step :=
  let tb0 := rtc.transmit_buffer.set 0 (c.MCP7940N_REG_ADDR_DAY_OF_WEEK % 256)
  let r := rtc._private.register_storage.getD 0 0
  let tb1 :=
    if rtc.next_task = RTC_MCP7940N_Task.BATTERY_UPDATE_ENABLE then
      tb0.set 1 ((r ||| c.MCP7940N_FLAG_BATTERY_ENABLE) % 256)
    else
      tb0.set 1 ((r &&& bitNot32 c.MCP7940N_FLAG_BATTERY_ENABLE) % 256)
  performI2CTransmit c bus { rtc with transmit_buffer := tb1 } 2

/-- The routine `batteryUpdateStatus`: the flag stored through `return_status_ptr`. -/
def batteryUpdateStatus (c : MCP7940N_Constants) (w : RTC_World) : RTC_World :=
  let enabled : Bool :=
    (w.rtc._private.register_storage.getD 0 0 &&& c.MCP7940N_FLAG_BATTERY_ENABLE) != 0
  { w with status_at := Function.update w.status_at w.rtc._private.return_status_ptr enabled }

/-- Copy of `src` into `dst` from index `offset` on (`memcpy(&dst[offset], src, ...)`);
bytes that would fall behind the end of `dst` are not stored. -/
def memcpyAt (dst : List Nat) (offset : Nat) (src : List Nat) : List Nat :=
  (dst.take offset ++ src ++ dst.drop (offset + src.length)).take dst.length

/-- The public operation `RTC_MCP7940N_WriteNumRegisters`; `register_storage` holds the bytes
the pointer argument refers to. -/
def RTC_MCP7940N_WriteNumRegisters (c : MCP7940N_Constants) (bus : I2C_Bus)
    (rtc : RTC_MCP7940N) (register_storage : List Nat) (num_registers : Nat) : RTC_Step :=
  let tb0 := rtc.transmit_buffer.set 0 (c.MCP7940N_REG_ADDR_SECONDS % 256)
  let tb1 := memcpyAt tb0 1 (register_storage.take num_registers)
  performI2CTransmit c bus { rtc with transmit_buffer := tb1 } (num_registers + 1)

/-- One line `reg[i] = (reg[i] & ~mask) | convertToBCD(field)` of the packing routine. -/
def packField (reg : Nat) (mask : Nat) (field : Nat) : Nat :=
  ((reg &&& bitNot32 mask) ||| convertToBCD field) % 256

/-- The register image written by `dateTimeConvertToBCDAndTransmit`. -/
def dateTimePack (reg : List Nat) (date_time : RTC_MCP7940N_DateTime) : List Nat :=
  let reg := reg.set 0 (packField (reg.getD 0 0) 0x7f date_time.seconds)
  let reg := reg.set 1 (packField (reg.getD 1 0) 0x7f date_time.minutes)
  let reg := reg.set 2 (packField (reg.getD 2 0) 0x3f date_time.hours)
  let reg := reg.set 3 (packField (reg.getD 3 0) 0x7 date_time.day_of_week)
  let reg := reg.set 4 (packField (reg.getD 4 0) 0x3f date_time.day)
  let reg := reg.set 5 (packField (reg.getD 5 0) 0xf date_time.month)
  let reg := reg.set 6 (packField (reg.getD 6 0) 0xff date_time.year)
  reg

/-- The routine `dateTimeConvertToBCDAndTransmit`. -/
def dateTimeConvertToBCDAndTransmit (c : MCP7940N_Constants) (bus : I2C_Bus)
    (rtc : RTC_MCP7940N) : RTC_Step :=
  let num_registers := sizeof_DateTime
  let reg := dateTimePack rtc._private.register_storage rtc._private.date_time
  let rtc1 := { rtc with _private := { rtc._private with register_storage := reg } }
  RTC_MCP7940N_WriteNumRegisters c bus rtc1 reg num_registers

/-- The field updates of `dateTimeConvertFromBCD` on one date-time object. -/
def dateTimeUnpack (date_time : RTC_MCP7940N_DateTime) : RTC_MCP7940N_DateTime where
  seconds := convertFromBCD (date_time.seconds &&& 0x7f)
  minutes := convertFromBCD (date_time.minutes &&& 0x7f)
  hours := convertFromBCD (date_time.hours &&& 0x3f)
  day_of_week := convertFromBCD (date_time.day_of_week &&& 0x7)
  day := convertFromBCD (date_time.day &&& 0x3f)
  month := convertFromBCD (date_time.month &&& 0xf)
  year := convertFromBCD (date_time.year &&& 0xff)

/-- The routine `dateTimeConvertFromBCD`, updating the object `date_time_ptr` refers to. -/
def dateTimeConvertFromBCD (w : RTC_World) : RTC_World :=
  let p := w.rtc._private.date_time_ptr
  { w with date_time_at := Function.update w.date_time_at p (dateTimeUnpack (w.date_time_at p)) }

/-- The routine `checkI2CStatus`. -/
def checkI2CStatus (c : MCP7940N_Constants) (bus : I2C_Bus) (w : RTC_World) :
    RTC_World × List I2C_Call :=
  match getI2CTransferStatus bus w.rtc with
  | DRV_I2C_BUFFER_EVENT.COMPLETE =>
    match w.rtc.next_task with
    | RTC_MCP7940N_Task.NONE =>
      ({ w with rtc := { w.rtc with state := RTC_MCP7940N_State.NONE } }, [])
    | RTC_MCP7940N_Task.OSCILLATOR_UPDATE_ENABLE
    | RTC_MCP7940N_Task.OSCILLATOR_UPDATE_DISABLE =>
      let s := oscillatorUpdateBits c bus w.rtc
      ({ w with rtc := { s.rtc with next_task := RTC_MCP7940N_Task.NONE } }, s.calls)
    | RTC_MCP7940N_Task.OSCILLATOR_UPDATE_STATUS =>
      (oscillatorUpdateStatus c
        { w with rtc := { w.rtc with next_task := RTC_MCP7940N_Task.NONE } }, [])
    | RTC_MCP7940N_Task.BATTERY_UPDATE_ENABLE
    | RTC_MCP7940N_Task.BATTERY_UPDATE_DISABLE =>
      let s := batteryUpdateBits c bus w.rtc
      ({ w with rtc := { s.rtc with next_task := RTC_MCP7940N_Task.NONE } }, s.calls)
    | RTC_MCP7940N_Task.BATTERY_UPDATE_STATUS =>
      (batteryUpdateStatus c
        { w with rtc := { w.rtc with next_task := RTC_MCP7940N_Task.NONE } }, [])
    | RTC_MCP7940N_Task.DATE_TIME_CONVERT_BCD =>
      (dateTimeConvertFromBCD
        { w with rtc := { w.rtc with next_task := RTC_MCP7940N_Task.NONE,
                                     state := RTC_MCP7940N_State.NONE } }, [])
    | RTC_MCP7940N_Task.DATE_TIME_UPDATE_AND_TRANSMIT =>
      let s := dateTimeConvertToBCDAndTransmit c bus
        { w.rtc with next_task := RTC_MCP7940N_Task.NONE }
      ({ w with rtc := s.rtc }, s.calls)
  | DRV_I2C_BUFFER_EVENT.ERROR =>
    ({ w with rtc := { w.rtc with state := RTC_MCP7940N_State.ERROR } }, [])
  | DRV_I2C_BUFFER_EVENT.PENDING => (w, [])

/-! ## RTC sequencer: public operations -/

/-- The poll entry point `RTC_MCP7940N_Tasks`. -/
def RTC_MCP7940N_Tasks (c : MCP7940N_Constants) (bus : I2C_Bus) (w : RTC_World) :
    RTC_World × List I2C_Call :=
  match w.rtc.state with
  | RTC_MCP7940N_State.NONE => (w, [])
  | RTC_MCP7940N_State.ERROR => (w, [])
  | RTC_MCP7940N_State.I2C_STAUS_CHECK => checkI2CStatus c bus w

/-- The query `RTC_MCP7940N_IsBusy`. -/
def RTC_MCP7940N_IsBusy (rtc : RTC_MCP7940N) : Bool :=
  !(rtc.state == RTC_MCP7940N_State.NONE || rtc.state == RTC_MCP7940N_State.ERROR)

/-- The public operation `RTC_MCP7940N_ReadNumRegisters`. -/
def RTC_MCP7940N_ReadNumRegisters (c : MCP7940N_Constants) (bus : I2C_Bus)
    (rtc : RTC_MCP7940N) (register_storage : I2C_ReceiveBuffer) (num_registers : Nat) :
    RTC_Step :=
  let tb := rtc.transmit_buffer.set 0 (c.MCP7940N_REG_ADDR_SECONDS % 256)
  performI2CTransmitThenReceive c bus { rtc with transmit_buffer := tb } 1
    register_storage (1 * num_registers)

/-- The public operation `RTC_MCP7940N_WriteDateAndTime`. -/
def RTC_MCP7940N_WriteDateAndTime (c : MCP7940N_Constants) (bus : I2C_Bus)
    (rtc : RTC_MCP7940N) (date_time : RTC_MCP7940N_DateTime) : RTC_Step :=
  let rtc1 := { rtc with next_task := RTC_MCP7940N_Task.DATE_TIME_UPDATE_AND_TRANSMIT }
  let rtc2 := { rtc1 with _private := { rtc1._private with date_time := date_time } }
  RTC_MCP7940N_ReadNumRegisters c bus rtc2 I2C_ReceiveBuffer.private_register_storage sizeof_DateTime

/-- The public operation `RTC_MCP7940N_ReadDateAndTime`. -/
def RTC_MCP7940N_ReadDateAndTime (c : MCP7940N_Constants) (bus : I2C_Bus)
    (rtc : RTC_MCP7940N) (date_time : Nat) : RTC_Step :=
  let tb := rtc.transmit_buffer.set 0 (c.MCP7940N_REG_ADDR_SECONDS % 256)
  let rtc1 := { rtc with transmit_buffer := tb,
                         next_task := RTC_MCP7940N_Task.DATE_TIME_CONVERT_BCD }
  let rtc2 := { rtc1 with _private := { rtc1._private with date_time_ptr := date_time } }
  performI2CTransmitThenReceive c bus rtc2 1 (I2C_ReceiveBuffer.date_time date_time)
    sizeof_DateTime

/-- The public operation `RTC_MCP7940N_ReadRegister`. -/
def RTC_MCP7940N_ReadRegister (c : MCP7940N_Constants) (bus : I2C_Bus)
    (rtc : RTC_MCP7940N) (register_address : Nat) (register_value : Nat) : RTC_Step :=
  let tb := rtc.transmit_buffer.set 0 (register_address % 256)
  performI2CTransmitThenReceive c bus { rtc with transmit_buffer := tb } 1
    (I2C_ReceiveBuffer.external register_value) 1

/-- The public operation `RTC_MCP7940N_WriteRegister`. -/
def RTC_MCP7940N_WriteRegister (c : MCP7940N_Constants) (bus : I2C_Bus)
    (rtc : RTC_MCP7940N) (register_address : Nat) (register_value : Nat) : RTC_Step :=
  let tb0 := rtc.transmit_buffer.set 0 (register_address % 256)
  let tb1 := tb0.set 1 (register_value % 256)
  performI2CTransmit c bus { rtc with transmit_buffer := tb1 } (2 * 1)

/-- The public operation `RTC_MCP7940N_EnableOscillator`. -/
def RTC_MCP7940N_EnableOscillator (c : MCP7940N_Constants) (bus : I2C_Bus)
    (rtc : RTC_MCP7940N) (enable : Bool) : RTC_Step :=
  let tb := rtc.transmit_buffer.set 0 (c.MCP7940N_REG_ADDR_SECONDS % 256)
  let task :=
    if enable then RTC_MCP7940N_Task.OSCILLATOR_UPDATE_ENABLE
    else RTC_MCP7940N_Task.OSCILLATOR_UPDATE_DISABLE
  performI2CTransmitThenReceive c bus { rtc with transmit_buffer := tb, next_task := task } 1
    I2C_ReceiveBuffer.private_register_storage 1

/-- The public operation `RTC_MCP7940N_OscillatorStatus`. -/
def RTC_MCP7940N_OscillatorStatus (c : MCP7940N_Constants) (bus : I2C_Bus)
    (rtc : RTC_MCP7940N) (enabled : Nat) : RTC_Step :=
  let tb := rtc.transmit_buffer.set 0 (c.MCP7940N_REG_ADDR_SECONDS % 256)
  let rtc1 := { rtc with transmit_buffer := tb,
                         next_task := RTC_MCP7940N_Task.OSCILLATOR_UPDATE_STATUS }
  let rtc2 := { rtc1 with _private := { rtc1._private with return_status_ptr := enabled } }
  performI2CTransmitThenReceive c bus rtc2 1 I2C_ReceiveBuffer.private_register_storage 1

/-- The public operation `RTC_MCP7940N_EnableBatteryBackup`. -/
def RTC_MCP7940N_EnableBatteryBackup (c : MCP7940N_Constants) (bus : I2C_Bus)
    (rtc : RTC_MCP7940N) (enable : Bool) : RTC_Step :=
  let tb := rtc.transmit_buffer.set 0 (c.MCP7940N_REG_ADDR_DAY_OF_WEEK % 256)
  let task :=
    if enable then RTC_MCP7940N_Task.BATTERY_UPDATE_ENABLE
    else RTC_MCP7940N_Task.BATTERY_UPDATE_DISABLE
  performI2CTransmitThenReceive c bus { rtc with transmit_buffer := tb, next_task := task } 1
    I2C_ReceiveBuffer.private_register_storage 1

/-- The public operation `RTC_MCP7940N_BatteryBackupStatus`. -/
def RTC_MCP7940N_BatteryBackupStatus (c : MCP7940N_Constants) (bus : I2C_Bus)
    (rtc : RTC_MCP7940N) (enabled : Nat) : RTC_Step :=
  let tb := rtc.transmit_buffer.set 0 (c.MCP7940N_REG_ADDR_DAY_OF_WEEK % 256)
  let rtc1 := { rtc with transmit_buffer := tb,
                         next_task := RTC_MCP7940N_Task.BATTERY_UPDATE_STATUS }
  let rtc2 := { rtc1 with _private := { rtc1._private with return_status_ptr := enabled } }
  performI2CTransmitThenReceive c bus rtc2 1 I2C_ReceiveBuffer.private_register_storage 1

/-- A public operation of the sequencer together with its arguments. -/
inductive RTC_Operation where
  | WriteDateAndTime (date_time : RTC_MCP7940N_DateTime)
  | ReadDateAndTime (date_time : Nat)
  | ReadRegister (register_address register_value : Nat)
  | WriteRegister (register_address register_value : Nat)
  | ReadNumRegisters (register_storage : I2C_ReceiveBuffer) (num_registers : Nat)
  | WriteNumRegisters (register_storage : List Nat) (num_registers : Nat)
  | EnableOscillator (enable : Bool)
  | OscillatorStatus (enabled : Nat)
  | EnableBatteryBackup (enable : Bool)
  | BatteryBackupStatus (enabled : Nat)
  deriving DecidableEq

/-- Invocation of a public operation. -/
def RTC_Operation.invoke (c : MCP7940N_Constants) (bus : I2C_Bus) (rtc : RTC_MCP7940N) :
    RTC_Operation → RTC_Step
  | RTC_Operation.WriteDateAndTime t => RTC_MCP7940N_WriteDateAndTime c bus rtc t
  | RTC_Operation.ReadDateAndTime p => RTC_MCP7940N_ReadDateAndTime c bus rtc p
  | RTC_Operation.ReadRegister a p => RTC_MCP7940N_ReadRegister c bus rtc a p
  | RTC_Operation.WriteRegister a v => RTC_MCP7940N_WriteRegister c bus rtc a v
  | RTC_Operation.ReadNumRegisters b n => RTC_MCP7940N_ReadNumRegisters c bus rtc b n
  | RTC_Operation.WriteNumRegisters s n => RTC_MCP7940N_WriteNumRegisters c bus rtc s n
  | RTC_Operation.EnableOscillator e => RTC_MCP7940N_EnableOscillator c bus rtc e
  | RTC_Operation.OscillatorStatus p => RTC_MCP7940N_OscillatorStatus c bus rtc p
  | RTC_Operation.EnableBatteryBackup e => RTC_MCP7940N_EnableBatteryBackup c bus rtc e
  | RTC_Operation.BatteryBackupStatus p => RTC_MCP7940N_BatteryBackupStatus c bus rtc p

/-! ## Display pipeline: data model -/

/-- Phase of the display pipeline (`APP_NIXIE_STATE_*`). -/
inductive APP_NIXIE_STATE where
  | IDLE
  | ERROR
  | BEGIN_HTTP_REQUEST
  | WAIT_HTTPS_CLIENT
  | WAIT_HTTPS_RESPONSE
  | BEGIN_DISPLAY_SEQUENCE
  | DECODE_DISPLAY_VALUE
  | ENCODE_SHIFT_REGISTER
  | WRITE_SHIFT_REGISTER
  deriving DecidableEq

/-- Hardware variant of a tube (`NIXIE_TYPE_*`). -/
inductive NixieType where
  | IN12A
  | IN12B
  deriving DecidableEq

/-- One entry of the wiring table: shift register index and bit index of a cathode. -/
structure CathodeMapping where
  byte : Nat
  bit : Nat
  deriving DecidableEq

/-- The pipeline object `AppNixieData`.  Characters are their codes; `request_url` and
`token` hold the characters before the terminating NUL; `display_value`, `nixie_types`,
`cathodes`, `cathode_mapping` and `register_shift_state` are the fixed-size arrays. -/
structure AppNixieData where
  state : APP_NIXIE_STATE
  app_https_client_data : Nat
  app_shift_register_data : Nat
  request_url : List Nat
  token : List Nat
  token_len : Nat
  value_parsed : Bool
  cyclic_buffer_len : Nat
  display_value : List Nat
  num_nixies : Nat
  nixie_types : List NixieType
  cathodes : List Int
  cathode_mapping : List (List CathodeMapping)
  register_shift_state : List Nat
  num_shift_registers : Nat
  deriving DecidableEq

/-- One call into the Remote Fetch Transport or the Shift-Register Transport. -/
inductive Nixie_Call where
  | HTTPS_Client_Request (client : Nat) (url : List Nat)
  | ShiftRegister_SendData (device : Nat) (data : List Nat) (num_bytes : Nat)
  deriving DecidableEq

/-- Answers of the two transports during one poll. -/
structure Nixie_Transports where
  https_client_is_busy : Bool
  https_client_request : Bool
  shift_register_is_busy : Bool
  deriving DecidableEq

/-- Width of `size_t` arithmetic: results are taken modulo this number. -/
def SIZE_T_MODULUS : Nat := 2 ^ 32

/-- Store into an array element; `none` when the index is outside the array. -/
def arraySet {α : Type} (a : List α) (i : Nat) (v : α) : Option (List α) :=
  if i < a.length then some (a.set i v) else none

/-! ## Display pipeline: tube variants -/

/-- The routine `IN12A_SymbolToCathodeIndex`; 48 and 57 are the codes of 0 and 9. -/
def IN12A_SymbolToCathodeIndex (symbol : Nat) : Int :=
  if symbol = 48 then 2
  else if symbol > 48 ∧ symbol ≤ 57 then 11 - ((symbol : Int) - 48)
  else -1

/-- The routine `IN12B_SymbolToCathodeIndex`; 44 is the code of the comma. -/
def IN12B_SymbolToCathodeIndex (symbol : Nat) : Int :=
  if symbol = 48 then 2
  else if symbol > 48 ∧ symbol ≤ 57 then 11 - ((symbol : Int) - 48)
  else if symbol = 44 then 12
  else -1

/-- The routine `nixieSymbolToCathodeIndex`. -/
def nixieSymbolToCathodeIndex (type : NixieType) (symbol : Nat) : Int :=
  match type with
  | NixieType.IN12A => IN12A_SymbolToCathodeIndex symbol
  | NixieType.IN12B => IN12B_SymbolToCathodeIndex symbol

/-! ## Display pipeline: fetch and parse -/

/-- Scan of `haystack` for `needle`, `pos` being the offset of `haystack` in the chunk. -/
def strstr_from (needle : List Nat) : List Nat → Nat → Option Nat
  | [], pos => if needle = [] then some pos else none
  | h :: t, pos =>
    if needle.isPrefixOf (h :: t) then some pos else strstr_from needle t (pos + 1)

/-- Modelled from the spec: `strstr_len` is declared in util_string.h, whose implementation
is not among the sources.  The spec has the chunk searched for the match token: the result
is the offset of the first occurrence of `token` within the first `len` bytes of `buffer`,
and `none` stands for the `NULL` returned when there is none. -/
def strstr_len (buffer : List Nat) (token : List Nat) (len : Nat) : Option Nat :=
  strstr_from token (buffer.take len) 0

/-- The copy loop of `parseValueFromBuffer`: `fuel` is `num_bytes - index`, the pointer
`buffer` is the chunk together with the offset of the pointer in it. -/
def parseValueLoop (chunk : List Nat) (offset : Nat) :
    Nat → Nat → List Nat → Option (List Nat)
  | 0, _, display_value => some display_value
  | fuel + 1, index, display_value =>
    match chunk[(offset + index) % SIZE_T_MODULUS]? with
    | none => none
    | some ch =>
      if ch ≥ 48 ∧ ch ≤ 57 then
        match arraySet display_value index ch with
        | none => none
        | some display_value1 => parseValueLoop chunk offset fuel (index + 1) display_value1
      else some display_value

/-- The routine `parseValueFromBuffer`; the pointer argument `buffer` is `chunk + offset`.
The result is `none` when a byte outside the chunk or outside `display_value` is accessed. -/
def parseValueFromBuffer (d : AppNixieData) (chunk : List Nat) (offset : Nat)
    (buffer_len : Nat) : Option AppNixieData :=
  let num_bytes := min buffer_len d.num_nixies
  match parseValueLoop chunk offset num_bytes 0 (List.replicate d.display_value.length 0) with
  | none => none
  | some display_value => some { d with display_value := display_value, value_parsed := true }

/-- The callback `bufferReceivedCallback` for the chunk `buffer` of `buffer.length` bytes. -/
def bufferReceivedCallback (buffer : List Nat) (d : AppNixieData) : Option AppNixieData :=
  let num_bytes := buffer.length
  let token_len := d.token_len
  if d.value_parsed then some d
  else
    match strstr_len buffer d.token num_bytes with
    | some found =>
      let token_pos := (0 + SIZE_T_MODULUS - found % SIZE_T_MODULUS) % SIZE_T_MODULUS
      let remainder := (num_bytes + SIZE_T_MODULUS - token_pos) % SIZE_T_MODULUS
      if remainder < d.num_nixies then some d
      else
        parseValueFromBuffer d buffer ((token_pos + token_len) % SIZE_T_MODULUS)
          ((num_bytes + SIZE_T_MODULUS - token_len % SIZE_T_MODULUS) % SIZE_T_MODULUS)
    | none => some d

/-- The callback `requestHandledCallback`. -/
def requestHandledCallback (d : AppNixieData) : AppNixieData :=
  { d with state := APP_NIXIE_STATE.BEGIN_DISPLAY_SEQUENCE }

/-- The callback `errorCallback`. -/
def errorCallback (d : AppNixieData) : AppNixieData :=
  { d with state := APP_NIXIE_STATE.ERROR }

/-- The routine `waitHttpsClientAndSendRequest`. -/
def waitHttpsClientAndSendRequest (env : Nixie_Transports) (d : AppNixieData) :
    AppNixieData × List Nixie_Call :=
  if env.https_client_is_busy then (d, [])
  else
    let d1 := { d with value_parsed := false, cyclic_buffer_len := 0 }
    let call := Nixie_Call.HTTPS_Client_Request d1.app_https_client_data d1.request_url
    if !env.https_client_request then
      ({ d1 with state := APP_NIXIE_STATE.ERROR }, [call])
    else
      ({ d1 with state := APP_NIXIE_STATE.WAIT_HTTPS_RESPONSE }, [call])

/-! ## Display pipeline: decode and drive -/

/-- The loop of `decodeDisplayValue`: `fuel` is `num_nixies - i`. -/
def decodeDisplayLoop (d : AppNixieData) : Nat → Nat → List Int → Option (List Int)
  | 0, _, cathodes => some cathodes
  | fuel + 1, i, cathodes =>
    match d.nixie_types[i]?, d.display_value[i]? with
    | some type, some symbol =>
      match arraySet cathodes i (nixieSymbolToCathodeIndex type symbol) with
      | none => none
      | some cathodes1 => decodeDisplayLoop d fuel (i + 1) cathodes1
    | _, _ => none

/-- The routine `decodeDisplayValue`. -/
def decodeDisplayValue (d : AppNixieData) : Option AppNixieData :=
  match decodeDisplayLoop d d.num_nixies 0 d.cathodes with
  | none => none
  | some cathodes =>
    some { d with cathodes := cathodes, state := APP_NIXIE_STATE.ENCODE_SHIFT_REGISTER }

/-- The wiring entry `cathode_mapping[i][cathode]`, `none` outside the table. -/
def cathodeMappingAt (d : AppNixieData) (i : Nat) (cathode : Int) : Option CathodeMapping :=
  if cathode < 0 then none
  else
    match d.cathode_mapping[i]? with
    | none => none
    | some row => row[cathode.toNat]?

/-- The statement `register_shift_state[byte] |= (1 << bit)` on an array of bytes; `none`
outside the array or when the shift is not defined for a 32-bit `int`. -/
def orBitInto (regs : List Nat) (byte bit : Nat) : Option (List Nat) :=
  if bit ≥ 31 then none
  else
    match regs[byte]? with
    | none => none
    | some old => arraySet regs byte ((old ||| (1 <<< bit)) % 256)

/-- The loop of `encodeShiftRegister`: `fuel` is `num_nixies - i`.  The two `SYS_ASSERT`
lines do not change any data and are not part of the loop. -/
def encodeShiftLoop (d : AppNixieData) : Nat → Nat → List Nat → Option (List Nat)
  | 0, _, regs => some regs
  | fuel + 1, i, regs =>
    match d.cathodes[i]? with
    | none => none
    | some cathode =>
      if cathode = -1 then encodeShiftLoop d fuel (i + 1) regs
      else
        match cathodeMappingAt d i cathode with
        | none => none
        | some m =>
          match orBitInto regs m.byte m.bit with
          | none => none
          | some regs1 => encodeShiftLoop d fuel (i + 1) regs1

/-- The routine `encodeShiftRegister`. -/
def encodeShiftRegister (d : AppNixieData) : Option AppNixieData :=
  match encodeShiftLoop d d.num_nixies 0 (List.replicate d.register_shift_state.length 0) with
  | none => none
  | some regs =>
    some { d with register_shift_state := regs, state := APP_NIXIE_STATE.WRITE_SHIFT_REGISTER }

/-- The routine `writeShiftRegister`. -/
def writeShiftRegister (env : Nixie_Transports) (d : AppNixieData) :
    AppNixieData × List Nixie_Call :=
  if env.shift_register_is_busy then (d, [])
  else
    ({ d with state := APP_NIXIE_STATE.IDLE },
     [Nixie_Call.ShiftRegister_SendData d.app_shift_register_data
        (d.register_shift_state.take d.num_shift_registers) d.num_shift_registers])

/-! ## Display pipeline: public operations -/

/-- The poll entry point `APP_Nixie_Tasks`. -/
def APP_Nixie_Tasks (env : Nixie_Transports) (d : AppNixieData) :
    Option (AppNixieData × List Nixie_Call) :=
  match d.state with
  | APP_NIXIE_STATE.IDLE => some (d, [])
  | APP_NIXIE_STATE.ERROR => some ({ d with state := APP_NIXIE_STATE.IDLE }, [])
  | APP_NIXIE_STATE.BEGIN_HTTP_REQUEST =>
    some ({ d with state := APP_NIXIE_STATE.WAIT_HTTPS_CLIENT }, [])
  | APP_NIXIE_STATE.WAIT_HTTPS_CLIENT => some (waitHttpsClientAndSendRequest env d)
  | APP_NIXIE_STATE.WAIT_HTTPS_RESPONSE => some (d, [])
  | APP_NIXIE_STATE.BEGIN_DISPLAY_SEQUENCE =>
    some ({ d with state := APP_NIXIE_STATE.DECODE_DISPLAY_VALUE }, [])
  | APP_NIXIE_STATE.DECODE_DISPLAY_VALUE => (decodeDisplayValue d).map (fun d1 => (d1, []))
  | APP_NIXIE_STATE.ENCODE_SHIFT_REGISTER => (encodeShiftRegister d).map (fun d1 => (d1, []))
  | APP_NIXIE_STATE.WRITE_SHIFT_REGISTER => some (writeShiftRegister env d)

/-- The query `APP_Nixie_IsBusy`. -/
def APP_Nixie_IsBusy (d : AppNixieData) : Bool :=
  d.state != APP_NIXIE_STATE.IDLE

/-- The library routine `strncpy(dest, src, n)` for `n` the size of `dest`: `src` holds the
characters the pointer refers to, read up to its first NUL (a list that ends earlier is a
string whose terminating NUL is left out); the rest of `dest` is filled with NUL. -/
def strncpy (dest : List Nat) (src : List Nat) : List Nat :=
  let copied := (src.takeWhile (fun ch => ch != 0)).take dest.length
  copied ++ List.replicate (dest.length - copied.length) 0

/-- Result of `APP_Nixie_Display`: returned flag, new object, transport calls issued. -/
structure Nixie_DisplayResult where
  accepted : Bool
  data : AppNixieData
  calls : List Nixie_Call
  deriving DecidableEq

/-- The public operation `APP_Nixie_Display`. -/
def APP_Nixie_Display (d : AppNixieData) (value : List Nat) : Nixie_DisplayResult :=
  if APP_Nixie_IsBusy d then { accepted := false, data := d, calls := [] }
  else
    let d1 := { d with display_value := List.replicate d.display_value.length 0 }
    let d2 := { d1 with display_value := strncpy d1.display_value value }
    { accepted := true,
      data := { d2 with state := APP_NIXIE_STATE.BEGIN_DISPLAY_SEQUENCE },
      calls := [] }

/-- The characters of a string literal as character codes. -/
def charCodes (s : String) : List Nat := s.toList.map Char.toNat

/-! ## Display pipeline: setup -/

/-- Sizes of the character arrays `request_url` and `token` of `AppNixieData`, declared in
app_nixie.h; they are parameters of the setup. -/
structure AppNixieDataSizes where
  sizeof_request_url : Nat
  sizeof_token : Nat
  deriving DecidableEq

/-- Modelled from the spec: `safe_strncpy` is declared in util_string.h, whose
implementation is not among the sources.  The spec has `request_url` and the match token
hold the configured strings: the copy is that of the characters of `src` before its NUL
into an array of `size` characters, the last of which is kept for the terminating NUL. -/
def safe_strncpy (src : List Nat) (size : Nat) : List Nat :=
  (src.takeWhile (fun ch => ch != 0)).take (size - 1)

/-- One line `NIXIE_CATHODE(symbol, cathode_index, shift_byte, shift_bit)` of the wiring
diagram in `APP_Nixie_Initialize`. -/
structure NIXIE_CATHODE where
  symbol : Nat
  cathode_index : Nat
  shift_byte : Nat
  shift_bit : Nat
  deriving DecidableEq

/-- The ten `NIXIE_CATHODE` lines that `APP_Nixie_Initialize` has for each of its four
tubes; the symbols are the codes of the digits 0, 9, 8, ..., 1. -/
def IN12A_wiring : List NIXIE_CATHODE :=
  [{ symbol := 48, cathode_index := 2, shift_byte := 0, shift_bit := 0 },
   { symbol := 57, cathode_index := 3, shift_byte := 0, shift_bit := 0 },
   { symbol := 56, cathode_index := 4, shift_byte := 0, shift_bit := 0 },
   { symbol := 55, cathode_index := 5, shift_byte := 0, shift_bit := 0 },
   { symbol := 54, cathode_index := 6, shift_byte := 0, shift_bit := 0 },
   { symbol := 53, cathode_index := 7, shift_byte := 0, shift_bit := 0 },
   { symbol := 52, cathode_index := 8, shift_byte := 0, shift_bit := 0 },
   { symbol := 51, cathode_index := 9, shift_byte := 0, shift_bit := 0 },
   { symbol := 50, cathode_index := 10, shift_byte := 0, shift_bit := 0 },
   { symbol := 49, cathode_index := 11, shift_byte := 0, shift_bit := 0 }]

/-- The two assignments of the macro `NIXIE_CATHODE` for the tube `tube`; `none` outside
the wiring table. -/
def setCathodeMapping (table : List (List CathodeMapping)) (tube : Nat)
    (line : NIXIE_CATHODE) : Option (List (List CathodeMapping)) :=
  match table[tube]? with
  | none => none
  | some row =>
    match arraySet row line.cathode_index
        { byte := line.shift_byte, bit := line.shift_bit } with
    | none => none
    | some row1 => arraySet table tube row1

/-- The `NIXIE_CATHODE` lines of one tube, in order. -/
def registerCathodes (tube : Nat) :
    List NIXIE_CATHODE → List (List CathodeMapping) → Option (List (List CathodeMapping))
  | [], table => some table
  | line :: rest, table =>
    match setCathodeMapping table tube line with
    | none => none
    | some table1 => registerCathodes tube rest table1

/-- The block `NIXIE_TUBE_BEGIN(type); NIXIE_CATHODE(...); ...; NIXIE_TUBE_END();`. -/
def registerTube (d : AppNixieData) (type : NixieType) (lines : List NIXIE_CATHODE) :
    Option AppNixieData :=
  match arraySet d.nixie_types d.num_nixies type with
  | none => none
  | some types =>
    match registerCathodes d.num_nixies lines d.cathode_mapping with
    | none => none
    | some table =>
      some { d with nixie_types := types, cathode_mapping := table,
                    num_nixies := d.num_nixies + 1 }

/-- The statements of `APP_Nixie_Initialize` before the wiring diagram, on the object `d` as
it is in memory before the call: state, transports, request URL, token and its length, and
the empty display of `NIXIE_REGISTER_BEGIN`. -/
def APP_Nixie_Initialize_configuration (sizes : AppNixieDataSizes) (d : AppNixieData)
    (app_https_client_data app_shift_register_data : Nat) : AppNixieData :=
  let d := { d with state := APP_NIXIE_STATE.IDLE,
                    app_https_client_data := app_https_client_data,
                    app_shift_register_data := app_shift_register_data }
  let url := charCodes "https://dveloper.blender.org/app_nixie_data->request_url"
  let d := { d with request_url := safe_strncpy url sizes.sizeof_request_url }
  let d := { d with token := safe_strncpy (charCodes ">Open Tasks (") sizes.sizeof_token }
  let d := { d with token_len := d.token.length }
  { d with num_nixies := 0 }

/-- The public operation `APP_Nixie_Initialize`: the configuration, the four tubes of the
wiring diagram and the number of shift registers; `none` when a tube or a cathode does not
fit into the arrays. -/
def APP_Nixie_Initialize (sizes : AppNixieDataSizes) (d : AppNixieData)
    (app_https_client_data app_shift_register_data : Nat) : Option AppNixieData :=
  match registerTube
      (APP_Nixie_Initialize_configuration sizes d app_https_client_data
        app_shift_register_data) NixieType.IN12A IN12A_wiring with
  | none => none
  | some d =>
    match registerTube d NixieType.IN12A IN12A_wiring with
    | none => none
    | some d =>
      match registerTube d NixieType.IN12A IN12A_wiring with
      | none => none
      | some d =>
        match registerTube d NixieType.IN12A IN12A_wiring with
        | none => none
        | some d => some { d with num_shift_registers := 6 }

/-- The element `table[i][j]` of a wiring table, `none` outside the table. -/
def wiringAt (table : List (List CathodeMapping)) (i j : Nat) : Option CathodeMapping :=
  match table[i]? with
  | none => none
  | some row => row[j]?

/-! ## Sequences of steps -/

/-- The Bus Transport completing a transmit-then-receive whose receive buffer is
`register_storage`: the received bytes `data` are stored from its first element on. -/
def I2C_receiveRegisterStorage (rtc : RTC_MCP7940N) (data : List Nat) : RTC_MCP7940N :=
  { rtc with _private := { rtc._private with
      register_storage := memcpyAt rtc._private.register_storage 0 data } }

/-- Polls of the sequencer in a row, one for each bus answer of the list, with the
transport calls of all of them. -/
def RTC_MCP7940N_Tasks_repeat (c : MCP7940N_Constants) :
    List I2C_Bus → RTC_World → RTC_World × List I2C_Call
  | [], w => (w, [])
  | bus :: rest, w =>
    let first := RTC_MCP7940N_Tasks c bus w
    let others := RTC_MCP7940N_Tasks_repeat c rest first.1
    (others.1, first.2 ++ others.2)

/-- Polls of the display pipeline in a row, one for each transport answer of the list, with
the transport calls of all of them. -/
def APP_Nixie_Tasks_repeat :
    List Nixie_Transports → AppNixieData → Option (AppNixieData × List Nixie_Call)
  | [], d => some (d, [])
  | env :: rest, d =>
    match APP_Nixie_Tasks env d with
    | none => none
    | some first =>
      match APP_Nixie_Tasks_repeat rest first.1 with
      | none => none
      | some others => some (others.1, first.2 ++ others.2)

/-- The character that `APP_Nixie_Display` leaves in `display_value[i]` for the argument
`value`: the character `value[i]` when it lies before the first NUL of `value`, and the NUL
of the `memset` and of the padding of `strncpy` otherwise. -/
def displayedSymbol (value : List Nat) (i : Nat) : Nat :=
  ((value.takeWhile (fun ch => ch != 0))[i]?).getD 0

/-- The raw register operations: single-register and burst read and write. -/
def RTC_Operation.isRawRegisterAccess : RTC_Operation → Bool
  | RTC_Operation.ReadRegister _ _ => true
  | RTC_Operation.WriteRegister _ _ => true
  | RTC_Operation.ReadNumRegisters _ _ => true
  | RTC_Operation.WriteNumRegisters _ _ => true
  | _ => false

/-- The follow-up task staged by `RTC_MCP7940N_EnableOscillator` (`oscillator`) or
`RTC_MCP7940N_EnableBatteryBackup` for the argument `enable`. -/
def updateBitsTask (oscillator enable : Bool) : RTC_MCP7940N_Task :=
  match oscillator, enable with
  | true, true => RTC_MCP7940N_Task.OSCILLATOR_UPDATE_ENABLE
  | true, false => RTC_MCP7940N_Task.OSCILLATOR_UPDATE_DISABLE
  | false, true => RTC_MCP7940N_Task.BATTERY_UPDATE_ENABLE
  | false, false => RTC_MCP7940N_Task.BATTERY_UPDATE_DISABLE

/-- The register that holds the oscillator flag (`oscillator`) or the battery flag. -/
def flagRegisterAddress (c : MCP7940N_Constants) (oscillator : Bool) : Nat :=
  if oscillator then c.MCP7940N_REG_ADDR_SECONDS else c.MCP7940N_REG_ADDR_DAY_OF_WEEK

/-- The oscillator flag (`oscillator`) or the battery flag. -/
def flagMask (c : MCP7940N_Constants) (oscillator : Bool) : Nat :=
  if oscillator then c.MCP7940N_FLAG_START_OSCILLATOR else c.MCP7940N_FLAG_BATTERY_ENABLE

/-- The status query of the oscillator (`oscillator`) or of the battery backup. -/
def statusQuery (oscillator : Bool) (enabled : Nat) : RTC_Operation :=
  if oscillator then RTC_Operation.OscillatorStatus enabled
  else RTC_Operation.BatteryBackupStatus enabled

/-! ## Objects used in statements and examples -/

/-- Masks of the seven date-time registers, in register order. -/
def dateTimeMasks : List Nat := [0x7f, 0x7f, 0x3f, 0x7, 0x3f, 0xf, 0xff]

/-- Chip constants of the MCP7940N data sheet, for examples. -/
def exampleConstants : MCP7940N_Constants :=
  { MCP7940N_I2C_ADDRESS := 0x6f, MCP7940N_REG_ADDR_SECONDS := 0x00,
    MCP7940N_REG_ADDR_DAY_OF_WEEK := 0x03, MCP7940N_FLAG_START_OSCILLATOR := 0x80,
    MCP7940N_FLAG_BATTERY_ENABLE := 0x08 }

/-- A bus on which every transfer is still pending. -/
def examplePendingBus : I2C_Bus :=
  { status := fun _ => DRV_I2C_BUFFER_EVENT.PENDING, new_handle := 2 }

/-- A bus on which every transfer has completed. -/
def exampleCompleteBus : I2C_Bus :=
  { status := fun _ => DRV_I2C_BUFFER_EVENT.COMPLETE, new_handle := 2 }

/-- A sequencer waiting for transfer 1, with status bits set in its register cache and the
date-time 23:59:58, day 5 of the week, 28.09.99 staged for writing. -/
def exampleRtc : RTC_MCP7940N :=
  { state := RTC_MCP7940N_State.I2C_STAUS_CHECK, next_task := RTC_MCP7940N_Task.NONE,
    i2c_handle := 1, i2c_buffer_handle := 1,
    transmit_buffer := [0, 0, 0, 0, 0, 0, 0, 0],
    _private :=
      { register_storage := [0x80, 0x00, 0x40, 0x28, 0x00, 0x20, 0x00],
        date_time := { seconds := 58, minutes := 59, hours := 23, day_of_week := 5,
                       day := 28, month := 9, year := 99 },
        date_time_ptr := 0, return_status_ptr := 0 } }

/-- A pipeline with four IN-12A tubes and six shift registers that waits for the response
of a fetch, still showing 1234; every cathode is wired to bit 0 of register 0. -/
def exampleNixie : AppNixieData :=
  { state := APP_NIXIE_STATE.WAIT_HTTPS_RESPONSE, app_https_client_data := 1,
    app_shift_register_data := 2, request_url := charCodes "https://example.org/",
    token := charCodes ">Open Tasks (", token_len := 13, value_parsed := false,
    cyclic_buffer_len := 0, display_value := charCodes "1234", num_nixies := 4,
    nixie_types := List.replicate 4 NixieType.IN12A, cathodes := [11, 10, 9, 8],
    cathode_mapping := List.replicate 4 (List.replicate 13 { byte := 0, bit := 0 }),
    register_shift_state := [1, 0, 0, 0, 0, 0], num_shift_registers := 6 }

/-- A display of one IN-12B tube in the encode phase: cathode 7 (the digit 5 of the wiring
diagram) is wired to bit 0 of register 0, every other cathode to bit 3 of register 1, and
the registers still hold an earlier pattern. -/
def exampleOneTube : AppNixieData :=
  { state := APP_NIXIE_STATE.ENCODE_SHIFT_REGISTER, app_https_client_data := 1,
    app_shift_register_data := 2, request_url := [], token := charCodes ">Open Tasks (",
    token_len := 13, value_parsed := false, cyclic_buffer_len := 0,
    display_value := charCodes "5", num_nixies := 1,
    nixie_types := [NixieType.IN12B], cathodes := [7],
    cathode_mapping :=
      [(List.replicate 13 { byte := 1, bit := 3 }).set 7 { byte := 0, bit := 0 }],
    register_shift_state := [0xff, 0x08], num_shift_registers := 2 }

/-- The example sequencer with the year 160 staged for writing. -/
def exampleRtcYear160 : RTC_MCP7940N :=
  { exampleRtc with
    _private := { exampleRtc._private with
      date_time := { exampleRtc._private.date_time with year := 160 } } }

/-- A bus on which every transfer has failed. -/
def exampleErrorBus : I2C_Bus :=
  { status := fun _ => DRV_I2C_BUFFER_EVENT.ERROR, new_handle := 2 }

/-- The example sequencer at rest: no task, no transfer handle. -/
def exampleIdleRtc : RTC_MCP7940N :=
  { exampleRtc with state := RTC_MCP7940N_State.NONE, i2c_buffer_handle := 0 }

/-- A world around a sequencer in which every caller-owned object is zero. -/
def exampleWorld (rtc : RTC_MCP7940N) : RTC_World :=
  { rtc := rtc,
    date_time_at := fun _ =>
      { seconds := 0, minutes := 0, hours := 0, day_of_week := 0, day := 0, month := 0,
        year := 0 },
    status_at := fun _ => false }

/-- A world in which the caller's date-time object at address 100 holds the raw registers
0xd8, 0x59, 0x63, 0x2d, 0x28, 0x29, 0x99 (status bits set next to 23:59:58, day 5,
28.09.99). -/
def exampleReadWorld (rtc : RTC_MCP7940N) : RTC_World :=
  { exampleWorld rtc with
    date_time_at := fun _ =>
      RTC_MCP7940N_DateTime.ofBytes [0xd8, 0x59, 0x63, 0x2d, 0x28, 0x29, 0x99] }

/-- The sequencer after a failed enable-oscillator sequence: `RTC_MCP7940N_EnableOscillator`
from the idle sequencer, then a poll that observes a bus error. -/
def exampleFailedEnableRtc : RTC_MCP7940N :=
  (RTC_MCP7940N_Tasks exampleConstants exampleErrorBus
    (exampleWorld
      (RTC_MCP7940N_EnableOscillator exampleConstants exampleCompleteBus exampleIdleRtc
        true).rtc)).1.rtc

/-- Sizes of the character arrays for examples. -/
def exampleSizes : AppNixieDataSizes := { sizeof_request_url := 64, sizeof_token := 32 }

/-- The pipeline object as it is in memory before setup: room for four tubes with thirteen
cathodes each and six shift registers, with arbitrary earlier contents. -/
def exampleMemory : AppNixieData :=
  { state := APP_NIXIE_STATE.WRITE_SHIFT_REGISTER, app_https_client_data := 0,
    app_shift_register_data := 0, request_url := [], token := [], token_len := 0,
    value_parsed := true, cyclic_buffer_len := 3, display_value := charCodes "1234",
    num_nixies := 7, nixie_types := List.replicate 4 NixieType.IN12B,
    cathodes := [5, 5, 5, 5],
    cathode_mapping := List.replicate 4 (List.replicate 13 { byte := 9, bit := 9 }),
    register_shift_state := [0xff, 0xff, 0xff, 0xff, 0xff, 0xff], num_shift_registers := 0 }

/-- The example sequencer with the calendar date 28.10.99 staged for writing. -/
def exampleRtcMonth10 : RTC_MCP7940N :=
  { exampleRtc with
    _private := { exampleRtc._private with
      date_time := { exampleRtc._private.date_time with month := 10 } } }

/-- Transports that are free and accept a request. -/
def exampleFreeTransports : Nixie_Transports :=
  { https_client_is_busy := false, https_client_request := true,
    shift_register_is_busy := false }

/-- Transports that are busy. -/
def exampleBusyTransports : Nixie_Transports :=
  { https_client_is_busy := true, https_client_request := false,
    shift_register_is_busy := true }

/-! ## Theorems: BCD codec and date-time conversion -/

set_option maxRecDepth 100000 in
theorem convertFromBCD_eq_shift_mask :
    ∀ b < 256, convertFromBCD b = 10 * (b >>> 4) + (b &&& 0xF) := by
  decide

/-- C1: BCD round trip. For every decimal `d` with `0 <= d <= 99`, decoding the encoding of
`d` gives `d` again; on that range `convertToBCD d` is `(d / 10) << 4 | (d % 10)` with no
loss in the narrowing to a byte, and on every byte `b` `convertFromBCD b` is
`10 * (b >> 4) + (b & 0xF)`. -/
theorem convertFromBCD_convertToBCD (d : Nat) (hd : d ≤ 99) :
    convertFromBCD (convertToBCD d) = d ∧
    convertToBCD d = ((d / 10) <<< 4 ||| d % 10) ∧
    ∀ b < 256, convertFromBCD b = 10 * (b >>> 4) + (b &&& 0xF) := by
  refine ⟨?_, ?_, convertFromBCD_eq_shift_mask⟩
  · interval_cases d <;> rfl
  · interval_cases d <;> rfl

/-- Witness of C1 at the decimal 47, encoded as 0x47. -/
theorem convertFromBCD_convertToBCD_witness :
    convertToBCD 47 = 0x47 ∧
    (convertFromBCD (convertToBCD 47) = 47 ∧
     convertToBCD 47 = ((47 / 10) <<< 4 ||| 47 % 10) ∧
     ∀ b < 256, convertFromBCD b = 10 * (b >>> 4) + (b &&& 0xF)) :=
  ⟨by decide, convertFromBCD_convertToBCD 47 (by decide)⟩

theorem bitNot32_testBit (k j : Nat) (hk : k ≤ 8) :
    (bitNot32 (2 ^ k - 1)).testBit j = (decide (j < 32) && !decide (j < k)) := by
  have hlt : 2 ^ k - 1 < 2 ^ 32 := by
    have : 2 ^ k ≤ 2 ^ 8 := Nat.pow_le_pow_right (by norm_num) hk
    have h2 : 0 < 2 ^ k := Nat.two_pow_pos k
    omega
  have h1 : bitNot32 (2 ^ k - 1) = 2 ^ 32 - ((2 ^ k - 1) + 1) := by
    unfold bitNot32
    rw [Nat.mod_eq_of_lt (by simpa using hlt)]
    norm_num
    omega
  rw [h1, Nat.testBit_two_pow_sub_succ hlt, Nat.testBit_two_pow_sub_one]

theorem packField_land_mask (r k d : Nat) (hk : k ≤ 8) (he : bcdOfDecimal d < 2 ^ k) :
    packField r (2 ^ k - 1) d &&& (2 ^ k - 1) = bcdOfDecimal d := by
  have h256 : bcdOfDecimal d < 256 :=
    lt_of_lt_of_le he (by simpa using Nat.pow_le_pow_right (show 0 < 2 by norm_num) hk)
  apply Nat.eq_of_testBit_eq
  intro j
  have hbit : j ≥ k → (bcdOfDecimal d).testBit j = false := fun hjk =>
    Nat.testBit_lt_two_pow (lt_of_lt_of_le he (Nat.pow_le_pow_right (by norm_num) hjk))
  unfold packField convertToBCD
  rw [Nat.mod_eq_of_lt h256]
  rw [Nat.testBit_and, Nat.testBit_two_pow_sub_one, show (256 : Nat) = 2 ^ 8 by norm_num,
    Nat.testBit_mod_two_pow, Nat.testBit_or, Nat.testBit_and, bitNot32_testBit k j hk]
  by_cases hjk : j < k
  · have : j < 8 := by omega
    simp [hjk, this]
  · simp [hjk, hbit (by omega)]

theorem packField_testBit (r k d j : Nat) (hk : k ≤ 8) (he : bcdOfDecimal d < 2 ^ k)
    (hj : j < 8) (hkj : k ≤ j) : (packField r (2 ^ k - 1) d).testBit j = r.testBit j := by
  have h256 : bcdOfDecimal d < 256 :=
    lt_of_lt_of_le he (by simpa using Nat.pow_le_pow_right (show 0 < 2 by norm_num) hk)
  have hbit : (bcdOfDecimal d).testBit j = false :=
    Nat.testBit_lt_two_pow (lt_of_lt_of_le he (Nat.pow_le_pow_right (by norm_num) hkj))
  unfold packField convertToBCD
  rw [Nat.mod_eq_of_lt h256, show (256 : Nat) = 2 ^ 8 by norm_num,
    Nat.testBit_mod_two_pow, Nat.testBit_or, Nat.testBit_and, bitNot32_testBit k j hk, hbit]
  have : ¬ j < k := by omega
  have h32 : j < 32 := by omega
  simp [hj, this, h32]

theorem bcdOfDecimal_eq_add (d : Nat) : bcdOfDecimal d = 16 * (d / 10) + d % 10 := by
  unfold bcdOfDecimal
  have h : d % 10 < 2 ^ 4 := by
    have := Nat.mod_lt d (show 10 > 0 by norm_num)
    omega
  rw [Nat.shiftLeft_eq, Nat.mul_comm, ← Nat.mul_add_lt_is_or h]

theorem bcdOfDecimal_lt_256 (d : Nat) (h : bcdOfDecimal d < 256) : d < 160 := by
  rw [bcdOfDecimal_eq_add] at h
  omega

theorem convertFromBCD_bcdOfDecimal (d : Nat) (h : bcdOfDecimal d < 256) :
    convertFromBCD (bcdOfDecimal d) = d := by
  have hd := bcdOfDecimal_lt_256 d h
  interval_cases d <;> rfl

theorem dateTimeConvertToBCDAndTransmit_storage (c : MCP7940N_Constants) (bus : I2C_Bus)
    (rtc : RTC_MCP7940N) :
    (dateTimeConvertToBCDAndTransmit c bus rtc).rtc._private.register_storage =
      dateTimePack rtc._private.register_storage rtc._private.date_time := by
  unfold dateTimeConvertToBCDAndTransmit RTC_MCP7940N_WriteNumRegisters performI2CTransmit
  simp only []
  split_ifs <;> rfl

theorem list_seven (reg : List Nat) (h : 7 ≤ reg.length) :
    ∃ a0 a1 a2 a3 a4 a5 a6 rest, reg = a0 :: a1 :: a2 :: a3 :: a4 :: a5 :: a6 :: rest := by
  match reg, h with
  | a0 :: a1 :: a2 :: a3 :: a4 :: a5 :: a6 :: rest, _ => exact ⟨a0, a1, a2, a3, a4, a5, a6, rest, rfl⟩

theorem convertFromBCD_packField (r k d : Nat) (hk : k ≤ 8) (he : bcdOfDecimal d < 2 ^ k) :
    convertFromBCD (packField r (2 ^ k - 1) d &&& (2 ^ k - 1)) = d := by
  rw [packField_land_mask r k d hk he]
  exact convertFromBCD_bcdOfDecimal d
    (lt_of_lt_of_le he (by simpa using Nat.pow_le_pow_right (show 0 < 2 by norm_num) hk))

theorem bcdOfDecimal_of_convertToBCD (d k : Nat) (hd : d < 160)
    (he : convertToBCD d < 2 ^ k) : bcdOfDecimal d < 2 ^ k := by
  have h256 : bcdOfDecimal d < 256 := by
    rw [bcdOfDecimal_eq_add]
    omega
  unfold convertToBCD at he
  rwa [Nat.mod_eq_of_lt h256] at he

/-- C2, counterexample: the year 160 is encoded by `convertToBCD` as the byte 0, which fits
the 8-bit year mask (every other field of the example fits its mask as well), and is read
back as 0. -/
theorem dateTime_pack_unpack_counterexample :
    convertToBCD 160 = 0 ∧
    convertToBCD 58 < 2 ^ 7 ∧ convertToBCD 59 < 2 ^ 7 ∧ convertToBCD 23 < 2 ^ 6 ∧
    convertToBCD 5 < 2 ^ 3 ∧ convertToBCD 28 < 2 ^ 6 ∧ convertToBCD 9 < 2 ^ 4 ∧
    convertToBCD 160 < 2 ^ 8 ∧
    exampleRtcYear160._private.date_time =
      { seconds := 58, minutes := 59, hours := 23, day_of_week := 5, day := 28, month := 9,
        year := 160 } ∧
    (dateTimeConvertToBCDAndTransmit exampleConstants exampleCompleteBus
      exampleRtcYear160).rtc._private.register_storage =
        [0xd8, 0x59, 0x63, 0x2d, 0x28, 0x29, 0x00] ∧
    dateTimeUnpack (RTC_MCP7940N_DateTime.ofBytes
      (dateTimeConvertToBCDAndTransmit exampleConstants exampleCompleteBus
        exampleRtcYear160).rtc._private.register_storage) =
      { seconds := 58, minutes := 59, hours := 23, day_of_week := 5, day := 28, month := 9,
        year := 0 } := by
  decide

/-- C2, amended: date-time conversion round trip. For every prior register image (an array
of at least seven registers) and every staged date-time whose fields are below 160 and
whose BCD-encoded fields fit their masked widths (seconds, minutes: 7 bits; hours: 6;
day-of-week: 3; day: 6; month: 4; year: 8), the seven registers left by
`dateTimeConvertToBCDAndTransmit`, unpacked by `dateTimeConvertFromBCD`, give the staged
field values, and every bit of register `i` outside the mask of field `i` is the same after
packing as before. -/
theorem dateTime_pack_unpack (c : MCP7940N_Constants) (bus : I2C_Bus) (rtc : RTC_MCP7940N)
    (hlen : 7 ≤ rtc._private.register_storage.length)
    (hseconds0 : rtc._private.date_time.seconds < 160 ∧
      convertToBCD rtc._private.date_time.seconds < 2 ^ 7)
    (hminutes0 : rtc._private.date_time.minutes < 160 ∧
      convertToBCD rtc._private.date_time.minutes < 2 ^ 7)
    (hhours0 : rtc._private.date_time.hours < 160 ∧
      convertToBCD rtc._private.date_time.hours < 2 ^ 6)
    (hday_of_week0 : rtc._private.date_time.day_of_week < 160 ∧
      convertToBCD rtc._private.date_time.day_of_week < 2 ^ 3)
    (hday0 : rtc._private.date_time.day < 160 ∧
      convertToBCD rtc._private.date_time.day < 2 ^ 6)
    (hmonth0 : rtc._private.date_time.month < 160 ∧
      convertToBCD rtc._private.date_time.month < 2 ^ 4)
    (hyear0 : rtc._private.date_time.year < 160 ∧
      convertToBCD rtc._private.date_time.year < 2 ^ 8) :
    (∀ w : RTC_World,
      w.date_time_at w.rtc._private.date_time_ptr =
        RTC_MCP7940N_DateTime.ofBytes
          (dateTimeConvertToBCDAndTransmit c bus rtc).rtc._private.register_storage →
      (dateTimeConvertFromBCD w).date_time_at w.rtc._private.date_time_ptr =
        rtc._private.date_time) ∧
    (∀ i < 7, ∀ j < 8, (dateTimeMasks.getD i 0).testBit j = false →
      (((dateTimeConvertToBCDAndTransmit c bus rtc).rtc._private.register_storage).getD i 0).testBit j
        = (rtc._private.register_storage.getD i 0).testBit j) := by
  have hseconds := bcdOfDecimal_of_convertToBCD _ 7 hseconds0.1 hseconds0.2
  have hminutes := bcdOfDecimal_of_convertToBCD _ 7 hminutes0.1 hminutes0.2
  have hhours := bcdOfDecimal_of_convertToBCD _ 6 hhours0.1 hhours0.2
  have hday_of_week := bcdOfDecimal_of_convertToBCD _ 3 hday_of_week0.1 hday_of_week0.2
  have hday := bcdOfDecimal_of_convertToBCD _ 6 hday0.1 hday0.2
  have hmonth := bcdOfDecimal_of_convertToBCD _ 4 hmonth0.1 hmonth0.2
  have hyear := bcdOfDecimal_of_convertToBCD _ 8 hyear0.1 hyear0.2
  clear hseconds0 hminutes0 hhours0 hday_of_week0 hday0 hmonth0 hyear0
  rw [dateTimeConvertToBCDAndTransmit_storage]
  obtain ⟨a0, a1, a2, a3, a4, a5, a6, rest, hreg⟩ := list_seven _ hlen
  rw [hreg]
  constructor
  · intro w hw
    unfold dateTimeConvertFromBCD
    simp only [Function.update_same, hw]
    have e0 := convertFromBCD_packField a0 7 _ (by norm_num) hseconds
    have e1 := convertFromBCD_packField a1 7 _ (by norm_num) hminutes
    have e2 := convertFromBCD_packField a2 6 _ (by norm_num) hhours
    have e3 := convertFromBCD_packField a3 3 _ (by norm_num) hday_of_week
    have e4 := convertFromBCD_packField a4 6 _ (by norm_num) hday
    have e5 := convertFromBCD_packField a5 4 _ (by norm_num) hmonth
    have e6 := convertFromBCD_packField a6 8 _ (by norm_num) hyear
    norm_num at e0 e1 e2 e3 e4 e5 e6
    cases hdt : rtc._private.date_time
    rw [hdt] at e0 e1 e2 e3 e4 e5 e6
    simp only [dateTimeUnpack, RTC_MCP7940N_DateTime.ofBytes, dateTimePack, List.set_cons_zero,
      List.set_cons_succ, List.getD_cons_zero, List.getD_cons_succ] at *
    simp [e0, e1, e2, e3, e4, e5, e6]
  · intro i hi j hj hmask
    have key : ∀ k : Nat, (2 ^ k - 1).testBit j = false → k ≤ j := by
      intro k hkj
      rw [Nat.testBit_two_pow_sub_one] at hkj
      simpa using hkj
    simp only [dateTimePack, List.set_cons_zero, List.set_cons_succ, List.getD_cons_zero,
      List.getD_cons_succ]
    interval_cases i
    · exact packField_testBit a0 7 _ j (by norm_num) hseconds hj (key 7 hmask)
    · exact packField_testBit a1 7 _ j (by norm_num) hminutes hj (key 7 hmask)
    · exact packField_testBit a2 6 _ j (by norm_num) hhours hj (key 6 hmask)
    · exact packField_testBit a3 3 _ j (by norm_num) hday_of_week hj (key 3 hmask)
    · exact packField_testBit a4 6 _ j (by norm_num) hday hj (key 6 hmask)
    · exact packField_testBit a5 4 _ j (by norm_num) hmonth hj (key 4 hmask)
    · exact packField_testBit a6 8 _ j (by norm_num) hyear hj (key 8 hmask)

/-- Witness of the amended C2: 23:59:58, day 5, 28.09.99 written over a register image that has the
oscillator, 12/24, battery and leap-year bits set. -/
theorem dateTime_pack_unpack_witness :
    (dateTimeConvertToBCDAndTransmit exampleConstants exampleCompleteBus
        exampleRtc).rtc._private.register_storage = [0xd8, 0x59, 0x63, 0x2d, 0x28, 0x29, 0x99] ∧
    ((∀ w : RTC_World,
      w.date_time_at w.rtc._private.date_time_ptr =
        RTC_MCP7940N_DateTime.ofBytes
          (dateTimeConvertToBCDAndTransmit exampleConstants exampleCompleteBus
            exampleRtc).rtc._private.register_storage →
      (dateTimeConvertFromBCD w).date_time_at w.rtc._private.date_time_ptr =
        exampleRtc._private.date_time) ∧
    (∀ i < 7, ∀ j < 8, (dateTimeMasks.getD i 0).testBit j = false →
      (((dateTimeConvertToBCDAndTransmit exampleConstants exampleCompleteBus
          exampleRtc).rtc._private.register_storage).getD i 0).testBit j
        = (exampleRtc._private.register_storage.getD i 0).testBit j)) :=
  ⟨by decide,
   dateTime_pack_unpack exampleConstants exampleCompleteBus exampleRtc (by decide) (by decide)
     (by decide) (by decide) (by decide) (by decide) (by decide) (by decide)⟩

/-! ## Theorems: display pipeline, fetch and parse -/

/-- C3: token extraction at a non-zero offset, evaluated on the code. For the chunk
`...>Open Tasks (42)...` the token is found at offset 3; the callback computes the token
position as `buffer_char - found` and so reads from offset `13 - 3 = 10` of the chunk (the
letter `a` of the token) instead of the byte after the token: `display_value` becomes four
zero bytes, not `42\0\0`, and `value_parsed` becomes true. -/
theorem bufferReceivedCallback_token_at_offset :
    strstr_len (charCodes "...>Open Tasks (42)...") exampleNixie.token 22 = some 3 ∧
    bufferReceivedCallback (charCodes "...>Open Tasks (42)...") exampleNixie =
      some { exampleNixie with display_value := [0, 0, 0, 0], value_parsed := true } ∧
    (bufferReceivedCallback (charCodes "...>Open Tasks (42)...") exampleNixie).map
      (fun d => d.display_value) ≠ some (charCodes "42" ++ [0, 0]) := by
  decide

theorem strstr_len_token_first (token rest : List Nat) :
    strstr_len (token ++ rest) token (token ++ rest).length = some 0 := by
  unfold strstr_len
  rw [List.take_length]
  cases h : token ++ rest with
  | nil =>
    have : token = [] := by
      cases token with
      | nil => rfl
      | cons a t => simp at h
    simp [strstr_from, this]
  | cons a t =>
    have hp : token.isPrefixOf (a :: t) = true := by
      rw [← h]
      simp [List.isPrefixOf_iff_prefix]
    simp [strstr_from, hp]

theorem parseValueLoop_token_rest (token rest : List Nat)
    (hsize : (token ++ rest).length < SIZE_T_MODULUS) :
    ∀ (fuel : Nat) (pre : List Nat) (n : Nat),
      pre.length + fuel ≤ rest.length → fuel ≤ n →
      parseValueLoop (token ++ rest) token.length fuel pre.length (pre ++ List.replicate n 0) =
        some (pre ++ ((rest.drop pre.length).take fuel).takeWhile (fun ch => decide (ch ≥ 48 ∧ ch ≤ 57)) ++
          List.replicate
            (n - (((rest.drop pre.length).take fuel).takeWhile (fun ch => decide (ch ≥ 48 ∧ ch ≤ 57))).length) 0) := by
  intro fuel
  induction fuel with
  | zero =>
    intro pre n _ _
    simp [parseValueLoop]
  | succ fuel ih =>
    intro pre n hrest hn
    have hidx : pre.length < rest.length := by omega
    have hmod : (token.length + pre.length) % SIZE_T_MODULUS = token.length + pre.length := by
      apply Nat.mod_eq_of_lt
      rw [List.length_append] at hsize
      omega
    have hread : (token ++ rest)[token.length + pre.length]? = some (rest[pre.length]) := by
      rw [List.getElem?_append_right (by omega)]
      simp [hidx]
    have hdrop : (rest.drop pre.length).take (fuel + 1) =
        rest[pre.length] :: (rest.drop (pre.length + 1)).take fuel := by
      rw [List.drop_eq_getElem_cons hidx, List.take_succ_cons]
    obtain ⟨m, rfl⟩ : ∃ m, n = m + 1 := ⟨n - 1, by omega⟩
    have hset : arraySet (pre ++ List.replicate (m + 1) 0) pre.length rest[pre.length] =
        some ((pre ++ [rest[pre.length]]) ++ List.replicate m 0) := by
      unfold arraySet
      simp [List.replicate_succ]
    unfold parseValueLoop
    rw [hmod, hread, hdrop]
    by_cases hdigit : rest[pre.length] ≥ 48 ∧ rest[pre.length] ≤ 57
    · have ih1 := ih (pre ++ [rest[pre.length]]) m (by simp; omega) (by omega)
      simp only [List.length_append, List.length_singleton] at ih1
      simp only [hdigit, and_self, if_true, hset, ih1]
      simp [List.takeWhile_cons, hdigit]
    · simp [hdigit, List.takeWhile_cons]

/-- C4: digit truncation. For every chunk `token ++ rest` (token at offset 0) whose total
length is at least the tube count, `bufferReceivedCallback` with `value_parsed = false`
leaves `display_value` equal to the longest prefix of `rest` made of ASCII digits, cut at
`min(len(rest), num_nixies)`, followed by zero bytes, and sets `value_parsed`; no other
field changes. The chunk length is a `uint16_t`, `token_len` is the length of the token
and the tubes fit into `display_value`. -/
theorem bufferReceivedCallback_token_first (d : AppNixieData) (rest : List Nat)
    (hparsed : d.value_parsed = false)
    (htoken : d.token_len = d.token.length)
    (hslots : d.num_nixies ≤ d.display_value.length)
    (hlen : d.num_nixies ≤ (d.token ++ rest).length)
    (hsize : (d.token ++ rest).length < 65536) :
    bufferReceivedCallback (d.token ++ rest) d =
      some { d with
        display_value :=
          (rest.takeWhile (fun ch => decide (ch ≥ 48 ∧ ch ≤ 57))).take
              (min rest.length d.num_nixies) ++
            List.replicate
              (d.display_value.length -
                ((rest.takeWhile (fun ch => decide (ch ≥ 48 ∧ ch ≤ 57))).take
                  (min rest.length d.num_nixies)).length) 0,
        value_parsed := true } := by
  have hM : (d.token ++ rest).length < SIZE_T_MODULUS :=
    lt_trans hsize (by unfold SIZE_T_MODULUS; norm_num)
  have hM2 : d.token.length + rest.length < 4294967296 := by
    have := hM
    unfold SIZE_T_MODULUS at this
    rw [List.length_append] at this
    simpa using this
  have hloop := parseValueLoop_token_rest d.token rest hM (min rest.length d.num_nixies) []
    d.display_value.length (by simp) (by simp; omega)
  simp only [List.length_nil, List.drop_zero, List.nil_append] at hloop
  rw [← List.take_takeWhile] at hloop
  unfold bufferReceivedCallback
  simp only [hparsed, strstr_len_token_first, htoken]
  have hlen2 : d.num_nixies ≤ d.token.length + rest.length := by
    rw [List.length_append] at hlen
    exact hlen
  have e1 : ((d.token ++ rest).length + SIZE_T_MODULUS -
      (0 + SIZE_T_MODULUS - 0 % SIZE_T_MODULUS) % SIZE_T_MODULUS) % SIZE_T_MODULUS =
      d.token.length + rest.length := by
    unfold SIZE_T_MODULUS
    rw [List.length_append]
    norm_num
    omega
  have e2 : ((0 + SIZE_T_MODULUS - 0 % SIZE_T_MODULUS) % SIZE_T_MODULUS + d.token.length) %
      SIZE_T_MODULUS = d.token.length := by
    unfold SIZE_T_MODULUS
    norm_num
    omega
  have e3 : ((d.token ++ rest).length + SIZE_T_MODULUS - d.token.length % SIZE_T_MODULUS) %
      SIZE_T_MODULUS = rest.length := by
    unfold SIZE_T_MODULUS
    rw [List.length_append]
    norm_num
    omega
  rw [e1, e2, e3]
  have hnot : ¬ d.token.length + rest.length < d.num_nixies := by omega
  simp only [Bool.false_eq_true, if_false, hnot]
  unfold parseValueFromBuffer
  simp only [hloop]
  simp [htoken]

/-- Witness of C4: the chunk `>Open Tasks (12a9` with four tubes gives `12\0\0`. -/
theorem bufferReceivedCallback_token_first_witness :
    charCodes ">Open Tasks (12a9" = exampleNixie.token ++ charCodes "12a9" ∧
    bufferReceivedCallback (exampleNixie.token ++ charCodes "12a9") exampleNixie =
      some { exampleNixie with display_value := [49, 50, 0, 0], value_parsed := true } :=
  ⟨by decide,
   bufferReceivedCallback_token_first exampleNixie (charCodes "12a9") rfl rfl (by decide)
     (by decide) (by decide)⟩

/-- C5: once `value_parsed` is true, `bufferReceivedCallback` returns the pipeline object
unchanged for every chunk: `display_value`, `value_parsed`, `state` and every other field
keep their values. -/
theorem bufferReceivedCallback_value_parsed (buffer : List Nat) (d : AppNixieData)
    (hparsed : d.value_parsed = true) : bufferReceivedCallback buffer d = some d := by
  unfold bufferReceivedCallback
  simp [hparsed]

/-- Witness of C5: a second chunk with the token followed by other digits. -/
theorem bufferReceivedCallback_value_parsed_witness :
    bufferReceivedCallback (charCodes ">Open Tasks (97)...")
        { exampleNixie with display_value := [52, 50, 0, 0], value_parsed := true } =
      some { exampleNixie with display_value := [52, 50, 0, 0], value_parsed := true } :=
  bufferReceivedCallback_value_parsed _ _ rfl

/-- C6: split value, evaluated on the code. For the chunk `>Open Tasks (4`, where one byte
follows the token and the tube count is 4, the callback compares the whole chunk length
(14) with the tube count, parses, stores `4\0\0\0` and sets `value_parsed`. -/
theorem bufferReceivedCallback_split_value :
    bufferReceivedCallback (charCodes ">Open Tasks (4") exampleNixie =
      some { exampleNixie with display_value := [52, 0, 0, 0], value_parsed := true } ∧
    exampleNixie.value_parsed = false ∧ exampleNixie.num_nixies = 4 ∧
    (charCodes ">Open Tasks (4").length - exampleNixie.token.length = 1 := by
  decide

/-! ## Theorems: display pipeline, public operations -/

/-- C7: display busy gating. In every state other than `IDLE` (`ERROR` included) and for
every value, `APP_Nixie_Display` returns false, leaves the whole pipeline object unchanged
and issues no transport call. -/
theorem APP_Nixie_Display_busy (d : AppNixieData) (value : List Nat)
    (hbusy : d.state ≠ APP_NIXIE_STATE.IDLE) :
    APP_Nixie_Display d value = { accepted := false, data := d, calls := [] } := by
  unfold APP_Nixie_Display APP_Nixie_IsBusy
  simp [hbusy]

/-- Witness of C7 in the error state. -/
theorem APP_Nixie_Display_busy_witness :
    APP_Nixie_Display { exampleNixie with state := APP_NIXIE_STATE.ERROR } (charCodes "42") =
      { accepted := false, data := { exampleNixie with state := APP_NIXIE_STATE.ERROR },
        calls := [] } :=
  APP_Nixie_Display_busy _ _ (by decide)

/-- C9: display accepted. When the pipeline is `IDLE` and `display_value` has one slot per
tube, `APP_Nixie_Display` returns true, issues no transport call, sets the state to
`BEGIN_DISPLAY_SEQUENCE` and leaves in `display_value` the characters of `value` before its
first NUL, at most `num_nixies` of them, followed by zeros in every unused slot; no other
field changes. -/
theorem APP_Nixie_Display_idle (d : AppNixieData) (value : List Nat)
    (hidle : d.state = APP_NIXIE_STATE.IDLE)
    (hslots : d.display_value.length = d.num_nixies) :
    APP_Nixie_Display d value =
      { accepted := true,
        data := { d with
          state := APP_NIXIE_STATE.BEGIN_DISPLAY_SEQUENCE,
          display_value :=
            (value.takeWhile (fun ch => ch != 0)).take d.num_nixies ++
              List.replicate
                (d.num_nixies - ((value.takeWhile (fun ch => ch != 0)).take d.num_nixies).length)
                0 },
        calls := [] } ∧
    ((value.takeWhile (fun ch => ch != 0)).take d.num_nixies).length ≤ d.num_nixies ∧
    (APP_Nixie_Display d value).data.display_value.length = d.num_nixies := by
  have hlen : ((value.takeWhile (fun ch => ch != 0)).take d.num_nixies).length ≤ d.num_nixies := by
    rw [List.length_take]
    exact Nat.min_le_left _ _
  refine ⟨?_, hlen, ?_⟩
  · unfold APP_Nixie_Display APP_Nixie_IsBusy strncpy
    simp [hidle, hslots]
  · unfold APP_Nixie_Display APP_Nixie_IsBusy strncpy
    simp [hidle, hslots]

/-- Witness of C9: the two-digit value 42 on four idle tubes. -/
theorem APP_Nixie_Display_idle_witness :
    (APP_Nixie_Display { exampleNixie with state := APP_NIXIE_STATE.IDLE }
        (charCodes "42")).data.display_value = [52, 50, 0, 0] ∧
    APP_Nixie_Display { exampleNixie with state := APP_NIXIE_STATE.IDLE } (charCodes "42") =
      { accepted := true,
        data := { exampleNixie with
          state := APP_NIXIE_STATE.BEGIN_DISPLAY_SEQUENCE,
          display_value := [52, 50, 0, 0] },
        calls := [] } :=
  ⟨by decide,
   (APP_Nixie_Display_idle { exampleNixie with state := APP_NIXIE_STATE.IDLE }
      (charCodes "42") rfl rfl).1⟩

/-! ## Theorems: display pipeline, decode and drive -/

theorem orBitInto_spec (regs : List Nat) (byte bit : Nat) (hbit : bit < 31)
    (hbyte : byte < regs.length) :
    ∃ regs1, orBitInto regs byte bit = some regs1 ∧ regs1.length = regs.length ∧
      ∀ r b, b < 8 → ((regs1.getD r 0).testBit b = true ↔
        ((regs.getD r 0).testBit b = true ∨ (byte = r ∧ bit = b))) := by
  refine ⟨regs.set byte ((regs[byte] ||| (1 <<< bit)) % 256), ?_, by simp, ?_⟩
  · unfold orBitInto arraySet
    have : ¬ bit ≥ 31 := by omega
    simp [this, hbyte]
  · intro r b hb
    rw [List.getD_eq_getElem?_getD, List.getD_eq_getElem?_getD, List.getElem?_set]
    by_cases hr : byte = r
    · subst hr
      simp only [hbyte, if_true, Option.getD_some, List.getElem?_eq_getElem]
      rw [show (256 : Nat) = 2 ^ 8 by norm_num, Nat.testBit_mod_two_pow, Nat.testBit_or,
        Nat.one_shiftLeft, Nat.testBit_two_pow]
      simp [hb]
    · simp [hr]

theorem encodeShiftLoop_spec (d : AppNixieData) :
    ∀ (fuel i : Nat) (regs : List Nat),
      (∀ k, i ≤ k → k < i + fuel → ∃ cathode, d.cathodes[k]? = some cathode ∧
        (cathode = -1 ∨ ∃ m, cathodeMappingAt d k cathode = some m ∧
          m.byte < regs.length ∧ m.bit < 31)) →
      ∃ regs1, encodeShiftLoop d fuel i regs = some regs1 ∧ regs1.length = regs.length ∧
        ∀ r b, b < 8 → ((regs1.getD r 0).testBit b = true ↔
          ((regs.getD r 0).testBit b = true ∨
            ∃ k, i ≤ k ∧ k < i + fuel ∧ ∃ cathode, d.cathodes[k]? = some cathode ∧
              cathode ≠ -1 ∧ cathodeMappingAt d k cathode = some { byte := r, bit := b })) := by
  intro fuel
  induction fuel with
  | zero =>
    intro i regs _
    refine ⟨regs, rfl, rfl, ?_⟩
    intro r b _
    constructor
    · exact fun h => Or.inl h
    · rintro (h | ⟨k, h1, h2, _⟩)
      · exact h
      · omega
  | succ fuel ih =>
    intro i regs hdef
    obtain ⟨cathode, hc, hcase⟩ := hdef i (le_refl i) (by omega)
    unfold encodeShiftLoop
    simp only [hc]
    by_cases hneg : cathode = -1
    · simp only [hneg, if_true]
      obtain ⟨regs1, h1, h2, h3⟩ := ih (i + 1) regs
        (fun k hk1 hk2 => hdef k (by omega) (by omega))
      refine ⟨regs1, h1, h2, ?_⟩
      intro r b hb
      rw [h3 r b hb]
      constructor
      · rintro (h | ⟨k, hk1, hk2, hk3⟩)
        · exact Or.inl h
        · exact Or.inr ⟨k, by omega, by omega, hk3⟩
      · rintro (h | ⟨k, hk1, hk2, c2, hc2, hne, hm⟩)
        · exact Or.inl h
        · right
          have hki : k ≠ i := by
            rintro rfl
            rw [hc] at hc2
            exact hne (by rw [← Option.some.inj hc2, hneg])
          exact ⟨k, by omega, by omega, c2, hc2, hne, hm⟩
    · simp only [hneg, if_false]
      obtain ⟨m, hm, hmbyte, hmbit⟩ := hcase.resolve_left hneg
      obtain ⟨regs0, ho1, ho2, ho3⟩ := orBitInto_spec regs m.byte m.bit hmbit hmbyte
      simp only [hm, ho1]
      obtain ⟨regs1, h1, h2, h3⟩ := ih (i + 1) regs0
        (fun k hk1 hk2 => by
          obtain ⟨c2, hc2, hcase2⟩ := hdef k (by omega) (by omega)
          exact ⟨c2, hc2, by rw [ho2]; exact hcase2⟩)
      refine ⟨regs1, h1, by rw [h2, ho2], ?_⟩
      intro r b hb
      rw [h3 r b hb, ho3 r b hb]
      constructor
      · rintro ((h | ⟨hr, hbb⟩) | ⟨k, hk1, hk2, hk3⟩)
        · exact Or.inl h
        · right
          refine ⟨i, le_refl i, by omega, cathode, hc, hneg, ?_⟩
          rw [hm, ← hr, ← hbb]
        · exact Or.inr ⟨k, by omega, by omega, hk3⟩
      · rintro (h | ⟨k, hk1, hk2, c2, hc2, hne, hm2⟩)
        · exact Or.inl (Or.inl h)
        · by_cases hki : k = i
          · subst hki
            rw [hc] at hc2
            have hcc : cathode = c2 := Option.some.inj hc2
            subst hcc
            rw [hm] at hm2
            have hmm : m = { byte := r, bit := b } := Option.some.inj hm2
            left
            right
            rw [hmm]
            exact ⟨rfl, rfl⟩
          · exact Or.inr ⟨k, by omega, by omega, c2, hc2, hne, hm2⟩

theorem encodeShiftLoop_no_cathode (d : AppNixieData) :
    ∀ (fuel i : Nat) (regs : List Nat),
      (∀ k, i ≤ k → k < i + fuel → d.cathodes[k]? = some (-1)) →
      encodeShiftLoop d fuel i regs = some regs := by
  intro fuel
  induction fuel with
  | zero => intro i regs _; rfl
  | succ fuel ih =>
    intro i regs h
    unfold encodeShiftLoop
    simp only [h i (le_refl i) (by omega), if_true]
    exact ih (i + 1) regs (fun k hk1 hk2 => h k (by omega) (by omega))

theorem encodeShiftLoop_old_registers (d : AppNixieData) (old : List Nat) :
    ∀ (fuel i : Nat) (regs : List Nat),
      encodeShiftLoop { d with register_shift_state := old } fuel i regs =
        encodeShiftLoop d fuel i regs := by
  intro fuel
  induction fuel with
  | zero => intro i regs; rfl
  | succ fuel ih =>
    intro i regs
    unfold encodeShiftLoop
    simp only [ih]
    rfl

/-- C10: cathode encoding. In every pipeline state in which the loop stays inside its
arrays (each tube below `num_nixies` has a cathode index that is -1 or selects a wiring
entry whose register lies in `register_shift_state` and whose shift is defined),
`encodeShiftRegister` returns, moves to `WRITE_SHIFT_REGISTER`, changes no field but
`register_shift_state`, and bit `b` of register `r` is set if and only if some tube
`i < num_nixies` has `cathodes[i] != -1` and `cathode_mapping[i][cathodes[i]] = {r, b}`.
The result does not depend on the previous contents of `register_shift_state`, and when
every tube has index -1 all registers are zero. -/
theorem encodeShiftRegister_bits (d : AppNixieData)
    (hdef : ∀ i < d.num_nixies, ∃ cathode, d.cathodes[i]? = some cathode ∧
      (cathode = -1 ∨ ∃ m, cathodeMappingAt d i cathode = some m ∧
        m.byte < d.register_shift_state.length ∧ m.bit < 31)) :
    ∃ regs,
      encodeShiftRegister d =
        some { d with register_shift_state := regs,
                      state := APP_NIXIE_STATE.WRITE_SHIFT_REGISTER } ∧
      regs.length = d.register_shift_state.length ∧
      (∀ r b, b < 8 → ((regs.getD r 0).testBit b = true ↔
        ∃ i, i < d.num_nixies ∧ ∃ cathode, d.cathodes[i]? = some cathode ∧ cathode ≠ -1 ∧
          cathodeMappingAt d i cathode = some { byte := r, bit := b })) ∧
      (∀ old : List Nat, old.length = d.register_shift_state.length →
        encodeShiftRegister { d with register_shift_state := old } = encodeShiftRegister d) ∧
      ((∀ i < d.num_nixies, d.cathodes[i]? = some (-1)) →
        regs = List.replicate d.register_shift_state.length 0) := by
  obtain ⟨regs, h1, h2, h3⟩ := encodeShiftLoop_spec d d.num_nixies 0
    (List.replicate d.register_shift_state.length 0)
    (fun k _ hk => by
      obtain ⟨c, hc, hcase⟩ := hdef k (by omega)
      exact ⟨c, hc, by simpa using hcase⟩)
  refine ⟨regs, ?_, by simpa using h2, ?_, ?_, ?_⟩
  · unfold encodeShiftRegister
    rw [h1]
  · intro r b hb
    rw [h3 r b hb]
    have hzero : ((List.replicate d.register_shift_state.length 0).getD r 0).testBit b
        = false := by
      rw [List.getD_eq_getElem?_getD]
      by_cases hr : r < d.register_shift_state.length
      · simp [List.getElem?_replicate, hr]
      · simp [List.getElem?_replicate, hr]
    rw [hzero]
    constructor
    · rintro (h | ⟨k, _, hk, hrest⟩)
      · exact absurd h (by simp)
      · exact ⟨k, by omega, hrest⟩
    · rintro ⟨k, hk, hrest⟩
      exact Or.inr ⟨k, Nat.zero_le k, by omega, hrest⟩
  · intro old hold
    unfold encodeShiftRegister
    simp only [encodeShiftLoop_old_registers, hold]
  · intro hall
    have h4 := encodeShiftLoop_no_cathode d d.num_nixies 0
      (List.replicate d.register_shift_state.length 0) (fun k _ hk => hall k (by omega))
    rw [h1] at h4
    exact Option.some.inj h4

/-- Witness of C10: one tube with cathode index 7 wired to bit 0 of register 0 gives
register 0 = 0x01 and zero elsewhere, whatever the registers held before; with an unmapped
symbol (index -1) every register is zero. -/
theorem encodeShiftRegister_bits_witness :
    encodeShiftRegister exampleOneTube =
      some { exampleOneTube with register_shift_state := [0x01, 0x00],
                                 state := APP_NIXIE_STATE.WRITE_SHIFT_REGISTER } ∧
    encodeShiftRegister { exampleOneTube with cathodes := [-1] } =
      some { exampleOneTube with cathodes := [-1], register_shift_state := [0x00, 0x00],
                                 state := APP_NIXIE_STATE.WRITE_SHIFT_REGISTER } ∧
    ∃ regs,
      encodeShiftRegister exampleOneTube =
        some { exampleOneTube with register_shift_state := regs,
                                   state := APP_NIXIE_STATE.WRITE_SHIFT_REGISTER } ∧
      regs.length = exampleOneTube.register_shift_state.length ∧
      (∀ r b, b < 8 → ((regs.getD r 0).testBit b = true ↔
        ∃ i, i < exampleOneTube.num_nixies ∧ ∃ cathode,
          exampleOneTube.cathodes[i]? = some cathode ∧ cathode ≠ -1 ∧
          cathodeMappingAt exampleOneTube i cathode = some { byte := r, bit := b })) ∧
      (∀ old : List Nat, old.length = exampleOneTube.register_shift_state.length →
        encodeShiftRegister { exampleOneTube with register_shift_state := old } =
          encodeShiftRegister exampleOneTube) ∧
      ((∀ i < exampleOneTube.num_nixies, exampleOneTube.cathodes[i]? = some (-1)) →
        regs = List.replicate exampleOneTube.register_shift_state.length 0) :=
  ⟨by decide, by decide,
   encodeShiftRegister_bits exampleOneTube (fun i hi => by
     have hi0 : i = 0 := by
       have : i < 1 := hi
       omega
     subst hi0
     exact ⟨7, rfl, Or.inr ⟨{ byte := 0, bit := 0 }, rfl, by decide, by decide⟩⟩)⟩

/-! ## Theorems: RTC sequencer, public operations -/

/-- C8, counterexample: the sequencer waits for transfer 1, which is still pending.
`RTC_MCP7940N_WriteRegister(rtc, 3, 8)` overwrites the first two bytes of the transmit
buffer and moves the state to `ERROR`; `RTC_MCP7940N_EnableOscillator(rtc, true)` replaces
the pending task; and once the transfer has completed but has not been polled yet (the
state is still `I2C_STAUS_CHECK`) the same write issues a new bus transmit. -/
theorem RTC_busy_gating_counterexample :
    RTC_MCP7940N_IsBusy exampleRtc = true ∧
    exampleRtc.state = RTC_MCP7940N_State.I2C_STAUS_CHECK ∧
    exampleRtc.transmit_buffer = [0, 0, 0, 0, 0, 0, 0, 0] ∧
    exampleRtc.next_task = RTC_MCP7940N_Task.NONE ∧
    (RTC_Operation.invoke exampleConstants examplePendingBus exampleRtc
      (RTC_Operation.WriteRegister 3 8)).rtc.transmit_buffer = [3, 8, 0, 0, 0, 0, 0, 0] ∧
    (RTC_Operation.invoke exampleConstants examplePendingBus exampleRtc
      (RTC_Operation.WriteRegister 3 8)).rtc.state = RTC_MCP7940N_State.ERROR ∧
    (RTC_Operation.invoke exampleConstants examplePendingBus exampleRtc
      (RTC_Operation.EnableOscillator true)).rtc.next_task =
        RTC_MCP7940N_Task.OSCILLATOR_UPDATE_ENABLE ∧
    (RTC_Operation.invoke exampleConstants exampleCompleteBus exampleRtc
      (RTC_Operation.WriteRegister 3 8)).calls = [I2C_Call.Transmit 1 0xde [3, 8]] := by
  decide

/-- C8, amended: a public RTC entry point invoked while the transfer in flight is still
pending issues no Bus Transport call, its transmit helper returns false, the state becomes
`ERROR`, and the transfer handle and the register cache are unchanged. (The entry points
return nothing and stage the transmit buffer and the pending task before the bus is
checked.) -/
theorem RTC_operation_transfer_pending (c : MCP7940N_Constants) (bus : I2C_Bus)
    (rtc : RTC_MCP7940N) (op : RTC_Operation)
    (hhandle : rtc.i2c_buffer_handle ≠ 0)
    (hpending : bus.status rtc.i2c_buffer_handle = DRV_I2C_BUFFER_EVENT.PENDING) :
    (op.invoke c bus rtc).calls = [] ∧
    (op.invoke c bus rtc).ok = false ∧
    (op.invoke c bus rtc).rtc.state = RTC_MCP7940N_State.ERROR ∧
    (op.invoke c bus rtc).rtc.i2c_buffer_handle = rtc.i2c_buffer_handle ∧
    (op.invoke c bus rtc).rtc._private.register_storage = rtc._private.register_storage := by
  cases op <;>
    simp [RTC_Operation.invoke, RTC_MCP7940N_WriteDateAndTime, RTC_MCP7940N_ReadDateAndTime,
      RTC_MCP7940N_ReadRegister, RTC_MCP7940N_WriteRegister, RTC_MCP7940N_ReadNumRegisters,
      RTC_MCP7940N_WriteNumRegisters, RTC_MCP7940N_EnableOscillator,
      RTC_MCP7940N_OscillatorStatus, RTC_MCP7940N_EnableBatteryBackup,
      RTC_MCP7940N_BatteryBackupStatus, performI2CTransmit, performI2CTransmitThenReceive,
      checkI2CBufferReadyForTransmit, getI2CTransferStatus, hhandle, hpending]

/-- Witness of the amended C8: a register write while transfer 1 is pending. -/
theorem RTC_operation_transfer_pending_witness :
    exampleRtc.state = RTC_MCP7940N_State.I2C_STAUS_CHECK ∧
    ((RTC_Operation.invoke exampleConstants examplePendingBus exampleRtc
        (RTC_Operation.WriteRegister 3 8)).calls = [] ∧
     (RTC_Operation.invoke exampleConstants examplePendingBus exampleRtc
        (RTC_Operation.WriteRegister 3 8)).ok = false ∧
     (RTC_Operation.invoke exampleConstants examplePendingBus exampleRtc
        (RTC_Operation.WriteRegister 3 8)).rtc.state = RTC_MCP7940N_State.ERROR ∧
     (RTC_Operation.invoke exampleConstants examplePendingBus exampleRtc
        (RTC_Operation.WriteRegister 3 8)).rtc.i2c_buffer_handle =
          exampleRtc.i2c_buffer_handle ∧
     (RTC_Operation.invoke exampleConstants examplePendingBus exampleRtc
        (RTC_Operation.WriteRegister 3 8)).rtc._private.register_storage =
          exampleRtc._private.register_storage) :=
  ⟨rfl, RTC_operation_transfer_pending exampleConstants examplePendingBus exampleRtc
    (RTC_Operation.WriteRegister 3 8) (by decide) rfl⟩

/-! ## Theorems: RTC sequencer, polling -/

theorem performI2CTransmit_frame (c : MCP7940N_Constants) (bus : I2C_Bus)
    (rtc : RTC_MCP7940N) (n : Nat) :
    (performI2CTransmit c bus rtc n).rtc.next_task = rtc.next_task ∧
    (performI2CTransmit c bus rtc n).rtc.transmit_buffer = rtc.transmit_buffer ∧
    (performI2CTransmit c bus rtc n).rtc._private = rtc._private ∧
    (performI2CTransmit c bus rtc n).rtc.i2c_handle = rtc.i2c_handle := by
  unfold performI2CTransmit
  by_cases h1 : checkI2CBufferReadyForTransmit bus rtc = true <;>
    by_cases h2 : bus.new_handle = 0 <;> simp [h1, h2]

theorem performI2CTransmitThenReceive_frame (c : MCP7940N_Constants) (bus : I2C_Bus)
    (rtc : RTC_MCP7940N) (n : Nat) (b : I2C_ReceiveBuffer) (m : Nat) :
    (performI2CTransmitThenReceive c bus rtc n b m).rtc.next_task = rtc.next_task ∧
    (performI2CTransmitThenReceive c bus rtc n b m).rtc.transmit_buffer = rtc.transmit_buffer ∧
    (performI2CTransmitThenReceive c bus rtc n b m).rtc._private = rtc._private ∧
    (performI2CTransmitThenReceive c bus rtc n b m).rtc.i2c_handle = rtc.i2c_handle := by
  unfold performI2CTransmitThenReceive
  by_cases h1 : checkI2CBufferReadyForTransmit bus rtc = true <;>
    by_cases h2 : bus.new_handle = 0 <;> simp [h1, h2]

theorem checkI2CStatus_complete_next_task (c : MCP7940N_Constants) (bus : I2C_Bus)
    (w : RTC_World)
    (hcomplete : bus.status w.rtc.i2c_buffer_handle = DRV_I2C_BUFFER_EVENT.COMPLETE) :
    (checkI2CStatus c bus w).1.rtc.next_task = RTC_MCP7940N_Task.NONE := by
  unfold checkI2CStatus getI2CTransferStatus
  simp only [hcomplete]
  cases htask : w.rtc.next_task
  case DATE_TIME_UPDATE_AND_TRANSMIT =>
    simp only [dateTimeConvertToBCDAndTransmit, RTC_MCP7940N_WriteNumRegisters]
    rw [(performI2CTransmit_frame _ _ _ _).1]
  all_goals rfl

/-- C11: RTC error transition. For every pending task, a poll in `I2C_STAUS_CHECK` that
observes a bus-transport error sets the state to `ERROR`, changes nothing else (pending
task, transmit buffer, register cache and caller memory keep their values) and issues no
transport call. -/
theorem RTC_MCP7940N_Tasks_transfer_error (c : MCP7940N_Constants) (bus : I2C_Bus)
    (w : RTC_World)
    (hstate : w.rtc.state = RTC_MCP7940N_State.I2C_STAUS_CHECK)
    (herror : bus.status w.rtc.i2c_buffer_handle = DRV_I2C_BUFFER_EVENT.ERROR) :
    RTC_MCP7940N_Tasks c bus w =
      ({ w with rtc := { w.rtc with state := RTC_MCP7940N_State.ERROR } }, []) ∧
    (RTC_MCP7940N_Tasks c bus w).1.rtc.state = RTC_MCP7940N_State.ERROR ∧
    (RTC_MCP7940N_Tasks c bus w).1.rtc.next_task = w.rtc.next_task ∧
    (RTC_MCP7940N_Tasks c bus w).1.rtc.transmit_buffer = w.rtc.transmit_buffer ∧
    (RTC_MCP7940N_Tasks c bus w).1.rtc._private.register_storage =
      w.rtc._private.register_storage ∧
    (RTC_MCP7940N_Tasks c bus w).2 = [] := by
  have h : RTC_MCP7940N_Tasks c bus w =
      ({ w with rtc := { w.rtc with state := RTC_MCP7940N_State.ERROR } }, []) := by
    unfold RTC_MCP7940N_Tasks checkI2CStatus getI2CTransferStatus
    simp only [hstate, herror]
  rw [h]
  exact ⟨rfl, rfl, rfl, rfl, rfl, rfl⟩

/-- Witness of C11: the pending task of a failed enable-oscillator sequence stays. -/
theorem RTC_MCP7940N_Tasks_transfer_error_witness :
    (RTC_MCP7940N_Tasks exampleConstants exampleErrorBus
        (exampleWorld { exampleRtc with
          next_task := RTC_MCP7940N_Task.OSCILLATOR_UPDATE_ENABLE })).1.rtc =
      { exampleRtc with next_task := RTC_MCP7940N_Task.OSCILLATOR_UPDATE_ENABLE,
                        state := RTC_MCP7940N_State.ERROR } ∧
    (RTC_MCP7940N_Tasks exampleConstants exampleErrorBus
        (exampleWorld { exampleRtc with
          next_task := RTC_MCP7940N_Task.OSCILLATOR_UPDATE_ENABLE })).2 = [] :=
  ⟨congrArg (fun r => r.1.rtc)
      (RTC_MCP7940N_Tasks_transfer_error exampleConstants exampleErrorBus
        (exampleWorld { exampleRtc with
          next_task := RTC_MCP7940N_Task.OSCILLATOR_UPDATE_ENABLE }) rfl rfl).1,
   (RTC_MCP7940N_Tasks_transfer_error exampleConstants exampleErrorBus
        (exampleWorld { exampleRtc with
          next_task := RTC_MCP7940N_Task.OSCILLATOR_UPDATE_ENABLE }) rfl rfl).2.2.2.2.2⟩

/-- C12: idempotent idle. For both state machines, any number of polls in a row while the
state is idle (`RTC_MCP7940N_STATE_NONE`, `APP_NIXIE_STATE_IDLE`), whatever the transports
answer, leave every field unchanged and issue no transport call. -/
theorem Tasks_repeat_idle (c : MCP7940N_Constants) (buses : List I2C_Bus) (w : RTC_World)
    (envs : List Nixie_Transports) (d : AppNixieData)
    (hrtc : w.rtc.state = RTC_MCP7940N_State.NONE)
    (hnixie : d.state = APP_NIXIE_STATE.IDLE) :
    RTC_MCP7940N_Tasks_repeat c buses w = (w, []) ∧
    APP_Nixie_Tasks_repeat envs d = some (d, []) := by
  constructor
  · induction buses with
    | nil => rfl
    | cons bus rest ih =>
      have h1 : RTC_MCP7940N_Tasks c bus w = (w, []) := by
        unfold RTC_MCP7940N_Tasks
        simp only [hrtc]
      unfold RTC_MCP7940N_Tasks_repeat
      simp only [h1, ih, List.append_nil]
  · induction envs with
    | nil => rfl
    | cons env rest ih =>
      have h1 : APP_Nixie_Tasks env d = some (d, []) := by
        unfold APP_Nixie_Tasks
        simp only [hnixie]
      unfold APP_Nixie_Tasks_repeat
      simp only [h1, ih, List.append_nil]

/-- Witness of C12: three polls of each idle state machine. -/
theorem Tasks_repeat_idle_witness :
    RTC_MCP7940N_Tasks_repeat exampleConstants
        [exampleCompleteBus, examplePendingBus, exampleErrorBus] (exampleWorld exampleIdleRtc) =
      (exampleWorld exampleIdleRtc, []) ∧
    APP_Nixie_Tasks_repeat
        [{ https_client_is_busy := false, https_client_request := true,
           shift_register_is_busy := false },
         { https_client_is_busy := true, https_client_request := false,
           shift_register_is_busy := true },
         { https_client_is_busy := false, https_client_request := true,
           shift_register_is_busy := false }]
        { exampleNixie with state := APP_NIXIE_STATE.IDLE } =
      some ({ exampleNixie with state := APP_NIXIE_STATE.IDLE }, []) :=
  Tasks_repeat_idle exampleConstants _ (exampleWorld exampleIdleRtc) _
    { exampleNixie with state := APP_NIXIE_STATE.IDLE } rfl rfl

/-- C18: the pending task is reset once consumed. For every pending task, after a poll in
`I2C_STAUS_CHECK` that observes a completed transfer the pending task is
`RTC_MCP7940N_TASK_NONE`; and if it was `NONE` before, that poll sets the state to
`RTC_MCP7940N_STATE_NONE`, changes nothing else and issues no transport call. -/
theorem RTC_MCP7940N_Tasks_complete_task (c : MCP7940N_Constants) (bus : I2C_Bus)
    (w : RTC_World)
    (hstate : w.rtc.state = RTC_MCP7940N_State.I2C_STAUS_CHECK)
    (hcomplete : bus.status w.rtc.i2c_buffer_handle = DRV_I2C_BUFFER_EVENT.COMPLETE) :
    (RTC_MCP7940N_Tasks c bus w).1.rtc.next_task = RTC_MCP7940N_Task.NONE ∧
    (w.rtc.next_task = RTC_MCP7940N_Task.NONE →
      RTC_MCP7940N_Tasks c bus w =
        ({ w with rtc := { w.rtc with state := RTC_MCP7940N_State.NONE } }, [])) := by
  constructor
  · unfold RTC_MCP7940N_Tasks
    simp only [hstate]
    exact checkI2CStatus_complete_next_task c bus w hcomplete
  · intro htask
    unfold RTC_MCP7940N_Tasks checkI2CStatus getI2CTransferStatus
    simp only [hstate, hcomplete, htask]

/-- Witness of C18: a completed transfer with the battery status query pending, and one
with no task pending. -/
theorem RTC_MCP7940N_Tasks_complete_task_witness :
    (RTC_MCP7940N_Tasks exampleConstants exampleCompleteBus
        (exampleWorld { exampleRtc with
          next_task := RTC_MCP7940N_Task.BATTERY_UPDATE_STATUS })).1.rtc.next_task =
      RTC_MCP7940N_Task.NONE ∧
    (RTC_MCP7940N_Tasks exampleConstants exampleCompleteBus (exampleWorld exampleRtc)).1.rtc =
      { exampleRtc with state := RTC_MCP7940N_State.NONE } ∧
    (RTC_MCP7940N_Tasks exampleConstants exampleCompleteBus (exampleWorld exampleRtc)).2 = [] :=
  ⟨(RTC_MCP7940N_Tasks_complete_task exampleConstants exampleCompleteBus
      (exampleWorld { exampleRtc with
        next_task := RTC_MCP7940N_Task.BATTERY_UPDATE_STATUS }) rfl rfl).1,
   congrArg (fun r => r.1.rtc)
     ((RTC_MCP7940N_Tasks_complete_task exampleConstants exampleCompleteBus
       (exampleWorld exampleRtc) rfl rfl).2 rfl),
   congrArg (fun r => r.2)
     ((RTC_MCP7940N_Tasks_complete_task exampleConstants exampleCompleteBus
       (exampleWorld exampleRtc) rfl rfl).2 rfl)⟩

/-! ## Theorems: RTC sequencer, bus transactions -/

theorem checkI2CBufferReadyForTransmit_iff (bus : I2C_Bus) (rtc : RTC_MCP7940N) :
    checkI2CBufferReadyForTransmit bus rtc = true ↔
      (rtc.i2c_buffer_handle = 0 ∨
       bus.status rtc.i2c_buffer_handle = DRV_I2C_BUFFER_EVENT.COMPLETE ∨
       bus.status rtc.i2c_buffer_handle = DRV_I2C_BUFFER_EVENT.ERROR) := by
  unfold checkI2CBufferReadyForTransmit getI2CTransferStatus
  simp [or_assoc]

theorem performI2CTransmit_calls (c : MCP7940N_Constants) (bus : I2C_Bus)
    (rtc : RTC_MCP7940N) (n : Nat) :
    (performI2CTransmit c bus rtc n).calls =
      if checkI2CBufferReadyForTransmit bus rtc = true then
        [I2C_Call.Transmit rtc.i2c_handle (c.MCP7940N_I2C_ADDRESS <<< 1)
          (rtc.transmit_buffer.take n)]
      else [] := by
  unfold performI2CTransmit
  by_cases h1 : checkI2CBufferReadyForTransmit bus rtc = true <;>
    by_cases h2 : bus.new_handle = 0 <;> simp [h1, h2]

theorem performI2CTransmitThenReceive_calls (c : MCP7940N_Constants) (bus : I2C_Bus)
    (rtc : RTC_MCP7940N) (n : Nat) (b : I2C_ReceiveBuffer) (m : Nat) :
    (performI2CTransmitThenReceive c bus rtc n b m).calls =
      if checkI2CBufferReadyForTransmit bus rtc = true then
        [I2C_Call.TransmitThenReceive rtc.i2c_handle (c.MCP7940N_I2C_ADDRESS <<< 1)
          (rtc.transmit_buffer.take n) b m]
      else [] := by
  unfold performI2CTransmitThenReceive
  by_cases h1 : checkI2CBufferReadyForTransmit bus rtc = true <;>
    by_cases h2 : bus.new_handle = 0 <;> simp [h1, h2]

theorem performI2CTransmit_state (c : MCP7940N_Constants) (bus : I2C_Bus)
    (rtc : RTC_MCP7940N) (n : Nat) :
    (performI2CTransmit c bus rtc n).rtc.state =
      if checkI2CBufferReadyForTransmit bus rtc = true ∧ bus.new_handle ≠ 0 then
        RTC_MCP7940N_State.I2C_STAUS_CHECK
      else RTC_MCP7940N_State.ERROR := by
  unfold performI2CTransmit
  by_cases h1 : checkI2CBufferReadyForTransmit bus rtc = true <;>
    by_cases h2 : bus.new_handle = 0 <;> simp [h1, h2]

theorem performI2CTransmitThenReceive_state (c : MCP7940N_Constants) (bus : I2C_Bus)
    (rtc : RTC_MCP7940N) (n : Nat) (b : I2C_ReceiveBuffer) (m : Nat) :
    (performI2CTransmitThenReceive c bus rtc n b m).rtc.state =
      if checkI2CBufferReadyForTransmit bus rtc = true ∧ bus.new_handle ≠ 0 then
        RTC_MCP7940N_State.I2C_STAUS_CHECK
      else RTC_MCP7940N_State.ERROR := by
  unfold performI2CTransmitThenReceive
  by_cases h1 : checkI2CBufferReadyForTransmit bus rtc = true <;>
    by_cases h2 : bus.new_handle = 0 <;> simp [h1, h2]

theorem RTC_Operation_invoke_calls_length (c : MCP7940N_Constants) (bus : I2C_Bus)
    (rtc : RTC_MCP7940N) (op : RTC_Operation) :
    (op.invoke c bus rtc).calls.length =
      if checkI2CBufferReadyForTransmit bus rtc = true then 1 else 0 := by
  cases op <;>
    simp only [RTC_Operation.invoke, RTC_MCP7940N_WriteDateAndTime,
      RTC_MCP7940N_ReadDateAndTime, RTC_MCP7940N_ReadRegister, RTC_MCP7940N_WriteRegister,
      RTC_MCP7940N_ReadNumRegisters, RTC_MCP7940N_WriteNumRegisters,
      RTC_MCP7940N_EnableOscillator, RTC_MCP7940N_OscillatorStatus,
      RTC_MCP7940N_EnableBatteryBackup, RTC_MCP7940N_BatteryBackupStatus,
      performI2CTransmit_calls, performI2CTransmitThenReceive_calls,
      checkI2CBufferReadyForTransmit, getI2CTransferStatus] <;>
    split_ifs <;> rfl

theorem RTC_Operation_invoke_state (c : MCP7940N_Constants) (bus : I2C_Bus)
    (rtc : RTC_MCP7940N) (op : RTC_Operation) :
    (op.invoke c bus rtc).rtc.state =
      if checkI2CBufferReadyForTransmit bus rtc = true ∧ bus.new_handle ≠ 0 then
        RTC_MCP7940N_State.I2C_STAUS_CHECK
      else RTC_MCP7940N_State.ERROR := by
  cases op <;>
    simp only [RTC_Operation.invoke, RTC_MCP7940N_WriteDateAndTime,
      RTC_MCP7940N_ReadDateAndTime, RTC_MCP7940N_ReadRegister, RTC_MCP7940N_WriteRegister,
      RTC_MCP7940N_ReadNumRegisters, RTC_MCP7940N_WriteNumRegisters,
      RTC_MCP7940N_EnableOscillator, RTC_MCP7940N_OscillatorStatus,
      RTC_MCP7940N_EnableBatteryBackup, RTC_MCP7940N_BatteryBackupStatus,
      performI2CTransmit_state, performI2CTransmitThenReceive_state,
      checkI2CBufferReadyForTransmit, getI2CTransferStatus]

theorem RTC_MCP7940N_Tasks_calls (c : MCP7940N_Constants) (bus : I2C_Bus) (w : RTC_World) :
    (RTC_MCP7940N_Tasks c bus w).2.length ≤ 1 ∧
    ((RTC_MCP7940N_Tasks c bus w).2 ≠ [] →
      bus.status w.rtc.i2c_buffer_handle = DRV_I2C_BUFFER_EVENT.COMPLETE) := by
  unfold RTC_MCP7940N_Tasks
  cases hstate : w.rtc.state
  case NONE => simp
  case ERROR => simp
  case I2C_STAUS_CHECK =>
    simp only []
    unfold checkI2CStatus getI2CTransferStatus
    cases hstatus : bus.status w.rtc.i2c_buffer_handle
    case PENDING => simp
    case ERROR => simp
    case COMPLETE =>
      refine ⟨?_, fun _ => rfl⟩
      cases htask : w.rtc.next_task <;>
        simp only [oscillatorUpdateBits, batteryUpdateBits, dateTimeConvertToBCDAndTransmit,
          RTC_MCP7940N_WriteNumRegisters, performI2CTransmit_calls, List.length_nil,
          Nat.zero_le] <;>
        split_ifs <;> simp

/-- C13: one bus call per operation. Every public RTC operation invoked with a free bus (no
transfer handle, or the last transfer complete or failed), in particular from
`RTC_MCP7940N_STATE_NONE`, issues exactly one Bus Transport call; if the transport returns
a valid handle the state becomes `I2C_STAUS_CHECK`, and if it returns the invalid handle
the state becomes `ERROR`. -/
theorem RTC_Operation_free_bus (c : MCP7940N_Constants) (bus : I2C_Bus)
    (rtc : RTC_MCP7940N) (op : RTC_Operation)
    (hfree : rtc.i2c_buffer_handle = 0 ∨
      bus.status rtc.i2c_buffer_handle = DRV_I2C_BUFFER_EVENT.COMPLETE ∨
      bus.status rtc.i2c_buffer_handle = DRV_I2C_BUFFER_EVENT.ERROR) :
    (op.invoke c bus rtc).calls.length = 1 ∧
    (bus.new_handle ≠ 0 →
      (op.invoke c bus rtc).rtc.state = RTC_MCP7940N_State.I2C_STAUS_CHECK) ∧
    (bus.new_handle = 0 → (op.invoke c bus rtc).rtc.state = RTC_MCP7940N_State.ERROR) := by
  have hready := (checkI2CBufferReadyForTransmit_iff bus rtc).2 hfree
  rw [RTC_Operation_invoke_calls_length, RTC_Operation_invoke_state]
  simp [hready]

/-- Witness of C13: a register write from the idle sequencer, which has no transfer
handle; the bus answers with handle 2. -/
theorem RTC_Operation_free_bus_witness :
    exampleIdleRtc.state = RTC_MCP7940N_State.NONE ∧
    (RTC_Operation.invoke exampleConstants exampleCompleteBus exampleIdleRtc
      (RTC_Operation.WriteRegister 3 8)).calls = [I2C_Call.Transmit 1 0xde [3, 8]] ∧
    ((RTC_Operation.invoke exampleConstants exampleCompleteBus exampleIdleRtc
        (RTC_Operation.WriteRegister 3 8)).calls.length = 1 ∧
     (exampleCompleteBus.new_handle ≠ 0 →
       (RTC_Operation.invoke exampleConstants exampleCompleteBus exampleIdleRtc
         (RTC_Operation.WriteRegister 3 8)).rtc.state = RTC_MCP7940N_State.I2C_STAUS_CHECK) ∧
     (exampleCompleteBus.new_handle = 0 →
       (RTC_Operation.invoke exampleConstants exampleCompleteBus exampleIdleRtc
         (RTC_Operation.WriteRegister 3 8)).rtc.state = RTC_MCP7940N_State.ERROR)) :=
  ⟨rfl, by decide,
   RTC_Operation_free_bus exampleConstants exampleCompleteBus exampleIdleRtc
     (RTC_Operation.WriteRegister 3 8) (Or.inl rfl)⟩

/-- C17: at most one bus transaction in flight. In every state, a public operation or a
poll of the RTC sequencer issues at most one Bus Transport call, and issues it only when
there is no transfer handle or the previous transfer reports complete or error; an
operation or poll made while the previous transfer is still pending issues none. -/
theorem RTC_one_transaction_in_flight (c : MCP7940N_Constants) (bus : I2C_Bus)
    (w : RTC_World) (op : RTC_Operation) :
    ((op.invoke c bus w.rtc).calls.length ≤ 1 ∧
     (RTC_MCP7940N_Tasks c bus w).2.length ≤ 1) ∧
    (((op.invoke c bus w.rtc).calls ≠ [] ∨ (RTC_MCP7940N_Tasks c bus w).2 ≠ []) →
      (w.rtc.i2c_buffer_handle = 0 ∨
       bus.status w.rtc.i2c_buffer_handle = DRV_I2C_BUFFER_EVENT.COMPLETE ∨
       bus.status w.rtc.i2c_buffer_handle = DRV_I2C_BUFFER_EVENT.ERROR)) ∧
    ((w.rtc.i2c_buffer_handle ≠ 0 ∧
        bus.status w.rtc.i2c_buffer_handle = DRV_I2C_BUFFER_EVENT.PENDING) →
      (op.invoke c bus w.rtc).calls = [] ∧ (RTC_MCP7940N_Tasks c bus w).2 = []) := by
  have hop := RTC_Operation_invoke_calls_length c bus w.rtc op
  have hpoll := RTC_MCP7940N_Tasks_calls c bus w
  have hiff := checkI2CBufferReadyForTransmit_iff bus w.rtc
  refine ⟨⟨?_, hpoll.1⟩, ?_, ?_⟩
  · rw [hop]
    split_ifs <;> simp
  · rintro (h | h)
    · by_cases hready : checkI2CBufferReadyForTransmit bus w.rtc = true
      · exact hiff.1 hready
      · rw [if_neg hready] at hop
        exact absurd (List.length_eq_zero.1 hop) h
    · exact Or.inr (Or.inl (hpoll.2 h))
  · rintro ⟨hhandle, hpending⟩
    have hnot : ¬ checkI2CBufferReadyForTransmit bus w.rtc = true := by
      rw [hiff]
      simp [hhandle, hpending]
    constructor
    · rw [if_neg hnot] at hop
      exact List.length_eq_zero.1 hop
    · by_contra hne
      have := hpoll.2 hne
      rw [hpending] at this
      exact absurd this (by decide)

/-- Witness of C17: while transfer 1 is pending neither a register read nor a poll issues a
call. -/
theorem RTC_one_transaction_in_flight_witness :
    (RTC_Operation.invoke exampleConstants examplePendingBus (exampleWorld exampleRtc).rtc
        (RTC_Operation.ReadRegister 3 100)).calls = [] ∧
    (RTC_MCP7940N_Tasks exampleConstants examplePendingBus (exampleWorld exampleRtc)).2 = [] :=
  (RTC_one_transaction_in_flight exampleConstants examplePendingBus (exampleWorld exampleRtc)
    (RTC_Operation.ReadRegister 3 100)).2.2 ⟨by decide, rfl⟩

/-! ## Theorems: RTC sequencer, follow-up tasks -/

theorem bitNot32_testBit_lt (x j : Nat) (hj : j < 32) :
    (bitNot32 x).testBit j = !x.testBit j := by
  have hlt : x % 4294967296 < 2 ^ 32 := Nat.mod_lt x (by norm_num)
  have h1 : bitNot32 x = 2 ^ 32 - (x % 4294967296 + 1) := by
    unfold bitNot32
    norm_num
    omega
  rw [h1, Nat.testBit_two_pow_sub_succ hlt, show (4294967296 : Nat) = 2 ^ 32 by norm_num,
    Nat.testBit_mod_two_pow]
  simp [hj]

theorem list_two (l : List Nat) (h : 2 ≤ l.length) : ∃ a b rest, l = a :: b :: rest := by
  match l, h with
  | a :: b :: rest, _ => exact ⟨a, b, rest, rfl⟩

theorem setFlag_testBit (r flag j : Nat) (hj : j < 8) :
    ((r ||| flag) % 256).testBit j = if flag.testBit j then true else r.testBit j := by
  rw [show (256 : Nat) = 2 ^ 8 by norm_num, Nat.testBit_mod_two_pow, Nat.testBit_or]
  by_cases hf : flag.testBit j = true <;> simp [hj, hf]

theorem clearFlag_testBit (r flag j : Nat) (hj : j < 8) :
    ((r &&& bitNot32 flag) % 256).testBit j = if flag.testBit j then false else r.testBit j := by
  rw [show (256 : Nat) = 2 ^ 8 by norm_num, Nat.testBit_mod_two_pow, Nat.testBit_and,
    bitNot32_testBit_lt flag j (by omega)]
  by_cases hf : flag.testBit j = true <;> simp [hj, hf]

/-- C19: enable/disable read-modify-write. For each of the four tasks (enable or disable
the oscillator or the battery backup) and every fetched byte `r = register_storage[0]`, the
poll that observes completion of the read issues exactly one transmit of the two bytes
`[register address, r']`, the address being that of the seconds register (oscillator) or of
the day-of-week register (battery); every bit of `r'` that belongs to the flag is set
(enable) or cleared (disable), every other bit of `r'` equals that of `r`, and the pending
task is `NONE` afterwards. -/
theorem RTC_MCP7940N_Tasks_update_bits (c : MCP7940N_Constants) (bus : I2C_Bus)
    (w : RTC_World) (oscillator enable : Bool)
    (hstate : w.rtc.state = RTC_MCP7940N_State.I2C_STAUS_CHECK)
    (hcomplete : bus.status w.rtc.i2c_buffer_handle = DRV_I2C_BUFFER_EVENT.COMPLETE)
    (htask : w.rtc.next_task = updateBitsTask oscillator enable)
    (hbuffer : 2 ≤ w.rtc.transmit_buffer.length) :
    ∃ r',
      (RTC_MCP7940N_Tasks c bus w).2 =
        [I2C_Call.Transmit w.rtc.i2c_handle (c.MCP7940N_I2C_ADDRESS <<< 1)
          [flagRegisterAddress c oscillator % 256, r']] ∧
      (RTC_MCP7940N_Tasks c bus w).1.rtc.next_task = RTC_MCP7940N_Task.NONE ∧
      r' < 256 ∧
      ∀ j < 8, r'.testBit j =
        if (flagMask c oscillator).testBit j then enable
        else (w.rtc._private.register_storage.getD 0 0).testBit j := by
  obtain ⟨t0, t1, rest, hlist⟩ := list_two _ hbuffer
  have hready : checkI2CBufferReadyForTransmit bus w.rtc = true :=
    (checkI2CBufferReadyForTransmit_iff bus w.rtc).2 (Or.inr (Or.inl hcomplete))
  have hnext := checkI2CStatus_complete_next_task c bus w hcomplete
  have hmod : ∀ x : Nat, x % 256 < 256 := fun x => Nat.mod_lt x (by norm_num)
  unfold RTC_MCP7940N_Tasks
  simp only [hstate]
  refine ⟨if enable then
      (w.rtc._private.register_storage.getD 0 0 ||| flagMask c oscillator) % 256
    else (w.rtc._private.register_storage.getD 0 0 &&& bitNot32 (flagMask c oscillator)) % 256,
    ?_, hnext, ?_, ?_⟩
  · unfold checkI2CStatus getI2CTransferStatus
    cases oscillator <;> cases enable <;> simp only [updateBitsTask] at htask <;>
      simp [htask, oscillatorUpdateBits, batteryUpdateBits, performI2CTransmit_calls,
        checkI2CBufferReadyForTransmit, getI2CTransferStatus, hcomplete, hlist,
        flagRegisterAddress, flagMask]
  · cases enable <;> simp [hmod]
  · intro j hj
    cases enable
    · simp only [Bool.false_eq_true, if_false]
      exact clearFlag_testBit _ _ j hj
    · simp only [if_true]
      exact setFlag_testBit _ _ j hj

/-- Witness of C19: enabling the oscillator over the fetched byte 0x58 writes 0xd8 to the
seconds register. -/
theorem RTC_MCP7940N_Tasks_update_bits_witness :
    (RTC_MCP7940N_Tasks exampleConstants exampleCompleteBus
      (exampleWorld (I2C_receiveRegisterStorage
        { exampleRtc with next_task := RTC_MCP7940N_Task.OSCILLATOR_UPDATE_ENABLE }
        [0x58]))).2 = [I2C_Call.Transmit 1 0xde [0x00, 0xd8]] ∧
    ∃ r',
      (RTC_MCP7940N_Tasks exampleConstants exampleCompleteBus
        (exampleWorld (I2C_receiveRegisterStorage
          { exampleRtc with next_task := RTC_MCP7940N_Task.OSCILLATOR_UPDATE_ENABLE }
          [0x58]))).2 =
        [I2C_Call.Transmit 1 (exampleConstants.MCP7940N_I2C_ADDRESS <<< 1)
          [flagRegisterAddress exampleConstants true % 256, r']] ∧
      (RTC_MCP7940N_Tasks exampleConstants exampleCompleteBus
        (exampleWorld (I2C_receiveRegisterStorage
          { exampleRtc with next_task := RTC_MCP7940N_Task.OSCILLATOR_UPDATE_ENABLE }
          [0x58]))).1.rtc.next_task = RTC_MCP7940N_Task.NONE ∧
      r' < 256 ∧
      ∀ j < 8, r'.testBit j =
        if (flagMask exampleConstants true).testBit j then true
        else ((exampleWorld (I2C_receiveRegisterStorage
          { exampleRtc with next_task := RTC_MCP7940N_Task.OSCILLATOR_UPDATE_ENABLE }
          [0x58])).rtc._private.register_storage.getD 0 0).testBit j :=
  ⟨by decide,
   RTC_MCP7940N_Tasks_update_bits exampleConstants exampleCompleteBus
     (exampleWorld (I2C_receiveRegisterStorage
       { exampleRtc with next_task := RTC_MCP7940N_Task.OSCILLATOR_UPDATE_ENABLE } [0x58]))
     true true rfl rfl rfl (by decide)⟩

theorem land_two_pow_ne_zero (r k : Nat) : ((r &&& 2 ^ k) != 0) = r.testBit k := by
  by_cases h : r.testBit k = true
  · have hbit : (r &&& 2 ^ k).testBit k = true := by
      rw [Nat.testBit_and, Nat.testBit_two_pow, h]
      simp
    have hne : r &&& 2 ^ k ≠ 0 := by
      intro h0
      rw [h0, Nat.zero_testBit] at hbit
      exact absurd hbit (by decide)
    simp [h, hne]
  · have hzero : r &&& 2 ^ k = 0 := by
      apply Nat.eq_of_testBit_eq
      intro j
      rw [Nat.testBit_and, Nat.testBit_two_pow, Nat.zero_testBit]
      by_cases hkj : k = j
      · subst hkj
        simp [h]
      · simp [hkj]
    simp [h, hzero]

theorem list_one (l : List Nat) (h : 1 ≤ l.length) : ∃ a rest, l = a :: rest := by
  match l, h with
  | a :: rest, _ => exact ⟨a, rest, rfl⟩

/-- C20: status query. After `RTC_MCP7940N_OscillatorStatus` or
`RTC_MCP7940N_BatteryBackupStatus` has issued its read and the byte `r` has been received
into `register_storage[0]`, the poll that observes completion stores through the status
pointer the value true iff `r & flag` is not zero (the flag bit of `r` when the flag is a
single bit), touches no other caller object, sets the pending task to `NONE`, issues no bus
call and leaves the state `I2C_STAUS_CHECK`; the next poll, the transport still reporting
completion, sets the state to `RTC_MCP7940N_STATE_NONE` and issues no call either. -/
theorem RTC_status_query_sequence (c : MCP7940N_Constants) (bus0 bus1 bus2 : I2C_Bus)
    (rtc : RTC_MCP7940N) (oscillator : Bool) (enabled r : Nat) (w : RTC_World)
    (hfree : rtc.i2c_buffer_handle = 0 ∨
      bus0.status rtc.i2c_buffer_handle = DRV_I2C_BUFFER_EVENT.COMPLETE ∨
      bus0.status rtc.i2c_buffer_handle = DRV_I2C_BUFFER_EVENT.ERROR)
    (hhandle : bus0.new_handle ≠ 0)
    (hstorage : 1 ≤ rtc._private.register_storage.length)
    (hw : w.rtc = I2C_receiveRegisterStorage
      ((statusQuery oscillator enabled).invoke c bus0 rtc).rtc [r])
    (hcomplete1 : bus1.status bus0.new_handle = DRV_I2C_BUFFER_EVENT.COMPLETE)
    (hcomplete2 : bus2.status bus0.new_handle = DRV_I2C_BUFFER_EVENT.COMPLETE) :
    (RTC_MCP7940N_Tasks c bus1 w).2 = [] ∧
    (RTC_MCP7940N_Tasks c bus1 w).1.rtc.next_task = RTC_MCP7940N_Task.NONE ∧
    (RTC_MCP7940N_Tasks c bus1 w).1.rtc.state = RTC_MCP7940N_State.I2C_STAUS_CHECK ∧
    (RTC_MCP7940N_Tasks c bus1 w).1.status_at enabled = ((r &&& flagMask c oscillator) != 0) ∧
    (∀ k, flagMask c oscillator = 2 ^ k →
      (RTC_MCP7940N_Tasks c bus1 w).1.status_at enabled = r.testBit k) ∧
    (∀ q, q ≠ enabled → (RTC_MCP7940N_Tasks c bus1 w).1.status_at q = w.status_at q) ∧
    (RTC_MCP7940N_Tasks c bus1 w).1.date_time_at = w.date_time_at ∧
    (RTC_MCP7940N_Tasks c bus2 (RTC_MCP7940N_Tasks c bus1 w).1).1.rtc.state =
      RTC_MCP7940N_State.NONE ∧
    (RTC_MCP7940N_Tasks c bus2 (RTC_MCP7940N_Tasks c bus1 w).1).2 = [] := by
  obtain ⟨a, rest, hlist⟩ := list_one _ hstorage
  have hready := (checkI2CBufferReadyForTransmit_iff bus0 rtc).2 hfree
  have hrtc : w.rtc.state = RTC_MCP7940N_State.I2C_STAUS_CHECK ∧
      w.rtc.next_task = (if oscillator then RTC_MCP7940N_Task.OSCILLATOR_UPDATE_STATUS
        else RTC_MCP7940N_Task.BATTERY_UPDATE_STATUS) ∧
      w.rtc.i2c_buffer_handle = bus0.new_handle ∧
      w.rtc._private.return_status_ptr = enabled ∧
      w.rtc._private.register_storage.getD 0 0 = r := by
    rw [hw]
    unfold checkI2CBufferReadyForTransmit getI2CTransferStatus at hready
    cases oscillator <;>
      simp [statusQuery, RTC_Operation.invoke, RTC_MCP7940N_OscillatorStatus,
        RTC_MCP7940N_BatteryBackupStatus, performI2CTransmitThenReceive,
        checkI2CBufferReadyForTransmit, getI2CTransferStatus, hready, hhandle,
        I2C_receiveRegisterStorage, memcpyAt, hlist]
  obtain ⟨h1, h2, h3, h4, h5⟩ := hrtc
  have hpoll : RTC_MCP7940N_Tasks c bus1 w =
      ({ w with
          rtc := { w.rtc with next_task := RTC_MCP7940N_Task.NONE },
          status_at := Function.update w.status_at enabled
            ((r &&& flagMask c oscillator) != 0) }, []) := by
    have h5a : w.rtc._private.register_storage[0]?.getD 0 = r := by
      simpa [List.getD_eq_getElem?_getD] using h5
    unfold RTC_MCP7940N_Tasks checkI2CStatus getI2CTransferStatus
    cases oscillator <;>
      simp [h1, h2, h3, hcomplete1, oscillatorUpdateStatus, batteryUpdateStatus, h4, h5a,
        flagMask]
  rw [hpoll]
  refine ⟨rfl, rfl, h1, by simp, ?_, ?_, rfl, ?_, ?_⟩
  · intro k hk
    simp only [Function.update_same]
    rw [hk, land_two_pow_ne_zero]
  · intro q hq
    simp [Function.update_noteq hq]
  · unfold RTC_MCP7940N_Tasks checkI2CStatus getI2CTransferStatus
    simp [h1, h3, hcomplete2]
  · unfold RTC_MCP7940N_Tasks checkI2CStatus getI2CTransferStatus
    simp [h1, h3, hcomplete2]

/-- Witness of C20: the battery status query from the idle sequencer; the received byte
0x2d has the battery flag 0x08 set. -/
theorem RTC_status_query_sequence_witness :
    (RTC_MCP7940N_Tasks exampleConstants exampleCompleteBus
      (exampleWorld (I2C_receiveRegisterStorage
        ((statusQuery false 200).invoke exampleConstants exampleCompleteBus
          exampleIdleRtc).rtc [0x2d]))).1.status_at 200 = true ∧
    (RTC_MCP7940N_Tasks exampleConstants exampleCompleteBus
      (exampleWorld (I2C_receiveRegisterStorage
        ((statusQuery false 200).invoke exampleConstants exampleCompleteBus
          exampleIdleRtc).rtc [0x2d]))).1.rtc.state = RTC_MCP7940N_State.I2C_STAUS_CHECK ∧
    (RTC_MCP7940N_Tasks exampleConstants exampleCompleteBus
      (RTC_MCP7940N_Tasks exampleConstants exampleCompleteBus
        (exampleWorld (I2C_receiveRegisterStorage
          ((statusQuery false 200).invoke exampleConstants exampleCompleteBus
            exampleIdleRtc).rtc [0x2d]))).1).1.rtc.state = RTC_MCP7940N_State.NONE :=
  ⟨((RTC_status_query_sequence exampleConstants exampleCompleteBus exampleCompleteBus
      exampleCompleteBus exampleIdleRtc false 200 0x2d _ (Or.inl rfl) (by decide) (by decide)
      rfl rfl rfl).2.2.2.1).trans (by decide),
   (RTC_status_query_sequence exampleConstants exampleCompleteBus exampleCompleteBus
      exampleCompleteBus exampleIdleRtc false 200 0x2d _ (Or.inl rfl) (by decide) (by decide)
      rfl rfl rfl).2.2.1,
   (RTC_status_query_sequence exampleConstants exampleCompleteBus exampleCompleteBus
      exampleCompleteBus exampleIdleRtc false 200 0x2d _ (Or.inl rfl) (by decide) (by decide)
      rfl rfl rfl).2.2.2.2.2.2.2.1⟩

/-! ## Theorems: RTC sequencer, date and time -/

/-- C15: read date-time. After `RTC_MCP7940N_ReadDateAndTime` has issued its read (free bus,
valid transfer handle), a poll that still observes a pending transfer changes nothing, and
the first poll that observes completion sets the pending task to `NONE` and the state to
`RTC_MCP7940N_STATE_NONE` in that same poll, issues no bus call and leaves each field of the
caller's date-time equal to `convertFromBCD(raw & mask)` with the masks 0x7f, 0x7f, 0x3f,
0x07, 0x3f, 0x0f, 0xff for seconds, minutes, hours, day-of-week, day, month, year; hence
two raw register images that agree on the masked bits give the same date-time. -/
theorem RTC_read_date_time_sequence (c : MCP7940N_Constants) (bus0 bus1 : I2C_Bus)
    (rtc : RTC_MCP7940N) (date_time : Nat) (w : RTC_World)
    (hfree : rtc.i2c_buffer_handle = 0 ∨
      bus0.status rtc.i2c_buffer_handle = DRV_I2C_BUFFER_EVENT.COMPLETE ∨
      bus0.status rtc.i2c_buffer_handle = DRV_I2C_BUFFER_EVENT.ERROR)
    (hhandle : bus0.new_handle ≠ 0)
    (hw : w.rtc = (RTC_MCP7940N_ReadDateAndTime c bus0 rtc date_time).rtc)
    (hcomplete : bus1.status bus0.new_handle = DRV_I2C_BUFFER_EVENT.COMPLETE) :
    (∀ bus : I2C_Bus, bus.status bus0.new_handle = DRV_I2C_BUFFER_EVENT.PENDING →
      RTC_MCP7940N_Tasks c bus w = (w, [])) ∧
    (RTC_MCP7940N_Tasks c bus1 w).2 = [] ∧
    (RTC_MCP7940N_Tasks c bus1 w).1.rtc.next_task = RTC_MCP7940N_Task.NONE ∧
    (RTC_MCP7940N_Tasks c bus1 w).1.rtc.state = RTC_MCP7940N_State.NONE ∧
    (RTC_MCP7940N_Tasks c bus1 w).1.date_time_at date_time =
      { seconds := convertFromBCD ((w.date_time_at date_time).seconds &&& 0x7f),
        minutes := convertFromBCD ((w.date_time_at date_time).minutes &&& 0x7f),
        hours := convertFromBCD ((w.date_time_at date_time).hours &&& 0x3f),
        day_of_week := convertFromBCD ((w.date_time_at date_time).day_of_week &&& 0x07),
        day := convertFromBCD ((w.date_time_at date_time).day &&& 0x3f),
        month := convertFromBCD ((w.date_time_at date_time).month &&& 0x0f),
        year := convertFromBCD ((w.date_time_at date_time).year &&& 0xff) } ∧
    (∀ w2 : RTC_World, w2.rtc = w.rtc →
      (w2.date_time_at date_time).seconds &&& 0x7f =
        (w.date_time_at date_time).seconds &&& 0x7f →
      (w2.date_time_at date_time).minutes &&& 0x7f =
        (w.date_time_at date_time).minutes &&& 0x7f →
      (w2.date_time_at date_time).hours &&& 0x3f =
        (w.date_time_at date_time).hours &&& 0x3f →
      (w2.date_time_at date_time).day_of_week &&& 0x07 =
        (w.date_time_at date_time).day_of_week &&& 0x07 →
      (w2.date_time_at date_time).day &&& 0x3f = (w.date_time_at date_time).day &&& 0x3f →
      (w2.date_time_at date_time).month &&& 0x0f =
        (w.date_time_at date_time).month &&& 0x0f →
      (w2.date_time_at date_time).year &&& 0xff = (w.date_time_at date_time).year &&& 0xff →
      (RTC_MCP7940N_Tasks c bus1 w2).1.date_time_at date_time =
        (RTC_MCP7940N_Tasks c bus1 w).1.date_time_at date_time) := by
  have hready := (checkI2CBufferReadyForTransmit_iff bus0 rtc).2 hfree
  have hrtc : w.rtc.state = RTC_MCP7940N_State.I2C_STAUS_CHECK ∧
      w.rtc.next_task = RTC_MCP7940N_Task.DATE_TIME_CONVERT_BCD ∧
      w.rtc.i2c_buffer_handle = bus0.new_handle ∧
      w.rtc._private.date_time_ptr = date_time := by
    rw [hw]
    unfold checkI2CBufferReadyForTransmit getI2CTransferStatus at hready
    simp [RTC_MCP7940N_ReadDateAndTime, performI2CTransmitThenReceive,
      checkI2CBufferReadyForTransmit, getI2CTransferStatus, hready, hhandle]
  obtain ⟨h1, h2, h3, h4⟩ := hrtc
  have hpoll : ∀ v : RTC_World, v.rtc = w.rtc → RTC_MCP7940N_Tasks c bus1 v =
      ({ v with
          rtc := { v.rtc with next_task := RTC_MCP7940N_Task.NONE,
                              state := RTC_MCP7940N_State.NONE },
          date_time_at := Function.update v.date_time_at date_time
            (dateTimeUnpack (v.date_time_at date_time)) }, []) := by
    intro v hv
    unfold RTC_MCP7940N_Tasks checkI2CStatus getI2CTransferStatus
    simp [hv, h1, h2, h3, hcomplete, dateTimeConvertFromBCD, h4]
  refine ⟨?_, ?_, ?_, ?_, ?_, ?_⟩
  · intro bus hpending
    unfold RTC_MCP7940N_Tasks checkI2CStatus getI2CTransferStatus
    simp [h1, h3, hpending]
  · rw [hpoll w rfl]
  · rw [hpoll w rfl]
  · rw [hpoll w rfl]
  · rw [hpoll w rfl]
    simp [dateTimeUnpack]
  · intro w2 hw2 e0 e1 e2 e3 e4 e5 e6
    rw [hpoll w rfl, hpoll w2 hw2]
    simp only [Function.update_same, dateTimeUnpack, e0, e1, e2, e3, e4, e5, e6]

/-- Witness of C15: the raw registers with status bits set are read as 23:59:58, day 5,
28.09.99. -/
theorem RTC_read_date_time_sequence_witness :
    (RTC_MCP7940N_Tasks exampleConstants exampleCompleteBus
      (exampleReadWorld (RTC_MCP7940N_ReadDateAndTime exampleConstants exampleCompleteBus
        exampleIdleRtc 100).rtc)).1.date_time_at 100 =
      { seconds := 58, minutes := 59, hours := 23, day_of_week := 5, day := 28, month := 9,
        year := 99 } ∧
    (RTC_MCP7940N_Tasks exampleConstants exampleCompleteBus
      (exampleReadWorld (RTC_MCP7940N_ReadDateAndTime exampleConstants exampleCompleteBus
        exampleIdleRtc 100).rtc)).1.rtc.state = RTC_MCP7940N_State.NONE :=
  ⟨((RTC_read_date_time_sequence exampleConstants exampleCompleteBus exampleCompleteBus
      exampleIdleRtc 100 _ (Or.inl rfl) (by decide) rfl rfl).2.2.2.2.1).trans (by decide),
   (RTC_read_date_time_sequence exampleConstants exampleCompleteBus exampleCompleteBus
      exampleIdleRtc 100 _ (Or.inl rfl) (by decide) rfl rfl).2.2.2.1⟩

theorem list_eight (l : List Nat) (h : 8 ≤ l.length) :
    ∃ a0 a1 a2 a3 a4 a5 a6 a7 rest, l = a0 :: a1 :: a2 :: a3 :: a4 :: a5 :: a6 :: a7 :: rest := by
  match l, h with
  | a0 :: a1 :: a2 :: a3 :: a4 :: a5 :: a6 :: a7 :: rest, _ =>
    exact ⟨a0, a1, a2, a3, a4, a5, a6, a7, rest, rfl⟩

theorem list_exactly_seven (l : List Nat) (h : l.length = 7) :
    ∃ a0 a1 a2 a3 a4 a5 a6, l = [a0, a1, a2, a3, a4, a5, a6] := by
  match l, h with
  | [a0, a1, a2, a3, a4, a5, a6], _ => exact ⟨a0, a1, a2, a3, a4, a5, a6, rfl⟩

/-- C16: write date-time sequence. `RTC_MCP7940N_WriteDateAndTime` invoked with a free bus
(in particular from `RTC_MCP7940N_STATE_NONE`) issues one transmit-then-receive of the
seven date-time registers starting at the seconds register. With the register image `raw`
received, the poll that observes completion sets the pending task to `NONE` and issues
exactly one transmit of 8 bytes: the address of the seconds register followed by
`(raw[i] & ~mask_i) | convertToBCD(field_i)` for `i = 0..6`. The poll that observes
completion of that write sets the state to `RTC_MCP7940N_STATE_NONE` and issues no call.
The transport hands out valid handles, the transmit buffer has at least 8 bytes and the
register cache at least 7. -/
theorem RTC_write_date_time_sequence (c : MCP7940N_Constants) (bus0 bus1 bus2 : I2C_Bus)
    (rtc : RTC_MCP7940N) (date_time : RTC_MCP7940N_DateTime) (raw : List Nat)
    (w : RTC_World)
    (hfree : rtc.i2c_buffer_handle = 0 ∨
      bus0.status rtc.i2c_buffer_handle = DRV_I2C_BUFFER_EVENT.COMPLETE ∨
      bus0.status rtc.i2c_buffer_handle = DRV_I2C_BUFFER_EVENT.ERROR)
    (hbuffer : 8 ≤ rtc.transmit_buffer.length)
    (hstorage : 7 ≤ rtc._private.register_storage.length)
    (hraw : raw.length = 7)
    (hhandle0 : bus0.new_handle ≠ 0)
    (hw : w.rtc = I2C_receiveRegisterStorage
      (RTC_MCP7940N_WriteDateAndTime c bus0 rtc date_time).rtc raw)
    (hcomplete1 : bus1.status bus0.new_handle = DRV_I2C_BUFFER_EVENT.COMPLETE)
    (hhandle1 : bus1.new_handle ≠ 0)
    (hcomplete2 : bus2.status bus1.new_handle = DRV_I2C_BUFFER_EVENT.COMPLETE) :
    (RTC_MCP7940N_WriteDateAndTime c bus0 rtc date_time).calls =
      [I2C_Call.TransmitThenReceive rtc.i2c_handle (c.MCP7940N_I2C_ADDRESS <<< 1)
        [c.MCP7940N_REG_ADDR_SECONDS % 256] I2C_ReceiveBuffer.private_register_storage 7] ∧
    (RTC_MCP7940N_Tasks c bus1 w).2 =
      [I2C_Call.Transmit rtc.i2c_handle (c.MCP7940N_I2C_ADDRESS <<< 1)
        [c.MCP7940N_REG_ADDR_SECONDS % 256,
         ((raw.getD 0 0 &&& bitNot32 0x7f) ||| convertToBCD date_time.seconds) % 256,
         ((raw.getD 1 0 &&& bitNot32 0x7f) ||| convertToBCD date_time.minutes) % 256,
         ((raw.getD 2 0 &&& bitNot32 0x3f) ||| convertToBCD date_time.hours) % 256,
         ((raw.getD 3 0 &&& bitNot32 0x7) ||| convertToBCD date_time.day_of_week) % 256,
         ((raw.getD 4 0 &&& bitNot32 0x3f) ||| convertToBCD date_time.day) % 256,
         ((raw.getD 5 0 &&& bitNot32 0xf) ||| convertToBCD date_time.month) % 256,
         ((raw.getD 6 0 &&& bitNot32 0xff) ||| convertToBCD date_time.year) % 256]] ∧
    (RTC_MCP7940N_Tasks c bus1 w).1.rtc.next_task = RTC_MCP7940N_Task.NONE ∧
    (RTC_MCP7940N_Tasks c bus1 w).1.rtc.state = RTC_MCP7940N_State.I2C_STAUS_CHECK ∧
    (RTC_MCP7940N_Tasks c bus2 (RTC_MCP7940N_Tasks c bus1 w).1).1.rtc.state =
      RTC_MCP7940N_State.NONE ∧
    (RTC_MCP7940N_Tasks c bus2 (RTC_MCP7940N_Tasks c bus1 w).1).2 = [] := by
  obtain ⟨t0, t1, t2, t3, t4, t5, t6, t7, trest, htb⟩ := list_eight _ hbuffer
  obtain ⟨a0, a1, a2, a3, a4, a5, a6, arest, hreg⟩ := list_seven _ hstorage
  obtain ⟨r0, r1, r2, r3, r4, r5, r6, hrawlist⟩ := list_exactly_seven _ hraw
  have hready := (checkI2CBufferReadyForTransmit_iff bus0 rtc).2 hfree
  unfold checkI2CBufferReadyForTransmit getI2CTransferStatus at hready
  have hop : (RTC_MCP7940N_WriteDateAndTime c bus0 rtc date_time) =
      { rtc := { rtc with
          state := RTC_MCP7940N_State.I2C_STAUS_CHECK,
          next_task := RTC_MCP7940N_Task.DATE_TIME_UPDATE_AND_TRANSMIT,
          i2c_buffer_handle := bus0.new_handle,
          transmit_buffer :=
            c.MCP7940N_REG_ADDR_SECONDS % 256 :: t1 :: t2 :: t3 :: t4 :: t5 :: t6 :: t7 :: trest,
          _private := { rtc._private with date_time := date_time } },
        calls := [I2C_Call.TransmitThenReceive rtc.i2c_handle (c.MCP7940N_I2C_ADDRESS <<< 1)
          [c.MCP7940N_REG_ADDR_SECONDS % 256] I2C_ReceiveBuffer.private_register_storage 7],
        ok := true } := by
    simp [RTC_MCP7940N_WriteDateAndTime, RTC_MCP7940N_ReadNumRegisters,
      performI2CTransmitThenReceive, checkI2CBufferReadyForTransmit, getI2CTransferStatus,
      hready, hhandle0, htb, sizeof_DateTime]
  rw [hop] at hw
  have hw2 : w.rtc =
      { rtc with
          state := RTC_MCP7940N_State.I2C_STAUS_CHECK,
          next_task := RTC_MCP7940N_Task.DATE_TIME_UPDATE_AND_TRANSMIT,
          i2c_buffer_handle := bus0.new_handle,
          transmit_buffer :=
            c.MCP7940N_REG_ADDR_SECONDS % 256 :: t1 :: t2 :: t3 :: t4 :: t5 :: t6 :: t7 :: trest,
          _private := { rtc._private with
            date_time := date_time,
            register_storage := r0 :: r1 :: r2 :: r3 :: r4 :: r5 :: r6 :: arest } } := by
    rw [hw]
    simp [I2C_receiveRegisterStorage, memcpyAt, hreg, hrawlist]
  have hpoll : RTC_MCP7940N_Tasks c bus1 w =
      ({ w with rtc := { w.rtc with
          next_task := RTC_MCP7940N_Task.NONE,
          i2c_buffer_handle := bus1.new_handle,
          transmit_buffer :=
            [c.MCP7940N_REG_ADDR_SECONDS % 256,
             packField r0 0x7f date_time.seconds, packField r1 0x7f date_time.minutes,
             packField r2 0x3f date_time.hours, packField r3 0x7 date_time.day_of_week,
             packField r4 0x3f date_time.day, packField r5 0xf date_time.month,
             packField r6 0xff date_time.year] ++ trest,
          _private := { w.rtc._private with
            register_storage :=
              [packField r0 0x7f date_time.seconds, packField r1 0x7f date_time.minutes,
               packField r2 0x3f date_time.hours, packField r3 0x7 date_time.day_of_week,
               packField r4 0x3f date_time.day, packField r5 0xf date_time.month,
               packField r6 0xff date_time.year] ++ arest } } },
       [I2C_Call.Transmit rtc.i2c_handle (c.MCP7940N_I2C_ADDRESS <<< 1)
        [c.MCP7940N_REG_ADDR_SECONDS % 256,
         packField r0 0x7f date_time.seconds, packField r1 0x7f date_time.minutes,
         packField r2 0x3f date_time.hours, packField r3 0x7 date_time.day_of_week,
         packField r4 0x3f date_time.day, packField r5 0xf date_time.month,
         packField r6 0xff date_time.year]]) := by
    unfold RTC_MCP7940N_Tasks checkI2CStatus getI2CTransferStatus
    simp [hw2, hcomplete1, dateTimeConvertToBCDAndTransmit, RTC_MCP7940N_WriteNumRegisters,
      performI2CTransmit, checkI2CBufferReadyForTransmit, getI2CTransferStatus, hhandle1,
      dateTimePack, memcpyAt, sizeof_DateTime]
  refine ⟨by rw [hop], ?_, ?_, ?_, ?_, ?_⟩
  · rw [hpoll, hrawlist]
    simp [packField]
  · rw [hpoll]
  · rw [hpoll]
    simp [hw2]
  · rw [hpoll]
    unfold RTC_MCP7940N_Tasks checkI2CStatus getI2CTransferStatus
    simp [hw2, hcomplete2]
  · rw [hpoll]
    unfold RTC_MCP7940N_Tasks checkI2CStatus getI2CTransferStatus
    simp [hw2, hcomplete2]

/-- Witness of C16: 23:59:58, day 5, 28.09.99 written over the register image 0x80, 0x00,
0x40, 0x28, 0x00, 0x20, 0x00 read back from the chip. -/
theorem RTC_write_date_time_sequence_witness :
    (RTC_MCP7940N_WriteDateAndTime exampleConstants exampleCompleteBus exampleIdleRtc
      exampleRtc._private.date_time).calls =
      [I2C_Call.TransmitThenReceive 1 0xde [0x00] I2C_ReceiveBuffer.private_register_storage 7] ∧
    (RTC_MCP7940N_Tasks exampleConstants exampleCompleteBus
      (exampleWorld (I2C_receiveRegisterStorage
        (RTC_MCP7940N_WriteDateAndTime exampleConstants exampleCompleteBus exampleIdleRtc
          exampleRtc._private.date_time).rtc
        [0x80, 0x00, 0x40, 0x28, 0x00, 0x20, 0x00]))).2 =
      [I2C_Call.Transmit 1 0xde [0x00, 0xd8, 0x59, 0x63, 0x2d, 0x28, 0x29, 0x99]] :=
  ⟨(RTC_write_date_time_sequence exampleConstants exampleCompleteBus exampleCompleteBus
      exampleCompleteBus exampleIdleRtc exampleRtc._private.date_time
      [0x80, 0x00, 0x40, 0x28, 0x00, 0x20, 0x00]
      (exampleWorld (I2C_receiveRegisterStorage
        (RTC_MCP7940N_WriteDateAndTime exampleConstants exampleCompleteBus exampleIdleRtc
          exampleRtc._private.date_time).rtc
        [0x80, 0x00, 0x40, 0x28, 0x00, 0x20, 0x00]))
      (Or.inl rfl) (by decide) (by decide) rfl
      (by decide) rfl rfl (by decide) rfl).1.trans (by decide),
   (RTC_write_date_time_sequence exampleConstants exampleCompleteBus exampleCompleteBus
      exampleCompleteBus exampleIdleRtc exampleRtc._private.date_time
      [0x80, 0x00, 0x40, 0x28, 0x00, 0x20, 0x00]
      (exampleWorld (I2C_receiveRegisterStorage
        (RTC_MCP7940N_WriteDateAndTime exampleConstants exampleCompleteBus exampleIdleRtc
          exampleRtc._private.date_time).rtc
        [0x80, 0x00, 0x40, 0x28, 0x00, 0x20, 0x00]))
      (Or.inl rfl) (by decide) (by decide) rfl
      (by decide) rfl rfl (by decide) rfl).2.1.trans (by decide)⟩

/-! ## Theorems: RTC sequencer, raw register operations -/

/-- C14, counterexample: after a failed enable-oscillator sequence the sequencer is in
`ERROR`, not busy, with the pending task `OSCILLATOR_UPDATE_ENABLE` left over.
`RTC_MCP7940N_ReadRegister(rtc, 3, ...)` issues its read and leaves the pending task as it
is, and the poll that observes completion of that read runs the left-over task: it issues a
transmit of `[0x00, 0x80]` to the seconds register and the state stays
`I2C_STAUS_CHECK`. -/
theorem RTC_raw_operation_counterexample :
    exampleFailedEnableRtc.state = RTC_MCP7940N_State.ERROR ∧
    RTC_MCP7940N_IsBusy exampleFailedEnableRtc = false ∧
    exampleFailedEnableRtc.next_task = RTC_MCP7940N_Task.OSCILLATOR_UPDATE_ENABLE ∧
    (RTC_MCP7940N_ReadRegister exampleConstants exampleErrorBus exampleFailedEnableRtc
      3 100).calls =
      [I2C_Call.TransmitThenReceive 1 0xde [3] (I2C_ReceiveBuffer.external 100) 1] ∧
    (RTC_MCP7940N_ReadRegister exampleConstants exampleErrorBus exampleFailedEnableRtc
      3 100).rtc.next_task = RTC_MCP7940N_Task.OSCILLATOR_UPDATE_ENABLE ∧
    (RTC_MCP7940N_ReadRegister exampleConstants exampleErrorBus exampleFailedEnableRtc
      3 100).rtc.state = RTC_MCP7940N_State.I2C_STAUS_CHECK ∧
    (RTC_MCP7940N_Tasks exampleConstants exampleCompleteBus
      (exampleWorld (RTC_MCP7940N_ReadRegister exampleConstants exampleErrorBus
        exampleFailedEnableRtc 3 100).rtc)).2 = [I2C_Call.Transmit 1 0xde [0x00, 0x80]] ∧
    (RTC_MCP7940N_Tasks exampleConstants exampleCompleteBus
      (exampleWorld (RTC_MCP7940N_ReadRegister exampleConstants exampleErrorBus
        exampleFailedEnableRtc 3 100).rtc)).1.rtc.state =
      RTC_MCP7940N_State.I2C_STAUS_CHECK := by
  decide

/-- C14, amended: the raw single-register and burst register read and write leave the
pending task as it is, while every other public operation sets it to a task other than
`NONE`. After a raw operation invoked with the pending task `NONE` on a free bus that
returns a valid handle, whatever bytes are received, the first poll that observes
completion sets the state to `RTC_MCP7940N_STATE_NONE` and issues no bus call. -/
theorem RTC_raw_operation_pending_task (c : MCP7940N_Constants) (bus0 bus1 : I2C_Bus)
    (rtc : RTC_MCP7940N) (op : RTC_Operation) (data : List Nat) (w : RTC_World) :
    (op.isRawRegisterAccess = true → (op.invoke c bus0 rtc).rtc.next_task = rtc.next_task) ∧
    (op.isRawRegisterAccess = false →
      (op.invoke c bus0 rtc).rtc.next_task ≠ RTC_MCP7940N_Task.NONE) ∧
    (op.isRawRegisterAccess = true →
      rtc.next_task = RTC_MCP7940N_Task.NONE →
      (rtc.i2c_buffer_handle = 0 ∨
        bus0.status rtc.i2c_buffer_handle = DRV_I2C_BUFFER_EVENT.COMPLETE ∨
        bus0.status rtc.i2c_buffer_handle = DRV_I2C_BUFFER_EVENT.ERROR) →
      bus0.new_handle ≠ 0 →
      w.rtc = I2C_receiveRegisterStorage (op.invoke c bus0 rtc).rtc data →
      bus1.status bus0.new_handle = DRV_I2C_BUFFER_EVENT.COMPLETE →
      (RTC_MCP7940N_Tasks c bus1 w).1.rtc.state = RTC_MCP7940N_State.NONE ∧
      (RTC_MCP7940N_Tasks c bus1 w).1.rtc.next_task = RTC_MCP7940N_Task.NONE ∧
      (RTC_MCP7940N_Tasks c bus1 w).2 = []) := by
  have htask : op.isRawRegisterAccess = true →
      (op.invoke c bus0 rtc).rtc.next_task = rtc.next_task := by
    intro hraw
    cases op <;> simp [RTC_Operation.isRawRegisterAccess] at hraw <;>
      simp [RTC_Operation.invoke, RTC_MCP7940N_ReadRegister, RTC_MCP7940N_WriteRegister,
        RTC_MCP7940N_ReadNumRegisters, RTC_MCP7940N_WriteNumRegisters,
        (performI2CTransmit_frame _ _ _ _).1,
        (performI2CTransmitThenReceive_frame _ _ _ _ _ _).1]
  refine ⟨htask, ?_, ?_⟩
  · intro hraw
    cases op <;> simp [RTC_Operation.isRawRegisterAccess] at hraw <;>
      simp [RTC_Operation.invoke, RTC_MCP7940N_WriteDateAndTime,
        RTC_MCP7940N_ReadDateAndTime, RTC_MCP7940N_ReadNumRegisters,
        RTC_MCP7940N_EnableOscillator, RTC_MCP7940N_OscillatorStatus,
        RTC_MCP7940N_EnableBatteryBackup, RTC_MCP7940N_BatteryBackupStatus,
        (performI2CTransmitThenReceive_frame _ _ _ _ _ _).1]
    all_goals split_ifs <;> simp
  · intro hraw hnone hfree hhandle hw hcomplete
    have hready := (checkI2CBufferReadyForTransmit_iff bus0 rtc).2 hfree
    have hstate := RTC_Operation_invoke_state c bus0 rtc op
    rw [if_pos ⟨hready, hhandle⟩] at hstate
    have hhandle2 : (op.invoke c bus0 rtc).rtc.i2c_buffer_handle = bus0.new_handle := by
      unfold checkI2CBufferReadyForTransmit getI2CTransferStatus at hready
      cases op <;>
        simp [RTC_Operation.invoke, RTC_MCP7940N_WriteDateAndTime,
          RTC_MCP7940N_ReadDateAndTime, RTC_MCP7940N_ReadRegister,
          RTC_MCP7940N_WriteRegister, RTC_MCP7940N_ReadNumRegisters,
          RTC_MCP7940N_WriteNumRegisters, RTC_MCP7940N_EnableOscillator,
          RTC_MCP7940N_OscillatorStatus, RTC_MCP7940N_EnableBatteryBackup,
          RTC_MCP7940N_BatteryBackupStatus, performI2CTransmit,
          performI2CTransmitThenReceive, checkI2CBufferReadyForTransmit,
          getI2CTransferStatus, hready, hhandle]
    have h1 : w.rtc.state = RTC_MCP7940N_State.I2C_STAUS_CHECK := by
      rw [hw]
      exact hstate
    have h2 : w.rtc.next_task = RTC_MCP7940N_Task.NONE := by
      rw [hw]
      exact (htask hraw).trans hnone
    have h3 : w.rtc.i2c_buffer_handle = bus0.new_handle := by
      rw [hw]
      exact hhandle2
    unfold RTC_MCP7940N_Tasks checkI2CStatus getI2CTransferStatus
    simp [h1, h2, h3, hcomplete]

/-- Witness of the amended C14: a register read from the idle sequencer, whose pending task
is `NONE`. -/
theorem RTC_raw_operation_pending_task_witness :
    exampleIdleRtc.next_task = RTC_MCP7940N_Task.NONE ∧
    (RTC_MCP7940N_Tasks exampleConstants exampleCompleteBus
      (exampleWorld (I2C_receiveRegisterStorage
        ((RTC_Operation.ReadRegister 3 100).invoke exampleConstants exampleCompleteBus
          exampleIdleRtc).rtc []))).1.rtc.state = RTC_MCP7940N_State.NONE ∧
    (RTC_MCP7940N_Tasks exampleConstants exampleCompleteBus
      (exampleWorld (I2C_receiveRegisterStorage
        ((RTC_Operation.ReadRegister 3 100).invoke exampleConstants exampleCompleteBus
          exampleIdleRtc).rtc []))).1.rtc.next_task = RTC_MCP7940N_Task.NONE ∧
    (RTC_MCP7940N_Tasks exampleConstants exampleCompleteBus
      (exampleWorld (I2C_receiveRegisterStorage
        ((RTC_Operation.ReadRegister 3 100).invoke exampleConstants exampleCompleteBus
          exampleIdleRtc).rtc []))).2 = [] :=
  ⟨rfl,
   (RTC_raw_operation_pending_task exampleConstants exampleCompleteBus exampleCompleteBus
      exampleIdleRtc (RTC_Operation.ReadRegister 3 100) []
      (exampleWorld (I2C_receiveRegisterStorage
        ((RTC_Operation.ReadRegister 3 100).invoke exampleConstants exampleCompleteBus
          exampleIdleRtc).rtc []))).2.2 rfl rfl (Or.inl rfl) (by decide) rfl rfl⟩

/-! ## Theorems: display pipeline, symbols and cathodes -/

/-- C21: symbol decoding against the wiring diagram, evaluated on the code. The wiring
diagram of `APP_Nixie_Initialize` registers the digit 5 under cathode index 7 and the
digits 0, 9, 8, ..., 1 under 2, 3, 4, ..., 11, while `IN12A_SymbolToCathodeIndex` returns
`11 - digit` for the digits 1 to 9: 6 for the digit 5, and one less than the diagram for
every digit but 0. -/
theorem IN12A_SymbolToCathodeIndex_wiring :
    IN12A_SymbolToCathodeIndex 53 = 6 ∧
    (IN12A_wiring.filter (fun l => l.symbol == 53)).map (fun l => l.cathode_index) = [7] ∧
    IN12A_wiring.map (fun l => (l.symbol, l.cathode_index)) =
      [(48, 2), (57, 3), (56, 4), (55, 5), (54, 6), (53, 7), (52, 8), (51, 9), (50, 10),
       (49, 11)] ∧
    [48, 57, 56, 55, 54, 53, 52, 51, 50, 49].map IN12A_SymbolToCathodeIndex =
      [2, 2, 3, 4, 5, 6, 7, 8, 9, 10] := by
  decide

/-- C29: distinct digits, evaluated on the code. In both variants the digits 0 and 9
decode to the same cathode index 2. -/
theorem SymbolToCathodeIndex_zero_nine :
    (48 : Nat) ≠ 57 ∧
    IN12A_SymbolToCathodeIndex 48 = 2 ∧ IN12A_SymbolToCathodeIndex 57 = 2 ∧
    IN12B_SymbolToCathodeIndex 48 = 2 ∧ IN12B_SymbolToCathodeIndex 57 = 2 := by
  decide

/-! ## Theorems: calendar dates -/

/-- C28: calendar round trip, evaluated on the code. The month 10 of the calendar-valid
date 23:59:58, day 5, 28.10.99 is packed into the month register as 0x30 (the tens digit in
bit 4, next to the status bit 0x20 that was there) and unpacked through the mask 0x0f as
month 0; the months 11 and 12 are read back as 1 and 2. -/
theorem dateTime_month_round_trip :
    exampleRtcMonth10._private.date_time =
      { seconds := 58, minutes := 59, hours := 23, day_of_week := 5, day := 28, month := 10,
        year := 99 } ∧
    (dateTimeConvertToBCDAndTransmit exampleConstants exampleCompleteBus
      exampleRtcMonth10).rtc._private.register_storage =
        [0xd8, 0x59, 0x63, 0x2d, 0x28, 0x30, 0x99] ∧
    dateTimeUnpack (RTC_MCP7940N_DateTime.ofBytes
      (dateTimeConvertToBCDAndTransmit exampleConstants exampleCompleteBus
        exampleRtcMonth10).rtc._private.register_storage) =
      { seconds := 58, minutes := 59, hours := 23, day_of_week := 5, day := 28, month := 0,
        year := 99 } ∧
    [10, 11, 12].map (fun month => convertFromBCD (packField 0 0xf month &&& 0xf)) =
      [0, 1, 2] := by
  decide

/-! ## Theorems: display pipeline, polling -/

/-- C23: the error state of the display pipeline clears itself. One poll in `ERROR` sets
the state to `IDLE`, changes no other field and issues no transport call; a value offered
before that poll is rejected and a value offered after it is accepted. -/
theorem APP_Nixie_Tasks_error (env : Nixie_Transports) (d : AppNixieData) (value : List Nat)
    (herror : d.state = APP_NIXIE_STATE.ERROR) :
    APP_Nixie_Tasks env d = some ({ d with state := APP_NIXIE_STATE.IDLE }, []) ∧
    (APP_Nixie_Display d value).accepted = false ∧
    (APP_Nixie_Display { d with state := APP_NIXIE_STATE.IDLE } value).accepted = true := by
  refine ⟨?_, ?_, ?_⟩
  · unfold APP_Nixie_Tasks
    simp only [herror]
  · unfold APP_Nixie_Display APP_Nixie_IsBusy
    simp [herror]
  · unfold APP_Nixie_Display APP_Nixie_IsBusy
    simp

/-- Witness of C23: the example pipeline in the error state. -/
theorem APP_Nixie_Tasks_error_witness :
    APP_Nixie_Tasks exampleBusyTransports { exampleNixie with state := APP_NIXIE_STATE.ERROR } =
      some ({ exampleNixie with state := APP_NIXIE_STATE.IDLE }, []) ∧
    (APP_Nixie_Display { exampleNixie with state := APP_NIXIE_STATE.ERROR }
      (charCodes "42")).accepted = false ∧
    (APP_Nixie_Display { exampleNixie with state := APP_NIXIE_STATE.IDLE }
      (charCodes "42")).accepted = true :=
  APP_Nixie_Tasks_error exampleBusyTransports
    { exampleNixie with state := APP_NIXIE_STATE.ERROR } (charCodes "42") rfl

/-- C24: fetch submission step. A poll in `WAIT_HTTPS_CLIENT` changes nothing and submits
nothing while the Remote Fetch Transport is busy; otherwise it sets `value_parsed` to false
and `cyclic_buffer_len` to 0 and submits exactly one request for `request_url`, the state
becoming `ERROR` if the submission fails and `WAIT_HTTPS_RESPONSE` if it succeeds. A poll
in `WAIT_HTTPS_RESPONSE` changes nothing and submits nothing. -/
theorem APP_Nixie_Tasks_fetch (env : Nixie_Transports) (d : AppNixieData) :
    (d.state = APP_NIXIE_STATE.WAIT_HTTPS_CLIENT → env.https_client_is_busy = true →
      APP_Nixie_Tasks env d = some (d, [])) ∧
    (d.state = APP_NIXIE_STATE.WAIT_HTTPS_CLIENT → env.https_client_is_busy = false →
      APP_Nixie_Tasks env d =
        some ({ d with
                value_parsed := false, cyclic_buffer_len := 0,
                state := if env.https_client_request = true
                  then APP_NIXIE_STATE.WAIT_HTTPS_RESPONSE else APP_NIXIE_STATE.ERROR },
              [Nixie_Call.HTTPS_Client_Request d.app_https_client_data d.request_url])) ∧
    (d.state = APP_NIXIE_STATE.WAIT_HTTPS_RESPONSE → APP_Nixie_Tasks env d = some (d, [])) := by
  refine ⟨?_, ?_, ?_⟩
  · intro hstate hbusy
    unfold APP_Nixie_Tasks waitHttpsClientAndSendRequest
    simp [hstate, hbusy]
  · intro hstate hfree
    unfold APP_Nixie_Tasks waitHttpsClientAndSendRequest
    cases hreq : env.https_client_request <;> simp [hstate, hfree]
  · intro hstate
    unfold APP_Nixie_Tasks
    simp only [hstate]

/-- Witness of C24: the example pipeline waiting for a free transport that then accepts the
request. -/
theorem APP_Nixie_Tasks_fetch_witness :
    APP_Nixie_Tasks exampleFreeTransports
        { exampleNixie with state := APP_NIXIE_STATE.WAIT_HTTPS_CLIENT, value_parsed := true,
                            cyclic_buffer_len := 5 } =
      some ({ exampleNixie with state := APP_NIXIE_STATE.WAIT_HTTPS_RESPONSE },
            [Nixie_Call.HTTPS_Client_Request 1 (charCodes "https://example.org/")]) ∧
    APP_Nixie_Tasks exampleBusyTransports
        { exampleNixie with state := APP_NIXIE_STATE.WAIT_HTTPS_CLIENT } =
      some ({ exampleNixie with state := APP_NIXIE_STATE.WAIT_HTTPS_CLIENT }, []) :=
  ⟨(APP_Nixie_Tasks_fetch exampleFreeTransports
      { exampleNixie with state := APP_NIXIE_STATE.WAIT_HTTPS_CLIENT, value_parsed := true,
                          cyclic_buffer_len := 5 }).2.1 rfl rfl,
   (APP_Nixie_Tasks_fetch exampleBusyTransports
      { exampleNixie with state := APP_NIXIE_STATE.WAIT_HTTPS_CLIENT }).1 rfl rfl⟩

/-- C25: completion callbacks. `requestHandledCallback` sets the state to
`BEGIN_DISPLAY_SEQUENCE` whether `value_parsed` is true or false and changes nothing else,
so `display_value` and `value_parsed` keep their values; after a chunk without the token,
which the on-bytes callback leaves without effect, the value held before is the one that
goes to the display sequence. `errorCallback` sets the state to `ERROR` and changes nothing
else. -/
theorem completion_callbacks (d : AppNixieData) (buffer : List Nat)
    (hmissing : strstr_len buffer d.token buffer.length = none) :
    requestHandledCallback d = { d with state := APP_NIXIE_STATE.BEGIN_DISPLAY_SEQUENCE } ∧
    (requestHandledCallback d).display_value = d.display_value ∧
    (requestHandledCallback d).value_parsed = d.value_parsed ∧
    (bufferReceivedCallback buffer d).map requestHandledCallback =
      some { d with state := APP_NIXIE_STATE.BEGIN_DISPLAY_SEQUENCE } ∧
    errorCallback d = { d with state := APP_NIXIE_STATE.ERROR } := by
  refine ⟨rfl, rfl, rfl, ?_, rfl⟩
  unfold bufferReceivedCallback
  by_cases hparsed : d.value_parsed = true
  · simp [hparsed, requestHandledCallback]
  · simp [hparsed, hmissing, requestHandledCallback]

/-- Witness of C25: a response chunk without the token, then completion; the pipeline goes
to the display sequence with the value 1234 it held before. -/
theorem completion_callbacks_witness :
    (bufferReceivedCallback (charCodes "<html>no tasks</html>") exampleNixie).map
        requestHandledCallback =
      some { exampleNixie with state := APP_NIXIE_STATE.BEGIN_DISPLAY_SEQUENCE } ∧
    exampleNixie.display_value = charCodes "1234" :=
  ⟨(completion_callbacks exampleNixie (charCodes "<html>no tasks</html>")
      (by decide)).2.2.2.1, rfl⟩

/-- C26: write step. A poll in `WRITE_SHIFT_REGISTER` changes nothing and sends nothing
while the Shift-Register Transport is busy; otherwise it issues exactly one send of
`register_shift_state` with the count `num_shift_registers`, sets the state to `IDLE` and
changes nothing else. -/
theorem APP_Nixie_Tasks_write (env : Nixie_Transports) (d : AppNixieData)
    (hstate : d.state = APP_NIXIE_STATE.WRITE_SHIFT_REGISTER) :
    (env.shift_register_is_busy = true → APP_Nixie_Tasks env d = some (d, [])) ∧
    (env.shift_register_is_busy = false →
      APP_Nixie_Tasks env d =
        some ({ d with state := APP_NIXIE_STATE.IDLE },
              [Nixie_Call.ShiftRegister_SendData d.app_shift_register_data
                (d.register_shift_state.take d.num_shift_registers)
                d.num_shift_registers])) := by
  constructor
  · intro hbusy
    unfold APP_Nixie_Tasks writeShiftRegister
    simp [hstate, hbusy]
  · intro hfree
    unfold APP_Nixie_Tasks writeShiftRegister
    simp [hstate, hfree]

/-- Witness of C26: the six registers of the example pipeline are sent once. -/
theorem APP_Nixie_Tasks_write_witness :
    APP_Nixie_Tasks exampleFreeTransports
        { exampleNixie with state := APP_NIXIE_STATE.WRITE_SHIFT_REGISTER } =
      some ({ exampleNixie with state := APP_NIXIE_STATE.IDLE },
            [Nixie_Call.ShiftRegister_SendData 2 [1, 0, 0, 0, 0, 0] 6]) ∧
    APP_Nixie_Tasks exampleBusyTransports
        { exampleNixie with state := APP_NIXIE_STATE.WRITE_SHIFT_REGISTER } =
      some ({ exampleNixie with state := APP_NIXIE_STATE.WRITE_SHIFT_REGISTER }, []) :=
  ⟨(APP_Nixie_Tasks_write exampleFreeTransports
      { exampleNixie with state := APP_NIXIE_STATE.WRITE_SHIFT_REGISTER } rfl).2 rfl,
   (APP_Nixie_Tasks_write exampleBusyTransports
      { exampleNixie with state := APP_NIXIE_STATE.WRITE_SHIFT_REGISTER } rfl).1 rfl⟩

/-! ## Theorems: display pipeline, decoding -/

theorem decodeDisplayLoop_spec (d : AppNixieData) :
    ∀ (fuel i : Nat) (cathodes : List Int),
      i + fuel ≤ d.nixie_types.length → i + fuel ≤ d.display_value.length →
      i + fuel ≤ cathodes.length →
      ∃ cs, decodeDisplayLoop d fuel i cathodes = some cs ∧ cs.length = cathodes.length ∧
        (∀ k, i ≤ k → k < i + fuel → ∃ t s, d.nixie_types[k]? = some t ∧
          d.display_value[k]? = some s ∧ cs[k]? = some (nixieSymbolToCathodeIndex t s)) ∧
        (∀ k, (k < i ∨ i + fuel ≤ k) → cs[k]? = cathodes[k]?) := by
  intro fuel
  induction fuel with
  | zero =>
    intro i cathodes _ _ _
    refine ⟨cathodes, rfl, rfl, ?_, fun _ _ => rfl⟩
    intro k h1 h2
    omega
  | succ fuel ih =>
    intro i cathodes ht hs hc
    have hti : i < d.nixie_types.length := by omega
    have hsi : i < d.display_value.length := by omega
    have hci : i < cathodes.length := by omega
    have e1 : d.nixie_types[i]? = some d.nixie_types[i] := List.getElem?_eq_getElem hti
    have e2 : d.display_value[i]? = some d.display_value[i] := List.getElem?_eq_getElem hsi
    have e3 : arraySet cathodes i
        (nixieSymbolToCathodeIndex d.nixie_types[i] d.display_value[i]) =
        some (cathodes.set i
          (nixieSymbolToCathodeIndex d.nixie_types[i] d.display_value[i])) := by
      unfold arraySet
      simp [hci]
    obtain ⟨cs, h1, h2, h3, h4⟩ := ih (i + 1)
      (cathodes.set i (nixieSymbolToCathodeIndex d.nixie_types[i] d.display_value[i]))
      (by omega) (by omega) (by simp; omega)
    unfold decodeDisplayLoop
    simp only [e1, e2, e3]
    refine ⟨cs, h1, by simpa using h2, ?_, ?_⟩
    · intro k hk1 hk2
      by_cases hki : k = i
      · subst hki
        refine ⟨_, _, e1, e2, ?_⟩
        rw [h4 k (Or.inl (by omega))]
        simp [hci]
      · exact h3 k (by omega) (by omega)
    · intro k hk
      have hne : i ≠ k := by omega
      rw [h4 k (by omega), List.getElem?_set_ne hne]

/-- C22: variant-specific decoding. For every symbol the IN-12A and IN-12B mappings return
the same cathode index, except for the comma, for which IN-12B returns 12 and IN-12A
returns -1; both return -1 for every symbol that is neither a digit nor (for IN-12B) the
comma, NUL included. When the arrays hold `num_nixies` tubes, `decodeDisplayValue` returns,
sets `cathodes[i]` to the mapping of `display_value[i]` under the variant of tube `i` for
every `i < num_nixies`, leaves the other elements of `cathodes` and every other field as
they are and moves to `ENCODE_SHIFT_REGISTER`. -/
theorem decodeDisplayValue_cathodes (d : AppNixieData)
    (htypes : d.num_nixies ≤ d.nixie_types.length)
    (hvalue : d.num_nixies ≤ d.display_value.length)
    (hcathodes : d.num_nixies ≤ d.cathodes.length) :
    (∀ c : Nat, c ≠ 44 → IN12A_SymbolToCathodeIndex c = IN12B_SymbolToCathodeIndex c) ∧
    IN12B_SymbolToCathodeIndex 44 = 12 ∧ IN12A_SymbolToCathodeIndex 44 = -1 ∧
    (∀ c : Nat, ¬ (48 ≤ c ∧ c ≤ 57) → IN12A_SymbolToCathodeIndex c = -1) ∧
    (∀ c : Nat, ¬ (48 ≤ c ∧ c ≤ 57) → c ≠ 44 → IN12B_SymbolToCathodeIndex c = -1) ∧
    IN12A_SymbolToCathodeIndex 0 = -1 ∧ IN12B_SymbolToCathodeIndex 0 = -1 ∧
    ∃ cathodes,
      decodeDisplayValue d =
        some { d with cathodes := cathodes,
                      state := APP_NIXIE_STATE.ENCODE_SHIFT_REGISTER } ∧
      cathodes.length = d.cathodes.length ∧
      (∀ i, i < d.num_nixies → ∃ type symbol, d.nixie_types[i]? = some type ∧
        d.display_value[i]? = some symbol ∧
        cathodes[i]? = some (nixieSymbolToCathodeIndex type symbol)) ∧
      (∀ i, d.num_nixies ≤ i → cathodes[i]? = d.cathodes[i]?) := by
  refine ⟨?_, by decide, by decide, ?_, ?_, by decide, by decide, ?_⟩
  · intro c hc
    unfold IN12A_SymbolToCathodeIndex IN12B_SymbolToCathodeIndex
    simp [hc]
  · intro c hc
    unfold IN12A_SymbolToCathodeIndex
    have h1 : c ≠ 48 := by omega
    have h2 : ¬ (c > 48 ∧ c ≤ 57) := by omega
    simp [h1, h2]
  · intro c hc hcomma
    unfold IN12B_SymbolToCathodeIndex
    have h1 : c ≠ 48 := by omega
    have h2 : ¬ (c > 48 ∧ c ≤ 57) := by omega
    simp [h1, h2, hcomma]
  · obtain ⟨cs, h1, h2, h3, h4⟩ := decodeDisplayLoop_spec d d.num_nixies 0 d.cathodes
      (by omega) (by omega) (by omega)
    refine ⟨cs, ?_, h2, ?_, ?_⟩
    · unfold decodeDisplayValue
      rw [h1]
    · intro i hi
      exact h3 i (Nat.zero_le i) (by omega)
    · intro i hi
      exact h4 i (Or.inr (by omega))

/-- Witness of C22: a display of two tubes, IN-12A and IN-12B, both showing a comma. -/
theorem decodeDisplayValue_cathodes_witness :
    decodeDisplayValue
        { exampleNixie with num_nixies := 2, display_value := charCodes ",,12",
                            nixie_types := [NixieType.IN12A, NixieType.IN12B] } =
      some { exampleNixie with num_nixies := 2, display_value := charCodes ",,12",
                               nixie_types := [NixieType.IN12A, NixieType.IN12B],
                               cathodes := [-1, 12, 9, 8],
                               state := APP_NIXIE_STATE.ENCODE_SHIFT_REGISTER } ∧
    ∃ cathodes,
      decodeDisplayValue
          { exampleNixie with num_nixies := 2, display_value := charCodes ",,12",
                              nixie_types := [NixieType.IN12A, NixieType.IN12B] } =
        some { exampleNixie with num_nixies := 2, display_value := charCodes ",,12",
                                 nixie_types := [NixieType.IN12A, NixieType.IN12B],
                                 cathodes := cathodes,
                                 state := APP_NIXIE_STATE.ENCODE_SHIFT_REGISTER } ∧
      cathodes.length = 4 :=
  ⟨by decide,
   (decodeDisplayValue_cathodes
      { exampleNixie with num_nixies := 2, display_value := charCodes ",,12",
                          nixie_types := [NixieType.IN12A, NixieType.IN12B] }
      (by decide) (by decide) (by decide)).2.2.2.2.2.2.2.imp
      (fun _ h => ⟨h.1, h.2.1⟩)⟩

/-! ## Theorems: display pipeline, setup -/

theorem cathodeMappingAt_eq_wiringAt (d : AppNixieData) (i : Nat) (c : Int) :
    cathodeMappingAt d i c = if c < 0 then none else wiringAt d.cathode_mapping i c.toNat := by
  unfold cathodeMappingAt wiringAt
  rfl

theorem setCathodeMapping_spec (table : List (List CathodeMapping)) (tube : Nat)
    (line : NIXIE_CATHODE) (row : List CathodeMapping)
    (hrow : table[tube]? = some row) (hidx : line.cathode_index < row.length) :
    ∃ t, setCathodeMapping table tube line = some t ∧
      (∀ i : Nat, (t[i]?).map List.length = (table[i]?).map List.length) ∧
      (∀ i j, wiringAt t i j =
        if i = tube ∧ j = line.cathode_index then
          some { byte := line.shift_byte, bit := line.shift_bit }
        else wiringAt table i j) := by
  have htube : tube < table.length := by
    by_contra h
    rw [List.getElem?_eq_none (by omega)] at hrow
    exact absurd hrow (by simp)
  refine ⟨table.set tube
    (row.set line.cathode_index { byte := line.shift_byte, bit := line.shift_bit }), ?_, ?_, ?_⟩
  · unfold setCathodeMapping arraySet
    simp [hrow, hidx, htube]
  · intro i
    by_cases hi : tube = i
    · subst hi
      simp [hrow, htube]
    · rw [List.getElem?_set_ne hi]
  · intro i j
    unfold wiringAt
    by_cases hi : tube = i
    · subst hi
      simp only [List.getElem?_set_self htube, hrow, true_and]
      by_cases hj : line.cathode_index = j
      · subst hj
        simp [hidx]
      · have hj2 : ¬ j = line.cathode_index := fun h => hj h.symm
        simp [List.getElem?_set_ne hj, hj2]
    · have hi2 : ¬ i = tube := fun h => hi h.symm
      simp [List.getElem?_set_ne hi, hi2]

theorem registerCathodes_spec (tube : Nat) :
    ∀ (lines : List NIXIE_CATHODE) (table : List (List CathodeMapping)) (n : Nat),
      (table[tube]?).map List.length = some n →
      (∀ l ∈ lines, l.cathode_index < n) →
      ∃ t, registerCathodes tube lines table = some t ∧
        (∀ i : Nat, (t[i]?).map List.length = (table[i]?).map List.length) ∧
        (∀ i j, (i ≠ tube ∨ ∀ l ∈ lines, l.cathode_index ≠ j) →
          wiringAt t i j = wiringAt table i j) ∧
        (∀ l ∈ lines, ∃ l2 ∈ lines, l2.cathode_index = l.cathode_index ∧
          wiringAt t tube l.cathode_index =
            some { byte := l2.shift_byte, bit := l2.shift_bit }) := by
  intro lines
  induction lines with
  | nil =>
    intro table n _ _
    exact ⟨table, rfl, fun _ => rfl, fun _ _ _ => rfl, fun l hl => absurd hl (by simp)⟩
  | cons line rest ih =>
    intro table n hn hlines
    obtain ⟨row, hrow, hlen⟩ : ∃ row, table[tube]? = some row ∧ row.length = n := by
      cases h : table[tube]? with
      | none => simp [h] at hn
      | some row => exact ⟨row, rfl, by simpa [h] using hn⟩
    obtain ⟨t1, h1, h2, h3⟩ := setCathodeMapping_spec table tube line row hrow
      (by rw [hlen]; exact hlines line (by simp))
    obtain ⟨t, k1, k2, k3, k4⟩ := ih t1 n (by rw [h2 tube]; exact hn)
      (fun l hl => hlines l (by simp [hl]))
    refine ⟨t, ?_, ?_, ?_, ?_⟩
    · unfold registerCathodes
      simp only [h1]
      exact k1
    · intro i
      rw [k2 i, h2 i]
    · intro i j hij
      rw [k3 i j (hij.imp id (fun h l hl => h l (by simp [hl]))), h3 i j]
      have hne : ¬ (i = tube ∧ j = line.cathode_index) := by
        rintro ⟨hi, hj⟩
        rcases hij with h | h
        · exact h hi
        · exact h line (by simp) hj.symm
      simp [hne]
    · intro l hl
      by_cases hex : ∃ l2 ∈ rest, l2.cathode_index = l.cathode_index
      · obtain ⟨l2, hl2, hidx⟩ := hex
        obtain ⟨l3, hl3, hidx3, hw⟩ := k4 l2 hl2
        refine ⟨l3, by simp [hl3], by rw [hidx3, hidx], ?_⟩
        rw [← hidx]
        exact hw
      · have hl0 : l = line := by
          rcases List.mem_cons.1 hl with h | h
          · exact h
          · exact absurd ⟨l, h, rfl⟩ hex
        subst hl0
        refine ⟨l, by simp, rfl, ?_⟩
        rw [k3 tube l.cathode_index (Or.inr (fun l2 hl2 h => hex ⟨l2, hl2, h⟩)), h3]
        simp

theorem IN12A_wiring_lines :
    (∀ l ∈ IN12A_wiring, l.cathode_index < 12 ∧ l.shift_byte = 0 ∧ l.shift_bit = 0) ∧
    (∀ j, 2 ≤ j → j ≤ 11 → ∃ l ∈ IN12A_wiring, l.cathode_index = j) := by
  constructor
  · decide
  · intro j h1 h2
    interval_cases j <;> decide

theorem registerTube_step (d : AppNixieData) (n : Nat)
    (hnum : d.num_nixies = n) (hn : n < 4)
    (htypes : 4 ≤ d.nixie_types.length)
    (hrows : ∀ i : Nat, i < 4 →
      ∃ m, (d.cathode_mapping[i]?).map List.length = some m ∧ 12 ≤ m)
    (hdone : ∀ i : Nat, i < n → d.nixie_types[i]? = some NixieType.IN12A ∧
      ∀ j, 2 ≤ j → j ≤ 11 → wiringAt d.cathode_mapping i j = some { byte := 0, bit := 0 }) :
    ∃ d1, registerTube d NixieType.IN12A IN12A_wiring = some d1 ∧
      d1 = { d with nixie_types := d1.nixie_types, cathode_mapping := d1.cathode_mapping,
                    num_nixies := d1.num_nixies } ∧
      d1.num_nixies = n + 1 ∧
      4 ≤ d1.nixie_types.length ∧
      (∀ i : Nat, i < 4 →
        ∃ m, (d1.cathode_mapping[i]?).map List.length = some m ∧ 12 ≤ m) ∧
      (∀ i : Nat, i < n + 1 → d1.nixie_types[i]? = some NixieType.IN12A ∧
        ∀ j, 2 ≤ j → j ≤ 11 →
          wiringAt d1.cathode_mapping i j = some { byte := 0, bit := 0 }) := by
  obtain ⟨m, hm, hm12⟩ := hrows n hn
  obtain ⟨t, h1, h2, h3, h4⟩ := registerCathodes_spec n IN12A_wiring d.cathode_mapping m hm
    (fun l hl => lt_of_lt_of_le (IN12A_wiring_lines.1 l hl).1 hm12)
  have hset : arraySet d.nixie_types n NixieType.IN12A =
      some (d.nixie_types.set n NixieType.IN12A) := by
    unfold arraySet
    simp [show n < d.nixie_types.length by omega]
  refine ⟨{ d with nixie_types := d.nixie_types.set n NixieType.IN12A, cathode_mapping := t,
                   num_nixies := n + 1 }, ?_, rfl, rfl, by simpa using htypes, ?_, ?_⟩
  · unfold registerTube
    simp only [hnum, hset, h1]
  · intro i hi
    obtain ⟨mi, hmi, hmi12⟩ := hrows i hi
    exact ⟨mi, by rw [h2 i]; exact hmi, hmi12⟩
  · intro i hi
    by_cases hin : i = n
    · subst hin
      refine ⟨by simp [show i < d.nixie_types.length by omega], ?_⟩
      intro j hj1 hj2
      obtain ⟨l, hl, hlj⟩ := IN12A_wiring_lines.2 j hj1 hj2
      obtain ⟨l2, hl2, _, hw⟩ := h4 l hl
      rw [hlj] at hw
      rw [hw, (IN12A_wiring_lines.1 l2 hl2).2.1, (IN12A_wiring_lines.1 l2 hl2).2.2]
    · obtain ⟨ht, hwi⟩ := hdone i (by omega)
      refine ⟨?_, ?_⟩
      · show (d.nixie_types.set n NixieType.IN12A)[i]? = _
        rw [List.getElem?_set_ne (fun h => hin h.symm)]
        exact ht
      · intro j hj1 hj2
        show wiringAt t i j = _
        rw [h3 i j (Or.inl hin)]
        exact hwi j hj1 hj2

theorem APP_Nixie_Initialize_spec (sizes : AppNixieDataSizes) (d : AppNixieData)
    (client shift : Nat)
    (htypes : 4 ≤ d.nixie_types.length)
    (hrows : ∀ i : Nat, i < 4 →
      ∃ m, (d.cathode_mapping[i]?).map List.length = some m ∧ 12 ≤ m) :
    ∃ dI, APP_Nixie_Initialize sizes d client shift = some dI ∧
      dI.state = APP_NIXIE_STATE.IDLE ∧ dI.num_nixies = 4 ∧ dI.num_shift_registers = 6 ∧
      dI.app_shift_register_data = shift ∧
      dI.display_value = d.display_value ∧ dI.cathodes = d.cathodes ∧
      dI.register_shift_state = d.register_shift_state ∧
      (∀ i : Nat, i < 4 → dI.nixie_types[i]? = some NixieType.IN12A ∧
        ∀ j, 2 ≤ j → j ≤ 11 →
          wiringAt dI.cathode_mapping i j = some { byte := 0, bit := 0 }) := by
  obtain ⟨d1, e1, f1, n1, t1, r1, w1⟩ := registerTube_step
    (APP_Nixie_Initialize_configuration sizes d client shift) 0 rfl (by norm_num) htypes hrows
    (fun i hi => absurd hi (by omega))
  obtain ⟨d2, e2, f2, n2, t2, r2, w2⟩ := registerTube_step d1 1 n1 (by norm_num) t1 r1 w1
  obtain ⟨d3, e3, f3, n3, t3, r3, w3⟩ := registerTube_step d2 2 n2 (by norm_num) t2 r2 w2
  obtain ⟨d4, e4, f4, n4, t4, r4, w4⟩ := registerTube_step d3 3 n3 (by norm_num) t3 r3 w3
  refine ⟨{ d4 with num_shift_registers := 6 }, ?_, ?_, n4, rfl, ?_, ?_, ?_, ?_, w4⟩
  · unfold APP_Nixie_Initialize
    simp only [e1, e2, e3, e4]
  · show d4.state = _
    rw [f4, f3, f2, f1]
    rfl
  · show d4.app_shift_register_data = _
    rw [f4, f3, f2, f1]
    rfl
  · show d4.display_value = _
    rw [f4, f3, f2, f1]
    rfl
  · show d4.cathodes = _
    rw [f4, f3, f2, f1]
    rfl
  · show d4.register_shift_state = _
    rw [f4, f3, f2, f1]
    rfl

theorem IN12A_SymbolToCathodeIndex_range (s : Nat) :
    IN12A_SymbolToCathodeIndex s = -1 ∨
      (2 ≤ IN12A_SymbolToCathodeIndex s ∧ IN12A_SymbolToCathodeIndex s ≤ 10) := by
  unfold IN12A_SymbolToCathodeIndex
  by_cases h1 : s = 48
  · simp [h1]
  · by_cases h2 : s > 48 ∧ s ≤ 57
    · simp only [h1, h2, if_false, if_true, and_self]
      right
      omega
    · simp [h1, h2]

theorem cathodeMappingAt_configured (d : AppNixieData) (i s : Nat)
    (hw : ∀ j, 2 ≤ j → j ≤ 11 →
      wiringAt d.cathode_mapping i j = some { byte := 0, bit := 0 })
    (hne : IN12A_SymbolToCathodeIndex s ≠ -1) :
    cathodeMappingAt d i (IN12A_SymbolToCathodeIndex s) = some { byte := 0, bit := 0 } := by
  rcases IN12A_SymbolToCathodeIndex_range s with h | ⟨h1, h2⟩
  · exact absurd h hne
  · rw [cathodeMappingAt_eq_wiringAt, if_neg (by omega)]
    exact hw _ (by omega) (by omega)

theorem orBitInto_zero_zero (n : Nat) (hn : 1 ≤ n) :
    orBitInto (List.replicate n 0) 0 0 = some ((List.replicate n 0).set 0 1) ∧
    orBitInto ((List.replicate n 0).set 0 1) 0 0 = some ((List.replicate n 0).set 0 1) := by
  obtain ⟨m, rfl⟩ : ∃ m, n = m + 1 := ⟨n - 1, by omega⟩
  constructor <;> simp [orBitInto, arraySet, List.replicate_succ]

theorem encodeShiftLoop_uniform (d : AppNixieData) (n : Nat) (hn : 1 ≤ n) :
    ∀ (fuel i : Nat),
      (∀ k, i ≤ k → k < i + fuel → ∃ cathode, d.cathodes[k]? = some cathode ∧
        (cathode = -1 ∨ cathodeMappingAt d k cathode = some { byte := 0, bit := 0 })) →
      encodeShiftLoop d fuel i ((List.replicate n 0).set 0 1) =
        some ((List.replicate n 0).set 0 1) ∧
      ((∃ k, i ≤ k ∧ k < i + fuel ∧ d.cathodes[k]? ≠ some (-1)) →
        encodeShiftLoop d fuel i (List.replicate n 0) =
          some ((List.replicate n 0).set 0 1)) := by
  intro fuel
  induction fuel with
  | zero =>
    intro i _
    refine ⟨rfl, ?_⟩
    rintro ⟨k, h1, h2, _⟩
    omega
  | succ fuel ih =>
    intro i hdef
    obtain ⟨cathode, hc, hcase⟩ := hdef i (le_refl i) (by omega)
    obtain ⟨ih1, ih2⟩ := ih (i + 1) (fun k hk1 hk2 => hdef k (by omega) (by omega))
    unfold encodeShiftLoop
    simp only [hc]
    by_cases hneg : cathode = -1
    · simp only [hneg, if_true]
      refine ⟨ih1, ?_⟩
      rintro ⟨k, hk1, hk2, hk3⟩
      have hki : k ≠ i := by
        rintro rfl
        rw [hc, hneg] at hk3
        exact hk3 rfl
      exact ih2 ⟨k, by omega, by omega, hk3⟩
    · simp only [hneg, if_false, hcase.resolve_left hneg, (orBitInto_zero_zero n hn).1,
        (orBitInto_zero_zero n hn).2]
      exact ⟨ih1, fun _ => ih1⟩

theorem take_six_registers (n : Nat) (hn : 6 ≤ n) :
    (List.replicate n 0).take 6 = [0, 0, 0, 0, 0, 0] ∧
    ((List.replicate n 0).set 0 1).take 6 = [1, 0, 0, 0, 0, 0] := by
  obtain ⟨m, rfl⟩ : ∃ m, n = m + 6 := ⟨n - 6, by omega⟩
  constructor <;> simp [List.replicate_succ]

theorem strncpy_getElem? (dest src : List Nat) (i : Nat) (hi : i < dest.length) :
    (strncpy dest src)[i]? =
      some (((src.takeWhile (fun ch => ch != 0))[i]?).getD 0) := by
  unfold strncpy
  simp only []
  by_cases h : i < (src.takeWhile (fun ch => ch != 0)).length
  · rw [List.getElem?_append_left (by simp; omega)]
    simp [List.getElem?_take, hi, h]
  · rw [List.getElem?_append_right (by simp; omega)]
    simp only [List.length_take]
    rw [List.getElem?_replicate, if_pos (by omega)]
    simp [List.getElem?_eq_none (not_lt.mp h)]

theorem configured_decode_encode (d : AppNixieData)
    (hnum : d.num_nixies = 4)
    (hcfg : ∀ i : Nat, i < 4 → d.nixie_types[i]? = some NixieType.IN12A ∧
      ∀ j, 2 ≤ j → j ≤ 11 → wiringAt d.cathode_mapping i j = some { byte := 0, bit := 0 })
    (hdv : 4 ≤ d.display_value.length) (hcs : 4 ≤ d.cathodes.length)
    (hrs : 1 ≤ d.register_shift_state.length) :
    ∃ cathodes regs,
      decodeDisplayValue d =
        some { d with cathodes := cathodes,
                      state := APP_NIXIE_STATE.ENCODE_SHIFT_REGISTER } ∧
      encodeShiftRegister { d with cathodes := cathodes,
                                   state := APP_NIXIE_STATE.ENCODE_SHIFT_REGISTER } =
        some { d with cathodes := cathodes, register_shift_state := regs,
                      state := APP_NIXIE_STATE.WRITE_SHIFT_REGISTER } ∧
      cathodes.length = d.cathodes.length ∧
      (∀ i, i < 4 → ∃ s, d.display_value[i]? = some s ∧
        cathodes[i]? = some (IN12A_SymbolToCathodeIndex s)) ∧
      ((∀ i s, i < 4 → d.display_value[i]? = some s → IN12A_SymbolToCathodeIndex s = -1) →
        regs = List.replicate d.register_shift_state.length 0) ∧
      ((∃ i s, i < 4 ∧ d.display_value[i]? = some s ∧ IN12A_SymbolToCathodeIndex s ≠ -1) →
        regs = (List.replicate d.register_shift_state.length 0).set 0 1) := by
  have hlen : 4 ≤ d.nixie_types.length := by
    have h3 := (hcfg 3 (by norm_num)).1
    have := (List.getElem?_eq_some_iff.mp h3).1
    omega
  obtain ⟨cs, h1, h2, h3, _⟩ := decodeDisplayLoop_spec d d.num_nixies 0 d.cathodes
    (by omega) (by omega) (by omega)
  have hsym : ∀ i, i < 4 → ∃ s, d.display_value[i]? = some s ∧
      cs[i]? = some (IN12A_SymbolToCathodeIndex s) := by
    intro i hi
    obtain ⟨t, s, ht, hs, hc⟩ := h3 i (Nat.zero_le i) (by omega)
    rw [(hcfg i hi).1] at ht
    rw [← Option.some.inj ht] at hc
    exact ⟨s, hs, hc⟩
  have hdef : ∀ k, 0 ≤ k → k < 0 + d.num_nixies → ∃ cathode, cs[k]? = some cathode ∧
      (cathode = -1 ∨ cathodeMappingAt d k cathode = some { byte := 0, bit := 0 }) := by
    intro k _ hk
    obtain ⟨s, _, hc⟩ := hsym k (by omega)
    refine ⟨_, hc, ?_⟩
    by_cases hne : IN12A_SymbolToCathodeIndex s = -1
    · exact Or.inl hne
    · exact Or.inr (cathodeMappingAt_configured d k s (hcfg k (by omega)).2 hne)
  have hloop := encodeShiftLoop_uniform
    { d with cathodes := cs, state := APP_NIXIE_STATE.ENCODE_SHIFT_REGISTER }
    d.register_shift_state.length hrs d.num_nixies 0 hdef
  by_cases hany : ∃ k, 0 ≤ k ∧ k < 0 + d.num_nixies ∧ cs[k]? ≠ some (-1)
  · refine ⟨cs, (List.replicate d.register_shift_state.length 0).set 0 1, ?_, ?_, h2, hsym,
      ?_, fun _ => rfl⟩
    · unfold decodeDisplayValue
      rw [h1]
    · unfold encodeShiftRegister
      have e := hloop.2 hany
      simp only [] at e ⊢
      rw [e]
    · intro hall
      obtain ⟨k, _, hk, hne⟩ := hany
      obtain ⟨s, hs, hc⟩ := hsym k (by omega)
      rw [hc, hall k s (by omega) hs] at hne
      exact absurd rfl hne
  · refine ⟨cs, List.replicate d.register_shift_state.length 0, ?_, ?_, h2, hsym,
      fun _ => rfl, ?_⟩
    · unfold decodeDisplayValue
      rw [h1]
    · have e := encodeShiftLoop_no_cathode
        { d with cathodes := cs, state := APP_NIXIE_STATE.ENCODE_SHIFT_REGISTER }
        d.num_nixies 0 (List.replicate d.register_shift_state.length 0)
        (fun k hk1 hk2 => by
          by_contra hne
          exact hany ⟨k, hk1, hk2, hne⟩)
      unfold encodeShiftRegister
      simp only [] at e ⊢
      rw [e]
    · rintro ⟨i, s, hi, hs, hne⟩
      exfalso
      apply hany
      refine ⟨i, Nat.zero_le i, by omega, ?_⟩
      obtain ⟨s2, hs2, hc⟩ := hsym i hi
      rw [hs] at hs2
      rw [hc, ← Option.some.inj hs2]
      intro h
      exact hne (Option.some.inj h)

/-- C30: wiring lookups are valid after setup. When the arrays have room for the four tubes
of twelve cathodes and the six registers, `APP_Nixie_Initialize` returns with four tubes and
six shift registers, and for every content `value` of `display_value`,
`decodeDisplayValue` and then `encodeShiftRegister` return; the cathode index of every tube
is -1 or lies in 2..11, is the index of a `NIXIE_CATHODE` line of the wiring diagram, and
the entry looked up for it is the one that line stored, with register index below
`num_shift_registers` and bit index below 8, so that both assertions hold and `1 << bit` is
below 256. -/
theorem wiring_lookups_valid (sizes : AppNixieDataSizes) (d0 : AppNixieData)
    (client shift : Nat) (value : List Nat)
    (htypes : 4 ≤ d0.nixie_types.length)
    (hrows : ∀ i : Nat, i < 4 →
      ∃ m, (d0.cathode_mapping[i]?).map List.length = some m ∧ 12 ≤ m)
    (hvalue : 4 ≤ value.length) (hcathodes : 4 ≤ d0.cathodes.length)
    (hregs : 6 ≤ d0.register_shift_state.length) :
    ∃ dI dD dE,
      APP_Nixie_Initialize sizes d0 client shift = some dI ∧
      dI.num_nixies = 4 ∧ dI.num_shift_registers = 6 ∧
      decodeDisplayValue { dI with display_value := value } = some dD ∧
      encodeShiftRegister dD = some dE ∧
      ∀ i, i < dI.num_nixies → ∃ cathode, dD.cathodes[i]? = some cathode ∧
        (cathode = -1 ∨
          (2 ≤ cathode ∧ cathode ≤ 11 ∧
            ∃ line ∈ IN12A_wiring, (line.cathode_index : Int) = cathode ∧
              ∃ m, cathodeMappingAt dD i cathode = some m ∧
                m = { byte := line.shift_byte, bit := line.shift_bit } ∧
                m.byte < dD.num_shift_registers ∧ m.bit < 8 ∧ m.bit ≤ 8 ∧
                1 <<< m.bit < 256)) := by
  obtain ⟨dI, hI, _, hnum, hsr, _, _, hcs, hrs, hcfg⟩ :=
    APP_Nixie_Initialize_spec sizes d0 client shift htypes hrows
  obtain ⟨cathodes, regs, hD, hE, _, hsym, _, _⟩ :=
    configured_decode_encode { dI with display_value := value } hnum hcfg hvalue
      (by rw [show ({ dI with display_value := value } : AppNixieData).cathodes =
        d0.cathodes from hcs]; exact hcathodes)
      (by rw [show ({ dI with display_value := value } : AppNixieData).register_shift_state =
        d0.register_shift_state from hrs]; omega)
  refine ⟨dI, _, _, hI, hnum, hsr, hD, hE, ?_⟩
  intro i hi
  rw [hnum] at hi
  obtain ⟨s, _, hc⟩ := hsym i hi
  refine ⟨_, hc, ?_⟩
  rcases IN12A_SymbolToCathodeIndex_range s with h | ⟨h1, h2⟩
  · exact Or.inl h
  · right
    refine ⟨h1, by omega, ?_⟩
    obtain ⟨l, hl, hlj⟩ := IN12A_wiring_lines.2 (IN12A_SymbolToCathodeIndex s).toNat
      (by omega) (by omega)
    obtain ⟨_, hb1, hb2⟩ := IN12A_wiring_lines.1 l hl
    refine ⟨l, hl, by omega, { byte := 0, bit := 0 }, ?_, by rw [hb1, hb2], ?_, ?_, ?_, ?_⟩
    · exact cathodeMappingAt_configured _ i s (hcfg i hi).2 (by omega)
    · show 0 < dI.num_shift_registers
      omega
    · norm_num
    · norm_num
    · norm_num

/-- Witness of C30: setup of the example memory, then the display content 0959. -/
theorem wiring_lookups_valid_witness :
    (APP_Nixie_Initialize exampleSizes exampleMemory 1 2).map
        (fun d => (d.num_nixies, d.num_shift_registers, d.cathode_mapping)) =
      some (4, 6, List.replicate 4
        ([{ byte := 9, bit := 9 }, { byte := 9, bit := 9 }] ++
          List.replicate 10 { byte := 0, bit := 0 } ++ [{ byte := 9, bit := 9 }])) ∧
    ((APP_Nixie_Initialize exampleSizes exampleMemory 1 2).bind
        (fun d => decodeDisplayValue { d with display_value := charCodes "0959" })).map
        (fun d => d.cathodes) = some [2, 2, 6, 2] ∧
    ∃ dI dD dE,
      APP_Nixie_Initialize exampleSizes exampleMemory 1 2 = some dI ∧
      dI.num_nixies = 4 ∧ dI.num_shift_registers = 6 ∧
      decodeDisplayValue { dI with display_value := charCodes "0959" } = some dD ∧
      encodeShiftRegister dD = some dE ∧
      ∀ i, i < dI.num_nixies → ∃ cathode, dD.cathodes[i]? = some cathode ∧
        (cathode = -1 ∨
          (2 ≤ cathode ∧ cathode ≤ 11 ∧
            ∃ line ∈ IN12A_wiring, (line.cathode_index : Int) = cathode ∧
              ∃ m, cathodeMappingAt dD i cathode = some m ∧
                m = { byte := line.shift_byte, bit := line.shift_bit } ∧
                m.byte < dD.num_shift_registers ∧ m.bit < 8 ∧ m.bit ≤ 8 ∧
                1 <<< m.bit < 256)) :=
  ⟨by decide, by decide,
   wiring_lookups_valid exampleSizes exampleMemory 1 2 (charCodes "0959") (by decide)
     (fun i hi => ⟨13, by interval_cases i <;> decide, by norm_num⟩)
     (by decide) (by decide) (by decide)⟩

theorem registers_testBit (x r b : Nat) (hx : x = 0 ∨ x = 1) :
    (([x, 0, 0, 0, 0, 0] : List Nat).getD r 0).testBit b = true ↔ x = 1 ∧ r = 0 ∧ b = 0 := by
  rcases hx with rfl | rfl
  · rcases r with _ | _ | _ | _ | _ | _ | r <;> simp
  · rcases r with _ | _ | _ | _ | _ | _ | r
    · rcases b with _ | b
      · simp
      · simp [Nat.testBit_succ]
    all_goals simp

theorem strncpy_length (dest src : List Nat) : (strncpy dest src).length = dest.length := by
  unfold strncpy
  simp only [List.length_append, List.length_replicate, List.length_take]
  omega

theorem display_sequence (d : AppNixieData) (value : List Nat)
    (e1 e2 e3 e4 : Nixie_Transports)
    (hidle : d.state = APP_NIXIE_STATE.IDLE)
    (hnum : d.num_nixies = 4) (hsr : d.num_shift_registers = 6)
    (hcfg : ∀ i : Nat, i < 4 → d.nixie_types[i]? = some NixieType.IN12A ∧
      ∀ j, 2 ≤ j → j ≤ 11 → wiringAt d.cathode_mapping i j = some { byte := 0, bit := 0 })
    (hdv : 4 ≤ d.display_value.length) (hcs : 4 ≤ d.cathodes.length)
    (hrs : 6 ≤ d.register_shift_state.length)
    (hfree : e4.shift_register_is_busy = false) :
    ∃ cathodes regs,
      APP_Nixie_Display d value =
        { accepted := true,
          data := { d with display_value :=
                             strncpy (List.replicate d.display_value.length 0) value,
                           state := APP_NIXIE_STATE.BEGIN_DISPLAY_SEQUENCE },
          calls := [] } ∧
      APP_Nixie_Tasks e1
          { d with display_value := strncpy (List.replicate d.display_value.length 0) value,
                   state := APP_NIXIE_STATE.BEGIN_DISPLAY_SEQUENCE } =
        some ({ d with display_value :=
                         strncpy (List.replicate d.display_value.length 0) value,
                       state := APP_NIXIE_STATE.DECODE_DISPLAY_VALUE }, []) ∧
      APP_Nixie_Tasks e2
          { d with display_value := strncpy (List.replicate d.display_value.length 0) value,
                   state := APP_NIXIE_STATE.DECODE_DISPLAY_VALUE } =
        some ({ d with display_value :=
                         strncpy (List.replicate d.display_value.length 0) value,
                       cathodes := cathodes,
                       state := APP_NIXIE_STATE.ENCODE_SHIFT_REGISTER }, []) ∧
      APP_Nixie_Tasks e3
          { d with display_value := strncpy (List.replicate d.display_value.length 0) value,
                   cathodes := cathodes,
                   state := APP_NIXIE_STATE.ENCODE_SHIFT_REGISTER } =
        some ({ d with display_value :=
                         strncpy (List.replicate d.display_value.length 0) value,
                       cathodes := cathodes, register_shift_state := regs,
                       state := APP_NIXIE_STATE.WRITE_SHIFT_REGISTER }, []) ∧
      APP_Nixie_Tasks e4
          { d with display_value := strncpy (List.replicate d.display_value.length 0) value,
                   cathodes := cathodes, register_shift_state := regs,
                   state := APP_NIXIE_STATE.WRITE_SHIFT_REGISTER } =
        some ({ d with display_value :=
                         strncpy (List.replicate d.display_value.length 0) value,
                       cathodes := cathodes, register_shift_state := regs,
                       state := APP_NIXIE_STATE.IDLE },
              [Nixie_Call.ShiftRegister_SendData d.app_shift_register_data
                 (regs.take 6) 6]) ∧
      cathodes.length = d.cathodes.length ∧
      regs.length = d.register_shift_state.length ∧
      (∀ i, i < 4 →
        (strncpy (List.replicate d.display_value.length 0) value)[i]? =
          some (displayedSymbol value i)) ∧
      regs.take 6 =
        [if ∃ i, i < 4 ∧ IN12A_SymbolToCathodeIndex (displayedSymbol value i) ≠ -1
         then 1 else 0, 0, 0, 0, 0, 0] := by
  have hsymbol : ∀ i, i < 4 →
      (strncpy (List.replicate d.display_value.length 0) value)[i]? =
        some (displayedSymbol value i) := by
    intro i hi
    exact strncpy_getElem? _ value i (by simp; omega)
  obtain ⟨cathodes, regs, hD, hE, hclen, hsym, hnone, hsome⟩ :=
    configured_decode_encode
      { d with display_value := strncpy (List.replicate d.display_value.length 0) value,
               state := APP_NIXIE_STATE.DECODE_DISPLAY_VALUE }
      hnum hcfg (by simp [strncpy_length]; exact hdv) hcs (by
        show 1 ≤ d.register_shift_state.length
        omega)
  have hregs : regs.length = d.register_shift_state.length ∧ regs.take 6 =
      [if ∃ i, i < 4 ∧ IN12A_SymbolToCathodeIndex (displayedSymbol value i) ≠ -1
       then 1 else 0, 0, 0, 0, 0, 0] := by
    by_cases hany : ∃ i, i < 4 ∧ IN12A_SymbolToCathodeIndex (displayedSymbol value i) ≠ -1
    · obtain ⟨i, hi, hne⟩ := hany
      have hr := hsome ⟨i, displayedSymbol value i, hi, hsymbol i hi, hne⟩
      rw [hr, if_pos ⟨i, hi, hne⟩]
      exact ⟨by simp, (take_six_registers _ hrs).2⟩
    · have hr := hnone (fun i s hi hs => by
        by_contra hne
        have hs2 : some s = some (displayedSymbol value i) := by
          rw [← hs]
          exact hsymbol i hi
        rw [Option.some.inj hs2] at hne
        exact hany ⟨i, hi, hne⟩)
      rw [hr, if_neg hany]
      exact ⟨by simp, (take_six_registers _ hrs).1⟩
  refine ⟨cathodes, regs, ?_, rfl, ?_, ?_, ?_, hclen, hregs.1, hsymbol, hregs.2⟩
  · unfold APP_Nixie_Display APP_Nixie_IsBusy
    simp [hidle]
  · show (decodeDisplayValue _).map _ = _
    rw [hD]
    rfl
  · show (encodeShiftRegister _).map _ = _
    rw [hE]
    rfl
  · show some (writeShiftRegister e4 _) = _
    unfold writeShiftRegister
    simp [hfree, hsr]

/-- C27: end-to-end display. When the arrays have room for the four tubes of twelve cathodes
and the six registers, `APP_Nixie_Initialize` returns a pipeline `dI`; whatever
`display_value`, `cathodes` and `register_shift_state` hold afterwards (`dv`, `cs`, `rs`:
the contents the memory had, or those of an earlier display), `APP_Nixie_Display` of `value`
is accepted without a transport call and leaves `BEGIN_DISPLAY_SEQUENCE`; four polls, the
Shift-Register Transport being free at the fourth, go through `DECODE_DISPLAY_VALUE`,
`ENCODE_SHIFT_REGISTER` and `WRITE_SHIFT_REGISTER` to `IDLE`, and they issue exactly one
call, the send of six bytes on the transport given at setup.  Bit `b` of byte `r` is set if
and only if some tube `i` shows a symbol with a cathode whose wiring entry is `{r, b}`; the
bytes are 1 or 0 followed by five zeros, 1 exactly when one of the first four characters of
`value` before its NUL is a digit, so they depend on `value` only.  The pipeline is left as
set up, with new contents of the three arrays of the same sizes. -/
theorem display_end_to_end (sizes : AppNixieDataSizes) (d0 : AppNixieData)
    (client shift : Nat) (value : List Nat) (e1 e2 e3 e4 : Nixie_Transports)
    (dv : List Nat) (cs : List Int) (rs : List Nat)
    (htypes : 4 ≤ d0.nixie_types.length)
    (hrows : ∀ i : Nat, i < 4 →
      ∃ m, (d0.cathode_mapping[i]?).map List.length = some m ∧ 12 ≤ m)
    (hdv : 4 ≤ dv.length) (hcs : 4 ≤ cs.length) (hrs : 6 ≤ rs.length)
    (hfree : e4.shift_register_is_busy = false) :
    ∃ dI dB d1 d2 d3 d4 bytes,
      APP_Nixie_Initialize sizes d0 client shift = some dI ∧
      APP_Nixie_Display
          { dI with display_value := dv, cathodes := cs, register_shift_state := rs } value =
        { accepted := true, data := dB, calls := [] } ∧
      dB.state = APP_NIXIE_STATE.BEGIN_DISPLAY_SEQUENCE ∧
      (∀ i, i < 4 → dB.display_value[i]? = some (displayedSymbol value i)) ∧
      APP_Nixie_Tasks e1 dB = some (d1, []) ∧
      d1.state = APP_NIXIE_STATE.DECODE_DISPLAY_VALUE ∧
      APP_Nixie_Tasks e2 d1 = some (d2, []) ∧
      d2.state = APP_NIXIE_STATE.ENCODE_SHIFT_REGISTER ∧
      APP_Nixie_Tasks e3 d2 = some (d3, []) ∧
      d3.state = APP_NIXIE_STATE.WRITE_SHIFT_REGISTER ∧
      APP_Nixie_Tasks e4 d3 =
        some (d4, [Nixie_Call.ShiftRegister_SendData shift bytes 6]) ∧
      d4.state = APP_NIXIE_STATE.IDLE ∧
      APP_Nixie_Tasks_repeat [e1, e2, e3, e4] dB =
        some (d4, [Nixie_Call.ShiftRegister_SendData shift bytes 6]) ∧
      bytes.length = 6 ∧
      (∀ r b, (bytes.getD r 0).testBit b = true ↔
        ∃ i, i < 4 ∧ IN12A_SymbolToCathodeIndex (displayedSymbol value i) ≠ -1 ∧
          cathodeMappingAt dI i (IN12A_SymbolToCathodeIndex (displayedSymbol value i)) =
            some { byte := r, bit := b }) ∧
      bytes =
        [if ∃ i, i < 4 ∧ IN12A_SymbolToCathodeIndex (displayedSymbol value i) ≠ -1
         then 1 else 0, 0, 0, 0, 0, 0] ∧
      d4 = { dI with display_value := d4.display_value, cathodes := d4.cathodes,
                     register_shift_state := d4.register_shift_state } ∧
      d4.display_value.length = dv.length ∧ d4.cathodes.length = cs.length ∧
      d4.register_shift_state.length = rs.length := by
  obtain ⟨dI, hI, hidle, hnum, hsr, hshift, _, _, _, hcfg⟩ :=
    APP_Nixie_Initialize_spec sizes d0 client shift htypes hrows
  obtain ⟨cathodes, regs, hshow, h1, h2, h3, h4, hclen, hrlen, hsymbol, hbytes⟩ :=
    display_sequence
      { dI with display_value := dv, cathodes := cs, register_shift_state := rs } value
      e1 e2 e3 e4 hidle hnum hsr hcfg hdv hcs hrs hfree
  have hlookup : ∀ i, i < 4 →
      IN12A_SymbolToCathodeIndex (displayedSymbol value i) ≠ -1 →
      cathodeMappingAt dI i (IN12A_SymbolToCathodeIndex (displayedSymbol value i)) =
        some { byte := 0, bit := 0 } :=
    fun i hi hne => cathodeMappingAt_configured dI i _ (hcfg i hi).2 hne
  refine ⟨dI,
    { dI with display_value := strncpy (List.replicate dv.length 0) value, cathodes := cs,
              register_shift_state := rs,
              state := APP_NIXIE_STATE.BEGIN_DISPLAY_SEQUENCE },
    { dI with display_value := strncpy (List.replicate dv.length 0) value, cathodes := cs,
              register_shift_state := rs,
              state := APP_NIXIE_STATE.DECODE_DISPLAY_VALUE },
    { dI with display_value := strncpy (List.replicate dv.length 0) value,
              cathodes := cathodes, register_shift_state := rs,
              state := APP_NIXIE_STATE.ENCODE_SHIFT_REGISTER },
    { dI with display_value := strncpy (List.replicate dv.length 0) value,
              cathodes := cathodes, register_shift_state := regs,
              state := APP_NIXIE_STATE.WRITE_SHIFT_REGISTER },
    { dI with display_value := strncpy (List.replicate dv.length 0) value,
              cathodes := cathodes, register_shift_state := regs,
              state := APP_NIXIE_STATE.IDLE },
    regs.take 6, hI, hshow, rfl, hsymbol, h1, rfl, h2, rfl, h3, rfl,
    ?_, rfl, ?_, ?_, ?_, hbytes, ?_, ?_, ?_, ?_⟩
  · rw [h4]
    exact congrArg (fun x => some (_, [Nixie_Call.ShiftRegister_SendData x (regs.take 6) 6]))
      hshift
  · simp only [APP_Nixie_Tasks_repeat, h1, h2, h3, h4]
    exact congrArg (fun x => some (_, [Nixie_Call.ShiftRegister_SendData x (regs.take 6) 6]))
      hshift
  · rw [hbytes]
    rfl
  · intro r b
    rw [hbytes, registers_testBit _ r b (by
      by_cases hany : ∃ i, i < 4 ∧
          IN12A_SymbolToCathodeIndex (displayedSymbol value i) ≠ -1
      · exact Or.inr (if_pos hany)
      · exact Or.inl (if_neg hany))]
    constructor
    · rintro ⟨hx, rfl, rfl⟩
      by_cases hany : ∃ i, i < 4 ∧
          IN12A_SymbolToCathodeIndex (displayedSymbol value i) ≠ -1
      · obtain ⟨i, hi, hne⟩ := hany
        exact ⟨i, hi, hne, hlookup i hi hne⟩
      · rw [if_neg hany] at hx
        exact absurd hx (by norm_num)
    · rintro ⟨i, hi, hne, hm⟩
      rw [hlookup i hi hne] at hm
      have hm2 := Option.some.inj hm
      refine ⟨if_pos ⟨i, hi, hne⟩, ?_, ?_⟩
      · exact (congrArg CathodeMapping.byte hm2).symm
      · exact (congrArg CathodeMapping.bit hm2).symm
  · show _ = ({ dI with display_value := _, cathodes := _, register_shift_state := _ } :
      AppNixieData)
    rw [AppNixieData.mk.injEq]
    exact ⟨hidle.symm, rfl, rfl, rfl, rfl, rfl, rfl, rfl, rfl, rfl, rfl, rfl, rfl, rfl, rfl⟩
  · show (strncpy (List.replicate dv.length 0) value).length = dv.length
    simp [strncpy_length]
  · exact hclen
  · exact hrlen

/-- Witness of C27: setup of the example memory, which still holds an earlier pattern, then
the value 42 and four polls with free transports; the value without a digit sends zeros. -/
theorem display_end_to_end_witness :
    ((APP_Nixie_Initialize exampleSizes exampleMemory 1 2).bind
        (fun d => APP_Nixie_Tasks_repeat
          [exampleFreeTransports, exampleFreeTransports, exampleFreeTransports,
           exampleFreeTransports]
          (APP_Nixie_Display d (charCodes "42")).data)).map
        (fun r => (r.1.state, r.1.display_value, r.1.cathodes, r.2)) =
      some (APP_NIXIE_STATE.IDLE, [52, 50, 0, 0], [7, 9, -1, -1],
        [Nixie_Call.ShiftRegister_SendData 2 [1, 0, 0, 0, 0, 0] 6]) ∧
    ((APP_Nixie_Initialize exampleSizes exampleMemory 1 2).bind
        (fun d => APP_Nixie_Tasks_repeat
          [exampleFreeTransports, exampleFreeTransports, exampleFreeTransports,
           exampleFreeTransports]
          (APP_Nixie_Display d (charCodes "ab")).data)).map (fun r => r.2) =
      some [Nixie_Call.ShiftRegister_SendData 2 [0, 0, 0, 0, 0, 0] 6] ∧
    ∃ dI dB d4 bytes,
      APP_Nixie_Initialize exampleSizes exampleMemory 1 2 = some dI ∧
      APP_Nixie_Display
          { dI with display_value := charCodes "1234", cathodes := [5, 5, 5, 5],
                    register_shift_state := [0xff, 0xff, 0xff, 0xff, 0xff, 0xff] }
          (charCodes "42") =
        { accepted := true, data := dB, calls := [] } ∧
      APP_Nixie_Tasks_repeat
          [exampleFreeTransports, exampleFreeTransports, exampleFreeTransports,
           exampleFreeTransports] dB =
        some (d4, [Nixie_Call.ShiftRegister_SendData 2 bytes 6]) ∧
      d4.state = APP_NIXIE_STATE.IDLE ∧
      bytes =
        [if ∃ i, i < 4 ∧ IN12A_SymbolToCathodeIndex (displayedSymbol (charCodes "42") i) ≠ -1
         then 1 else 0, 0, 0, 0, 0, 0] :=
  ⟨by decide, by decide, by
    obtain ⟨dI, dB, _, _, _, d4, bytes, h⟩ :=
      display_end_to_end exampleSizes exampleMemory 1 2 (charCodes "42")
        exampleFreeTransports exampleFreeTransports exampleFreeTransports
        exampleFreeTransports (charCodes "1234") [5, 5, 5, 5]
        [0xff, 0xff, 0xff, 0xff, 0xff, 0xff] (by decide)
        (fun i hi => ⟨13, by interval_cases i <;> decide, by norm_num⟩)
        (by decide) (by decide) (by decide) rfl
    exact ⟨dI, dB, d4, bytes, h.1, h.2.1, h.2.2.2.2.2.2.2.2.2.2.2.2.1,
      h.2.2.2.2.2.2.2.2.2.2.2.1, h.2.2.2.2.2.2.2.2.2.2.2.2.2.2.2.1⟩⟩

/-! ## Theorems: BCD re-encoding -/

set_option maxRecDepth 100000 in
theorem convertToBCD_convertFromBCD_bytes :
    ∀ b < 256, b >>> 4 ≤ 9 → b &&& 0xF ≤ 9 →
      convertFromBCD b ≤ 99 ∧ convertToBCD (convertFromBCD b) = b := by
  decide

set_option maxRecDepth 100000 in
theorem convertToBCD_nibbles :
    ∀ d < 100, convertToBCD d < 256 ∧ convertToBCD d >>> 4 = d / 10 ∧
      convertToBCD d &&& 0xF = d % 10 := by
  decide

/-- C31: BCD re-encoding. For every byte `b` whose two nibbles `b >> 4` and `b & 0xF` are
both at most 9, `convertFromBCD b` is at most 99 and `convertToBCD (convertFromBCD b)` is
`b` again; and for every decimal `d` with `0 <= d <= 99`, `convertToBCD d` is a byte whose
high nibble is `d / 10` and whose low nibble is `d % 10`, both at most 9. -/
theorem convertToBCD_convertFromBCD (b d : Nat) (hb : b < 256) (hhigh : b >>> 4 ≤ 9)
    (hlow : b &&& 0xF ≤ 9) (hd : d ≤ 99) :
    convertFromBCD b ≤ 99 ∧ convertToBCD (convertFromBCD b) = b ∧
    convertToBCD d < 256 ∧ convertToBCD d >>> 4 ≤ 9 ∧ convertToBCD d &&& 0xF ≤ 9 ∧
    convertToBCD d >>> 4 = d / 10 ∧ convertToBCD d &&& 0xF = d % 10 := by
  obtain ⟨h1, h2⟩ := convertToBCD_convertFromBCD_bytes b hb hhigh hlow
  obtain ⟨h3, h4, h5⟩ := convertToBCD_nibbles d (by omega)
  refine ⟨h1, h2, h3, ?_, ?_, h4, h5⟩
  · rw [h4]
    omega
  · rw [h5]
    omega

/-- Witness of C31 at the byte 0x47 and the decimal 47; the byte 0x0a, whose low nibble is
above 9, is decoded as 10 and encoded again as 0x10. -/
theorem convertToBCD_convertFromBCD_witness :
    convertFromBCD 0x47 = 47 ∧ convertToBCD 47 = 0x47 ∧
    convertFromBCD 0x0a = 10 ∧ convertToBCD 10 = 0x10 ∧
    (convertFromBCD 0x47 ≤ 99 ∧ convertToBCD (convertFromBCD 0x47) = 0x47 ∧
     convertToBCD 47 < 256 ∧ convertToBCD 47 >>> 4 ≤ 9 ∧ convertToBCD 47 &&& 0xF ≤ 9 ∧
     convertToBCD 47 >>> 4 = 47 / 10 ∧ convertToBCD 47 &&& 0xF = 47 % 10) :=
  ⟨by decide, by decide, by decide, by decide,
   convertToBCD_convertFromBCD 0x47 47 (by decide) (by decide) (by decide) (by decide)⟩
